import Mathlib

/-!
The titan-quest mission verification and crediting engine.

A shallow embedding of `api/quest.go` (the `CheckQuestHandler` orchestrator, the
per-mission `check*` predicates and `GetUToolKeyByRoundRobin`).

Conventions of the embedding

* A Go `error` is an `Option String`: `none` is `nil`, `some msg` is an error
  with that message.
* A run-time fault of the Go program (failed type assertion, integer division by
  zero, index out of range) is the `panic` outcome.
* The mutable state touched by the code is the `World`: the ledger of
  `UserMission` rows, the package variable `globalCounter`, and a ghost log of
  the outgoing calls made to external services.
* Everything outside `api/quest.go` (the `dao` package, the u-tool client, the
  bots, redis, the clock, the JSON/URL libraries) is a field of `Env`.
-/

namespace TitanQuest

/-! ## Data model -/

/-- Row of `model.Mission` (also used for sub-missions, as `dao.GetSubMissions` does). -/
structure Mission where
  ID : Int
  Typ : Int
  Credit : Int
  OpenUrl : String
  TargetID : String
  Title : String
  deriving DecidableEq, Repr, Inhabited

/-- Row of `model.UserMission`: one ledger entry. -/
structure UserMission where
  Username : String
  MissionID : Int
  SubMissionID : Int
  Typ : Int
  Credit : Int
  Content : String
  CreatedAt : Int
  deriving DecidableEq, Repr, Inhabited

/-- The fields of `dao.QueryOption` that `CheckQuestHandler` sets. `StartTime = none`
is the empty string of the source (no lower bound on the creation time). -/
structure QueryOption where
  Content : String
  StartTime : Option Int
  deriving DecidableEq, Repr, Inhabited

/-- Vendor payload `result.Data`, an `interface{}` in the generated client. -/
inductive Payload where
  | str (s : String)
  | other
  deriving DecidableEq, Repr, Inhabited

/-- Vendor envelope `{code, msg, data}` returned by the u-tool client. -/
structure Envelope where
  Code : Int
  Msg : String
  Data : Payload
  deriving DecidableEq, Repr, Inhabited

/-- Value tree of `fastjson`. -/
inductive JVal where
  | null
  | bool (b : Bool)
  | num (raw : String)
  | str (s : String)
  | arr (items : List JVal)
  | obj (kvs : List (String × JVal))
  deriving Repr, Inhabited

/-- Parsed `url.URL`: the path and the decoded query pairs. -/
structure URL where
  Path : String
  Query : List (String × String)
  deriving DecidableEq, Repr, Inhabited

/-- Error kinds of package `errorsx` answered by the handlers; `NotFound` is the kind
named by the specification, `quest.go` never answers it. -/
inductive ErrorCode where
  | InternalServer
  | InvalidParams
  | NoImplement
  | MissionUnComplete
  | SocialMediaAccountIsAlreadyInUse
  | NotFound
  deriving DecidableEq, Repr, Inhabited

/-- Mission id and mission type constants of package `api`; they are declared outside
`quest.go`, so they are a parameter of the embedding. -/
structure Consts where
  MissionIdFollowTwitter : Int
  MissionIdRetweet : Int
  MissionIdLikeTwitter : Int
  MissionIdJoinDiscord : Int
  MissionIdBindingKOL : Int
  MissionIdVisitOfficialWebsite : Int
  MissionIdVisitReferrerPage : Int
  MissionIdJoinTelegramGroup : Int
  MissionIdJoinTelegramVolunteerGroup : Int
  MissionIdQuoteTweet : Int
  MissionIdPostTweet : Int
  MissionIdInviteFriendsToDiscord : Int
  MissionIdJoinDCVolunteerChannel : Int
  MissionTypeDaily : Int
  MissionTypeWeekly : Int
  deriving DecidableEq, Repr, Inhabited

/-- The case constants of the dispatch `switch`, in source order. -/
def Consts.caseIds (k : Consts) : List Int :=
  [k.MissionIdFollowTwitter, k.MissionIdRetweet, k.MissionIdLikeTwitter, k.MissionIdJoinDiscord,
   k.MissionIdBindingKOL, k.MissionIdVisitOfficialWebsite, k.MissionIdVisitReferrerPage,
   k.MissionIdJoinTelegramGroup, k.MissionIdJoinTelegramVolunteerGroup, k.MissionIdQuoteTweet,
   k.MissionIdPostTweet, k.MissionIdInviteFriendsToDiscord, k.MissionIdJoinDCVolunteerChannel]

/-- Go rejects a `switch` with duplicate integer case constants, so the thirteen case
constants of the dispatch are pairwise distinct. -/
def Consts.Distinct (k : Consts) : Prop := k.caseIds.Nodup

instance (k : Consts) : Decidable k.Distinct := by
  unfold Consts.Distinct; infer_instance

/-- The part of `config.Cfg` read by the code. -/
structure Config where
  UToolAPIKeys : List String
  OfficialTwitterUserId : Int
  deriving DecidableEq, Repr, Inhabited

/-- Outgoing calls to external services, recorded in the ghost log of the world. -/
inductive Call where
  | FollowingsIds (apiKey userId : String)
  | FavoritersV2 (apiKey tweetId : String)
  | RetweetersV2 (apiKey tweetId : String)
  | TweetTimeline (apiKey tweetId : String)
  | ChatMemberOf (groupId telegramUserId : Int)
  | SIsMember (key member : String)
  | RedisGet (discordUserId : String) (startOfWeek : Int)
  | UserChannelPermissions (discordUserId channelId : String)
  deriving DecidableEq, Repr, Inhabited

/-- Mutable state: the completion ledger, the package variable `globalCounter`, and the
ghost log of outgoing calls (most recent last). -/
structure World where
  ledger : List UserMission
  globalCounter : Int
  calls : List Call
  deriving DecidableEq, Repr, Inhabited

/-- The collaborators of `quest.go`, all outside the file: the `dao` package, the
u-tool client, the bots, redis, the clock (`carbon.Now()` / `time.Now()`, held fixed
during one check) and the JSON / URL / date parsers. A lookup that succeeds returns the
record itself (the fields the code reads), an `Except.error` is a non-nil `err`; the two
ledger operations take the current ledger, and a rejected insert leaves it as it was. -/
structure Env where
  Now : Int
  StartOfDay : Int
  StartOfWeek : Int
  GetMissionById : Int → Except String (Option Mission)
  GetSubMissions : Int → Except String (List Mission)
  GetUserMissionByMissionId : List UserMission → String → Int → QueryOption →
    Except String (List UserMission)
  AddUserMissionAndInviteLog : List UserMission → UserMission → Except String (List UserMission)
  GetTwitterOauthByUsername : String → Except String String
  GetDiscordOAuthByUsername : String → Except String String
  GetTelegramOauthByUsername : String → Except String Int
  GetUserByUsername : String → Except String String
  GetUserTwitterLink : String → Int → Int → Except String String
  FollowingsIdsUsingGET : String → String → Except String Envelope
  FavoritersV2UsingGET : String → String → Except String Envelope
  RetweetersV2UsingGET : String → String → Except String Envelope
  TweetTimelineUsingGET : String → String → Except String Envelope
  ChatMemberOf : Int → Int → Option String
  SIsMember : String → String → Except String Bool
  RedisGet : String → Int → Except String String
  UserChannelPermissions : String → String → Except String Nat
  jsonUnmarshalIds : String → Except String (List Int)
  fastjsonParse : String → Except String JVal
  urlParse : String → Except String URL
  carbonParse : String → Option Int

/-- Outcome of a `check*` predicate: it returns an `error` (possibly `nil`) or panics. -/
inductive Ret where
  | done (err : Option String) (w : World)
  | panic (w : World)
  deriving DecidableEq, Repr, Inhabited

/-- What `CheckQuestHandler` wrote with `c.JSON`. -/
inductive Response where
  | errorCode (e : ErrorCode)
  | missions (ums : List UserMission)
  | nil
  deriving DecidableEq, Repr, Inhabited

/-- Outcome of `CheckQuestHandler`: a response was written, or the handler returned
without writing one, or it panicked. -/
inductive HandlerResult where
  | respond (r : Response) (w : World)
  | silent (w : World)
  | panic (w : World)
  deriving DecidableEq, Repr, Inhabited

deriving instance DecidableEq for Except

/-! ## Library functions used by the code -/

def maxInt64 : Int := 2 ^ 63 - 1

def minInt64 : Int := -(2 ^ 63)

/-- Two's-complement wrap-around of a 64-bit `int`. -/
def wrapInt64 (x : Int) : Int := (x + 2 ^ 63) % 2 ^ 64 - 2 ^ 63

/-- Value of a run of decimal digits, most significant first; `none` when a character is
not a digit. -/
def digitsValue : List Char → Nat → Option Nat
  | [], acc => some acc
  | c :: cs, acc => if c.isDigit then digitsValue cs (acc * 10 + (c.toNat - 48)) else none

/-- Go `strconv.ParseInt(s, 10, 64)`: the value and whether `err == nil`. A syntax error
yields `0`, a range error the nearest bound. -/
def ParseInt (s : String) : Int × Bool :=
  match s.data with
  | [] => (0, false)
  | c :: cs =>
    let neg := c == '-'
    let body := if c == '+' || c == '-' then cs else c :: cs
    match body with
    | [] => (0, false)
    | _ =>
      match digitsValue body 0 with
      | none => (0, false)
      | some un =>
        if !neg && un ≥ 2 ^ 63 then (maxInt64, false)
        else if neg && un > 2 ^ 63 then (minInt64, false)
        else (if neg then -(un : Int) else (un : Int), true)

/-- The segments of a character list around a separator, `cur` being the reversed
segment under construction. -/
def splitChars (sep : Char) : List Char → List Char → List (List Char)
  | [], cur => [cur.reverse]
  | c :: cs, cur =>
    if c == sep then cur.reverse :: splitChars sep cs [] else splitChars sep cs (c :: cur)

/-- Go `strings.Split` with a one-character separator. -/
def Split (s : String) (sep : Char) : List String :=
  (splitChars sep s.data []).map String.mk

/-- Go `strings.Contains`. -/
def Contains (s substr : String) : Bool := decide (substr.data <:+: s.data)

/-- Go `unicode.IsSpace`. -/
def isSpace (c : Char) : Bool :=
  c == '\t' || c == '\n' || c.toNat == 11 || c.toNat == 12 || c == '\r' || c == ' ' ||
  c.toNat == 0x85 || c.toNat == 0xA0 || c.toNat == 0x1680 ||
  (0x2000 ≤ c.toNat && c.toNat ≤ 0x200A) || c.toNat == 0x2028 || c.toNat == 0x2029 ||
  c.toNat == 0x202F || c.toNat == 0x205F || c.toNat == 0x3000

/-- Go `strings.TrimSpace`. -/
def TrimSpace (s : String) : String :=
  String.mk ((s.data.dropWhile isSpace).reverse.dropWhile isSpace).reverse

/-- `url.Values.Get`: the first value of the key, or the empty string. -/
def URL.QueryGet (u : URL) (key : String) : String :=
  match u.Query.find? (fun kv => kv.1 == key) with
  | some kv => kv.2
  | none => ""

/-- One key step of `fastjson`'s `(*Value).Get`: an object is searched for the key, an
array is indexed by the key read as a decimal number, anything else gives nil. -/
def JVal.step (v : JVal) (key : String) : Option JVal :=
  match v with
  | .obj kvs => (kvs.find? (fun kv => kv.1 == key)).map (fun kv => kv.2)
  | .arr items =>
    match ParseInt key with
    | (n, true) => if n < 0 then none else items.get? n.toNat
    | (_, false) => none
  | _ => none

/-- The `(*Value).Get(keys...)` of `fastjson` on a possibly nil value. -/
def JGet (v : Option JVal) (keys : List String) : Option JVal :=
  keys.foldl (fun cur key => cur.bind (fun x => x.step key)) v

/-- The `(*Value).GetArray(keys...)` of `fastjson`: nil (no elements) unless the value is an array. -/
def JGetArray (v : Option JVal) (keys : List String) : List JVal :=
  match JGet v keys with
  | some (.arr items) => items
  | _ => []

/-- The `(*Value).GetStringBytes(keys...)` of `fastjson`: nil (the empty string once
converted) unless the value is a string. -/
def JGetStringBytes (v : Option JVal) (keys : List String) : String :=
  match JGet v keys with
  | some (.str s) => s
  | _ => ""

/-- `carbon.Parse(s).Lt(t)`: an invalid date compares as not earlier. -/
def carbonLt (parsed : Option Int) (t : Int) : Bool :=
  match parsed with
  | some ts => decide (ts < t)
  | none => false

/-! ## Credential rotation -/

/-- Go `keys[i]` with an `int` index: `none` is the index-out-of-range panic. -/
def indexKeys (keys : List String) (i : Int) : Option String :=
  if i < 0 then none else keys.get? i.toNat

/-- `GetUToolKeyByRoundRobin`: the selected key and the world after the call. The key
`none` is a panic (integer division by zero on an empty list, or an index out of range). -/
def GetUToolKeyByRoundRobin (cfg : Config) (w : World) : Option String × World :=
  let keys := cfg.UToolAPIKeys
  if keys.length = 1 then
    (indexKeys keys 0, w)
  else
    let w1 := { w with globalCounter := wrapInt64 (w.globalCounter + 1) }
    if keys.length = 0 then (none, w1)
    else (indexKeys keys (Int.tmod w1.globalCounter keys.length), w1)

/-- The keys returned by `n` successive calls of `GetUToolKeyByRoundRobin`, first call
first, and the world after the last call. -/
def rotate (cfg : Config) : Nat → World → List (Option String) × World
  | 0, w => ([], w)
  | n + 1, w =>
    let r := GetUToolKeyByRoundRobin cfg w
    let rest := rotate cfg n r.2
    (r.1 :: rest.1, rest.2)

/-! ## Verification predicates -/

/-- Record an outgoing call in the ghost log. -/
def World.log (w : World) (c : Call) : World := { w with calls := w.calls ++ [c] }

/-- The common tail of every single-entry predicate (for instance lines 669-699 of
`checkFollowTwitter`): query the ledger again and insert one entry when the query is empty. -/
def insertIfAbsent (env : Env) (mission : Mission) (username : String) (queryOpt : QueryOption)
    (content : String) (w : World) : Ret :=
  match env.GetUserMissionByMissionId w.ledger username mission.ID queryOpt with
  | .error e => .done (some e) w
  | .ok ums =>
    if ums.length = 0 then
      match env.AddUserMissionAndInviteLog w.ledger
          { Username := username, MissionID := mission.ID, SubMissionID := 0, Typ := mission.Typ,
            Credit := mission.Credit, Content := content, CreatedAt := env.Now } with
      | .error e => .done (some e) w
      | .ok l => .done none { w with ledger := l }
    else .done none w

def checkFollowTwitter (env : Env) (cfg : Config) (mission : Mission) (username : String)
    (queryOpt : QueryOption) (w : World) : Ret :=
  match env.GetTwitterOauthByUsername username with
  | .error e => .done (some e) w
  | .ok twitterUserID =>
    match GetUToolKeyByRoundRobin cfg w with
    | (none, w1) => .panic w1
    | (some apiKey, w1) =>
      let w2 := w1.log (.FollowingsIds apiKey twitterUserID)
      match env.FollowingsIdsUsingGET apiKey twitterUserID with
      | .error e => .done (some e) w2
      | .ok result =>
        if result.Code ≠ 1 then .done (some result.Msg) w2
        else
          match result.Data with
          | .other => .done (some "response not string") w2
          | .str bytesString =>
            match env.jsonUnmarshalIds bytesString with
            | .error e => .done (some e) w2
            | .ok ids =>
              let followed := ids.any (fun id => id == cfg.OfficialTwitterUserId)
              if !followed then .done (some "user unfollow") w2
              else insertIfAbsent env mission username queryOpt twitterUserID w2

/-- The `rest_id` of one timeline entry, as read by the like and repost predicates. -/
def entryRestId (e : JVal) : String :=
  JGetStringBytes (JGet (JGet (JGet (JGet (some e) ["content"]) ["itemContent"]) ["user_results"])
    ["result"]) ["rest_id"]

/-- The entries of `data.<timeline>.timeline.instructions[0].entries`. -/
def timelineEntries (v : JVal) (timeline : String) : List JVal :=
  JGetArray (JGet (JGet (JGet (JGet (some v) ["data"]) [timeline]) ["timeline"])
    ["instructions", "0"]) ["entries"]

def checkLikeTweet (env : Env) (cfg : Config) (mission : Mission) (username : String)
    (queryOpt : QueryOption) (w : World) : Ret :=
  match env.GetTwitterOauthByUsername username with
  | .error e => .done (some e) w
  | .ok twitterUserID =>
    match env.urlParse mission.OpenUrl with
    | .error e => .done (some e) w
    | .ok openURL =>
      let tweetId := openURL.QueryGet "tweet_id"
      match GetUToolKeyByRoundRobin cfg w with
      | (none, w1) => .panic w1
      | (some apiKey, w1) =>
        let w2 := w1.log (.FavoritersV2 apiKey tweetId)
        match env.FavoritersV2UsingGET apiKey tweetId with
        | .error e => .done (some e) w2
        | .ok result =>
          if result.Code ≠ 1 then .done (some result.Msg) w2
          else
            match result.Data with
            | .other => .panic w2
            | .str data =>
              match env.fastjsonParse data with
              | .error e => .done (some e) w2
              | .ok v =>
                let entries := timelineEntries v "favoriters_timeline"
                let liked := entries.any (fun e => entryRestId e == twitterUserID)
                if !liked then .done (some "mission uncompleted") w2
                else insertIfAbsent env mission username queryOpt mission.OpenUrl w2

def checkReTweet (env : Env) (cfg : Config) (mission : Mission) (username : String)
    (queryOpt : QueryOption) (w : World) : Ret :=
  match env.GetTwitterOauthByUsername username with
  | .error e => .done (some e) w
  | .ok twitterUserID =>
    match GetUToolKeyByRoundRobin cfg w with
    | (none, w1) => .panic w1
    | (some apiKey, w1) =>
      match env.urlParse mission.OpenUrl with
      | .error e => .done (some e) w1
      | .ok openURL =>
        let tweetId := openURL.QueryGet "tweet_id"
        let w2 := w1.log (.RetweetersV2 apiKey tweetId)
        match env.RetweetersV2UsingGET apiKey tweetId with
        | .error e => .done (some e) w2
        | .ok result =>
          if result.Code ≠ 1 then .done (some result.Msg) w2
          else
            match result.Data with
            | .other => .panic w2
            | .str data =>
              match env.fastjsonParse data with
              | .error e => .done (some e) w2
              | .ok v =>
                let entries := timelineEntries v "retweeters_timeline"
                let liked := entries.any (fun e => entryRestId e == twitterUserID)
                if !liked then .done (some "mission uncompleted") w2
                else insertIfAbsent env mission username queryOpt mission.OpenUrl w2

/-- The node `data.threaded_conversation_with_injections_v2.instructions[0].entries[0]
.content.itemContent.tweet_results.result` read by the quote and post predicates. -/
def tweetResult (v : JVal) : Option JVal :=
  let entries := JGet (JGet (JGet (JGet (some v) ["data"])
    ["threaded_conversation_with_injections_v2"]) ["instructions", "0"]) ["entries", "0"]
  JGet (JGet (JGet (JGet entries ["content"]) ["itemContent"]) ["tweet_results"]) ["result"]

/-- The `rest_id` of the author of the post. -/
def postUserIdOf (res : Option JVal) : String :=
  JGetStringBytes (JGet (JGet (JGet res ["core"]) ["user_results"]) ["result"]) ["rest_id"]

/-- The message built with `fmt.Sprintf` when the author is not the linked user. -/
def invalidLinkMsg (expected got : String) : String :=
  "invalid link, expected twitter user id: " ++ expected ++ " got: " ++ got

/-- The last path segment of the submitted link, or the error `invalid url` when the path
does not split into four segments (lines 905-912 and 1008-1015). -/
def replyIdOf (replyURL : URL) : Option String :=
  let paths := Split replyURL.Path '/'
  if paths.length ≠ 4 then none
  else some (TrimSpace (paths.getLast?.getD ""))

def checkQuoteTweet (env : Env) (cfg : Config) (mission : Mission) (username : String)
    (queryOpt : QueryOption) (w : World) : Ret :=
  match env.GetTwitterOauthByUsername username with
  | .error e => .done (some e) w
  | .ok twitterUserID =>
    match env.GetUserTwitterLink username mission.ID env.StartOfDay with
    | .error e => .done (some e) w
    | .ok link =>
      match env.urlParse link with
      | .error e => .done (some e) w
      | .ok replyURL =>
        match replyIdOf replyURL with
        | none => .done (some "invalid url") w
        | some replyId =>
          match GetUToolKeyByRoundRobin cfg w with
          | (none, w1) => .panic w1
          | (some apiKey, w1) =>
            let w2 := w1.log (.TweetTimeline apiKey replyId)
            match env.TweetTimelineUsingGET apiKey replyId with
            | .error e => .done (some e) w2
            | .ok result =>
              if result.Code ≠ 1 then .done (some result.Msg) w2
              else
                match result.Data with
                | .other => .panic w2
                | .str data =>
                  match env.fastjsonParse data with
                  | .error e => .done (some e) w2
                  | .ok v =>
                    let res := tweetResult v
                    let postUserId := postUserIdOf res
                    let sourceTweetId :=
                      JGetStringBytes (JGet (JGet res ["quoted_status_result"]) ["result"]) ["rest_id"]
                    let mentions := JGetArray (JGet (JGet res ["legacy"]) ["entities"]) ["user_mentions"]
                    let postCreatedAt := JGetStringBytes (JGet res ["legacy"]) ["created_at"]
                    if !Contains mission.OpenUrl sourceTweetId then
                      .done (some "not allowed source tweet id") w2
                    else if postUserId ≠ twitterUserID then
                      .done (some (invalidLinkMsg twitterUserID postUserId)) w2
                    else if carbonLt (env.carbonParse postCreatedAt) env.StartOfDay then
                      .done (some "post expiration") w2
                    else if mentions.length < 3 then .done (some "tag users not enough") w2
                    else insertIfAbsent env mission username queryOpt twitterUserID w2

def checkPostTweet (env : Env) (cfg : Config) (mission : Mission) (username : String)
    (queryOpt : QueryOption) (w : World) : Ret :=
  match env.GetTwitterOauthByUsername username with
  | .error e => .done (some e) w
  | .ok twitterUserID =>
    match env.urlParse mission.OpenUrl with
    | .error e => .done (some e) w
    | .ok openURL =>
      let copyContent := openURL.QueryGet "text"
      match env.GetUserTwitterLink username mission.ID env.StartOfDay with
      | .error e => .done (some e) w
      | .ok link =>
        match env.urlParse link with
        | .error e => .done (some e) w
        | .ok replyURL =>
          match replyIdOf replyURL with
          | none => .done (some "invalid url") w
          | some replyId =>
            match GetUToolKeyByRoundRobin cfg w with
            | (none, w1) => .panic w1
            | (some apiKey, w1) =>
              let w2 := w1.log (.TweetTimeline apiKey replyId)
              match env.TweetTimelineUsingGET apiKey replyId with
              | .error e => .done (some e) w2
              | .ok result =>
                if result.Code ≠ 1 then .done (some result.Msg) w2
                else
                  match result.Data with
                  | .other => .panic w2
                  | .str data =>
                    match env.fastjsonParse data with
                    | .error e => .done (some e) w2
                    | .ok v =>
                      let res := tweetResult v
                      let postUserId := postUserIdOf res
                      let fullText := JGetStringBytes (JGet res ["legacy"]) ["full_text"]
                      let postCreatedAt := JGetStringBytes (JGet res ["legacy"]) ["created_at"]
                      let FirstLine := (Split fullText '\n').headD ""
                      if !Contains copyContent FirstLine then .done (some "invalid content") w2
                      else if carbonLt (env.carbonParse postCreatedAt) env.StartOfDay then
                        .done (some "post expiration") w2
                      else if postUserId ≠ twitterUserID then
                        .done (some (invalidLinkMsg twitterUserID postUserId)) w2
                      else insertIfAbsent env mission username queryOpt twitterUserID w2

def checkJoinTelegram (env : Env) (mission : Mission) (username : String)
    (queryOpt : QueryOption) (w : World) : Ret :=
  match env.GetTelegramOauthByUsername username with
  | .error e => .done (some e) w
  | .ok telegramUserID =>
    let groupId := (ParseInt mission.TargetID).1
    let w1 := w.log (.ChatMemberOf groupId telegramUserID)
    match env.ChatMemberOf groupId telegramUserID with
    | some e => .done (some e) w1
    | none => insertIfAbsent env mission username queryOpt (toString telegramUserID) w1

def checkJoinDiscord (env : Env) (mission : Mission) (username : String)
    (queryOpt : QueryOption) (w : World) : Ret :=
  match env.GetDiscordOAuthByUsername username with
  | .error e => .done (some e) w
  | .ok discordUserID =>
    let key := "gm::discord::members"
    let w1 := w.log (.SIsMember key discordUserID)
    match env.SIsMember key discordUserID with
    | .error e => .done (some e) w1
    | .ok existing =>
      if !existing then .done (some "user not join discord") w1
      else insertIfAbsent env mission username queryOpt discordUserID w1

def checkBindingKOL (env : Env) (mission : Mission) (username : String)
    (queryOpt : QueryOption) (w : World) : Ret :=
  match env.GetUserByUsername username with
  | .error e => .done (some e) w
  | .ok fromKolRefCode =>
    if fromKolRefCode = "" then .done (some "please complete mission first") w
    else insertIfAbsent env mission username queryOpt fromKolRefCode w

def checkVisitOfficialWebsite (_env : Env) (_mission : Mission) (_username : String)
    (_queryOpt : QueryOption) (w : World) : Ret :=
  .done (some "not implement") w

def checkVisitReferrerPage (_env : Env) (_mission : Mission) (_username : String)
    (_queryOpt : QueryOption) (w : World) : Ret :=
  .done (some "not implement") w

/-- The entry written for a qualifying sub-mission (lines 1265-1273). -/
def subMissionEntry (env : Env) (mission : Mission) (username discordUserID : String)
    (sm : Mission) : UserMission :=
  { Username := username, MissionID := mission.ID, SubMissionID := sm.ID, Typ := sm.Typ,
    Credit := sm.Credit, Content := discordUserID, CreatedAt := env.Now }

/-- The error of `strconv.ParseInt` on a sub-mission title (its text is abbreviated). -/
def parseTitleError (title : String) : String := "strconv.ParseInt: parsing " ++ title

/-- The loop over the sub-missions of `checkInviteFriendsToDiscord` (lines 1249-1279):
the error or the final `completedCount`, with the world reached. The set
`completedSubMissionId` is not updated inside the loop. -/
def inviteLoop (env : Env) (mission : Mission) (username discordUserID : String) (count : Int)
    (completedSubMissionId : List Int) : List Mission → Int → World → Except String Int × World
  | [], completedCount, w => (.ok completedCount, w)
  | sm :: rest, completedCount, w =>
    match ParseInt sm.Title with
    | (_, false) => (.error (parseTitleError sm.Title), w)
    | (expectedCount, true) =>
      if completedSubMissionId.contains sm.ID then
        inviteLoop env mission username discordUserID count completedSubMissionId rest completedCount w
      else if count < expectedCount then
        inviteLoop env mission username discordUserID count completedSubMissionId rest completedCount w
      else
        match env.AddUserMissionAndInviteLog w.ledger
            (subMissionEntry env mission username discordUserID sm) with
        | .error e => (.error e, w)
        | .ok l =>
          inviteLoop env mission username discordUserID count completedSubMissionId rest
            (completedCount + 1) { w with ledger := l }

def checkInviteFriendsToDiscord (env : Env) (mission : Mission) (username : String)
    (queryOpt : QueryOption) (w : World) : Ret :=
  match env.GetDiscordOAuthByUsername username with
  | .error e => .done (some e) w
  | .ok discordUserID =>
    match env.GetSubMissions mission.ID with
    | .error e => .done (some e) w
    | .ok subMission =>
      let w1 := w.log (.RedisGet discordUserID env.StartOfWeek)
      match env.RedisGet discordUserID env.StartOfWeek with
      | .error e => .done (some e) w1
      | .ok result =>
        let count := (ParseInt result).1
        if count ≤ 0 then .done (some "complete mission first") w1
        else
          match env.GetUserMissionByMissionId w1.ledger username mission.ID queryOpt with
          | .error e => .done (some e) w1
          | .ok ums =>
            let completedSubMissionId := (ums.map (fun m => m.SubMissionID)).dedup
            let completedCount : Int := completedSubMissionId.length
            match inviteLoop env mission username discordUserID count completedSubMissionId
                subMission completedCount w1 with
            | (.error e, w2) => .done (some e) w2
            | (.ok completedCount, w2) =>
              if completedCount ≤ 0 then .done (some "complete mission first") w2
              else .done none w2

/-- The constant `discordgo.PermissionViewChannel`. -/
def PermissionViewChannel : Nat := 0x400

def checkJoinVolunteerChannel (env : Env) (mission : Mission) (username : String)
    (queryOpt : QueryOption) (w : World) : Ret :=
  match env.GetDiscordOAuthByUsername username with
  | .error e => .done (some e) w
  | .ok discordUserID =>
    let channelId := mission.TargetID
    let w1 := w.log (.UserChannelPermissions discordUserID channelId)
    match env.UserChannelPermissions discordUserID channelId with
    | .error e => .done (some e) w1
    | .ok permission =>
      if permission &&& PermissionViewChannel = 0 then
        .done (some "please complete mission first") w1
      else insertIfAbsent env mission username queryOpt discordUserID w1

/-- The sub-missions for which `inviteLoop` writes an entry: not recorded, threshold reached. -/
def qualifying (count : Int) (completedSubMissionId : List Int) (subMission : List Mission) :
    List Mission :=
  subMission.filter (fun sm =>
    !completedSubMissionId.contains sm.ID && decide ((ParseInt sm.Title).1 ≤ count))

/-- The entries written for a list of qualifying sub-missions. -/
def inviteEntries (env : Env) (mission : Mission) (username discordUserID : String)
    (sms : List Mission) : List UserMission :=
  sms.map (subMissionEntry env mission username discordUserID)

/-! ## The ledger store of the specification -/

/-- Modelled from the spec: the ledger read `QueryEntries(user, missionID, periodFilter)`
behind `dao.GetUserMissionByMissionId`, which is not in the repository files at hand. It
returns the entries of the user and mission, with the given content when the option
carries one, created at or after the start time when the option carries one. -/
def QueryEntries (ledger : List UserMission) (username : String) (missionId : Int)
    (opt : QueryOption) : List UserMission :=
  ledger.filter (fun m =>
    m.Username == username && m.MissionID == missionId &&
    (opt.Content == "" || m.Content == opt.Content) &&
    (match opt.StartTime with
     | none => true
     | some t => decide (t ≤ m.CreatedAt)))

/-- An environment whose ledger read is `QueryEntries` and whose ledger write, when it is
accepted, appends the entry. -/
def Env.SpecStore (env : Env) : Prop :=
  (∀ l u m o, env.GetUserMissionByMissionId l u m o = .ok (QueryEntries l u m o)) ∧
  (∀ l e l2, env.AddUserMissionAndInviteLog l e = .ok l2 → l2 = l ++ [e])

/-- The catalog answers a lookup by id with a mission of that id. -/
def Env.CatalogSound (env : Env) : Prop :=
  ∀ id m, env.GetMissionById id = .ok (some m) → m.ID = id

/-! ## The orchestrator -/

/-- The query option built at lines 472-483. -/
def buildOption (k : Consts) (env : Env) (mission : Mission) (missionId : Int) : QueryOption :=
  let content :=
    if missionId = k.MissionIdRetweet ∨ missionId = k.MissionIdLikeTwitter then mission.OpenUrl
    else ""
  let startTime : Option Int :=
    if mission.Typ = k.MissionTypeDaily then some env.StartOfDay else none
  let startTime : Option Int :=
    if mission.Typ = k.MissionTypeWeekly then some env.StartOfWeek else startTime
  { Content := content, StartTime := startTime }

/-- The `expectedCount` of lines 492-502; the error is the failure of `dao.GetSubMissions`. -/
def expectedCountOf (k : Consts) (env : Env) (missionId : Int) : Except String Nat :=
  if missionId = k.MissionIdInviteFriendsToDiscord then
    match env.GetSubMissions missionId with
    | .error e => .error e
    | .ok subMissions => .ok subMissions.length
  else .ok 1

/-- The dispatch `switch` of lines 511-539; `none` is the `default` branch. -/
def dispatch (k : Consts) (env : Env) (cfg : Config) (mission : Mission) (username : String)
    (missionId : Int) (option : QueryOption) (w : World) : Option Ret :=
  if missionId = k.MissionIdFollowTwitter then
    some (checkFollowTwitter env cfg mission username option w)
  else if missionId = k.MissionIdRetweet then
    some (checkReTweet env cfg mission username option w)
  else if missionId = k.MissionIdLikeTwitter then
    some (checkLikeTweet env cfg mission username option w)
  else if missionId = k.MissionIdJoinDiscord then
    some (checkJoinDiscord env mission username option w)
  else if missionId = k.MissionIdBindingKOL then
    some (checkBindingKOL env mission username option w)
  else if missionId = k.MissionIdVisitOfficialWebsite then
    some (checkVisitOfficialWebsite env mission username option w)
  else if missionId = k.MissionIdVisitReferrerPage then
    some (checkVisitReferrerPage env mission username option w)
  else if missionId = k.MissionIdJoinTelegramGroup ∨
      missionId = k.MissionIdJoinTelegramVolunteerGroup then
    some (checkJoinTelegram env mission username option w)
  else if missionId = k.MissionIdQuoteTweet then
    some (checkQuoteTweet env cfg mission username option w)
  else if missionId = k.MissionIdPostTweet then
    some (checkPostTweet env cfg mission username option w)
  else if missionId = k.MissionIdInviteFriendsToDiscord then
    some (checkInviteFriendsToDiscord env mission username option w)
  else if missionId = k.MissionIdJoinDCVolunteerChannel then
    some (checkJoinVolunteerChannel env mission username option w)
  else none

/-- Lines 541-561: what the handler does with the outcome of the dispatched predicate. -/
def afterPredicate (env : Env) (username : String) (missionId : Int) (option : QueryOption) :
    Ret → HandlerResult
  | .panic w => .panic w
  | .done (some _) w => .respond (.errorCode .MissionUnComplete) w
  | .done none w =>
    match env.GetUserMissionByMissionId w.ledger username missionId option with
    | .error _ => .silent w
    | .ok ums =>
      if ums.length > 0 then .respond (.missions ums) w
      else .respond .nil w

def CheckQuestHandler (k : Consts) (env : Env) (cfg : Config) (username : String)
    (missionId : Int) (w : World) : HandlerResult :=
  match env.GetMissionById missionId with
  | .error _ => .respond (.errorCode .InternalServer) w
  | .ok none => .respond (.errorCode .InternalServer) w
  | .ok (some mission) =>
    let option := buildOption k env mission missionId
    match env.GetUserMissionByMissionId w.ledger username missionId option with
    | .error _ => .respond (.errorCode .InternalServer) w
    | .ok ums =>
      match expectedCountOf k env missionId with
      | .error _ => .respond (.errorCode .InternalServer) w
      | .ok expectedCount =>
        if ums.length ≥ expectedCount then .respond (.missions ums) w
        else
          match dispatch k env cfg mission username missionId option w with
          | none => .respond (.errorCode .NoImplement) w
          | some r => afterPredicate env username missionId option r

/-! ## A concrete configuration

A small catalog (missions 1 to 14, the last one without a case in the dispatch), a ledger
store that follows `QueryEntries`, and upstream services that answer a non-success envelope. -/

def exConsts : Consts :=
  { MissionIdFollowTwitter := 1, MissionIdRetweet := 2, MissionIdLikeTwitter := 3,
    MissionIdJoinDiscord := 4, MissionIdBindingKOL := 5, MissionIdVisitOfficialWebsite := 6,
    MissionIdVisitReferrerPage := 7, MissionIdJoinTelegramGroup := 8,
    MissionIdJoinTelegramVolunteerGroup := 9, MissionIdQuoteTweet := 10, MissionIdPostTweet := 11,
    MissionIdInviteFriendsToDiscord := 12, MissionIdJoinDCVolunteerChannel := 13,
    MissionTypeDaily := 1, MissionTypeWeekly := 2 }

def exCfg : Config := { UToolAPIKeys := ["k0", "k1", "k2"], OfficialTwitterUserId := 77 }

def exWorld : World := { ledger := [], globalCounter := 0, calls := [] }

def exMission (id : Int) : Mission :=
  { ID := id, Typ := 0, Credit := 10, OpenUrl := "u", TargetID := "100", Title := "" }

def exSub (id : Int) (title : String) : Mission :=
  { ID := id, Typ := 2, Credit := 5, OpenUrl := "", TargetID := "", Title := title }

def exEnv : Env :=
  { Now := 1000, StartOfDay := 900, StartOfWeek := 500,
    GetMissionById := fun id => if 1 ≤ id ∧ id ≤ 14 then .ok (some (exMission id)) else .ok none,
    GetSubMissions := fun _ => .ok [exSub 101 "1", exSub 102 "5", exSub 103 "10"],
    GetUserMissionByMissionId := fun l u m o => .ok (QueryEntries l u m o),
    AddUserMissionAndInviteLog := fun l e => .ok (l ++ [e]),
    GetTwitterOauthByUsername := fun _ => .ok "t1",
    GetDiscordOAuthByUsername := fun _ => .ok "d1",
    GetTelegramOauthByUsername := fun _ => .ok 31,
    GetUserByUsername := fun _ => .ok "",
    GetUserTwitterLink := fun _ _ _ => .ok "l",
    FollowingsIdsUsingGET := fun _ _ => .ok { Code := 0, Msg := "rate limited", Data := .other },
    FavoritersV2UsingGET := fun _ _ => .ok { Code := 0, Msg := "rate limited", Data := .other },
    RetweetersV2UsingGET := fun _ _ => .ok { Code := 0, Msg := "rate limited", Data := .other },
    TweetTimelineUsingGET := fun _ _ => .ok { Code := 0, Msg := "rate limited", Data := .other },
    ChatMemberOf := fun _ _ => some "not a member",
    SIsMember := fun _ _ => .ok false,
    RedisGet := fun _ _ => .ok "6",
    UserChannelPermissions := fun _ _ => .ok 0,
    jsonUnmarshalIds := fun _ => .ok [77],
    fastjsonParse := fun _ => .ok .null,
    urlParse := fun s => .ok { Path := "/a/status/9", Query := [("tweet_id", "42"), ("text", s)] },
    carbonParse := fun _ => none }

def exEntry : UserMission :=
  { Username := "alice", MissionID := 1, SubMissionID := 0, Typ := 0, Credit := 10,
    Content := "t1", CreatedAt := 950 }

/-- The configuration in which the identity-link store is down. -/
def exEnvLinkDown : Env :=
  { exEnv with GetTwitterOauthByUsername := fun _ => .error "sql: database is closed" }

/-- The configuration in which the followed-accounts call succeeds and lists the official
account, while the ledger rejects every insert with a uniqueness violation. -/
def exEnvDuplicate : Env :=
  { exEnv with
    FollowingsIdsUsingGET := fun _ _ => .ok { Code := 1, Msg := "", Data := .str "ids" },
    AddUserMissionAndInviteLog := fun _ _ => .error "Error 1062: Duplicate entry" }

/-! ## The fetched post read by the quote and original-post predicates -/

/-- The author id of the fetched post (`postUserId`). -/
def postAuthor (v : JVal) : String := postUserIdOf (tweetResult v)

/-- The id of the post quoted by the fetched post (`sourceTweetId`); empty when the
payload has no quoted post. -/
def quotedSourceId (v : JVal) : String :=
  JGetStringBytes (JGet (JGet (tweetResult v) ["quoted_status_result"]) ["result"]) ["rest_id"]

/-- The user mentions of the fetched post (`mentions`). -/
def userMentions (v : JVal) : List JVal :=
  JGetArray (JGet (JGet (tweetResult v) ["legacy"]) ["entities"]) ["user_mentions"]

/-- The creation date text of the fetched post (`postCreatedAt`). -/
def postCreatedAt (v : JVal) : String :=
  JGetStringBytes (JGet (tweetResult v) ["legacy"]) ["created_at"]

/-- The first line of the body of the fetched post (`FirstLine`). -/
def postFirstLine (v : JVal) : String :=
  (Split (JGetStringBytes (JGet (tweetResult v) ["legacy"]) ["full_text"]) '\n').headD ""

/-- The steps of `checkQuoteTweet` up to the parsed post detail all succeed: the linked
Twitter id is `twitterUserID`, the submitted link yields `replyId`, the key selection
returns `apiKey` leaving `w1`, and the timeline call answers code 1 with a string payload
that parses to `v`. -/
def QuoteFetched (env : Env) (cfg : Config) (mission : Mission) (username : String)
    (w : World) (twitterUserID apiKey : String) (w1 : World) (replyId : String)
    (v : JVal) : Prop :=
  env.GetTwitterOauthByUsername username = .ok twitterUserID ∧
  (∃ link replyURL, env.GetUserTwitterLink username mission.ID env.StartOfDay = .ok link ∧
    env.urlParse link = .ok replyURL ∧ replyIdOf replyURL = some replyId) ∧
  GetUToolKeyByRoundRobin cfg w = (some apiKey, w1) ∧
  ∃ r data, env.TweetTimelineUsingGET apiKey replyId = .ok r ∧ r.Code = 1 ∧
    r.Data = .str data ∧ env.fastjsonParse data = .ok v

/-- The steps of `checkPostTweet` up to the parsed post detail all succeed; `copyContent`
is the `text` query parameter of the mission's target URL. -/
def PostFetched (env : Env) (cfg : Config) (mission : Mission) (username : String)
    (w : World) (twitterUserID apiKey : String) (w1 : World) (replyId copyContent : String)
    (v : JVal) : Prop :=
  (∃ openURL, env.urlParse mission.OpenUrl = .ok openURL ∧
    openURL.QueryGet "text" = copyContent) ∧
  QuoteFetched env cfg mission username w twitterUserID apiKey w1 replyId v

/-- A post detail payload with the given author, creation date, quoted post, number of user
mentions and body. -/
def exTweet (author created : String) (quoted : Option String) (mentions : Nat)
    (fullText : String) : JVal :=
  let result : JVal := .obj
    ([("core", .obj [("user_results", .obj [("result", .obj [("rest_id", .str author)])])]),
      ("legacy", .obj [("created_at", .str created), ("full_text", .str fullText),
        ("entities", .obj [("user_mentions",
          .arr (List.replicate mentions (.obj [("screen_name", .str "friend")])))])])] ++
     (match quoted with
      | some q => [("quoted_status_result", .obj [("result", .obj [("rest_id", .str q)])])]
      | none => []))
  .obj [("data", .obj [("threaded_conversation_with_injections_v2", .obj [("instructions",
    .arr [.obj [("entries", .arr [.obj [("content", .obj [("itemContent",
      .obj [("tweet_results", .obj [("result", result)])])])]])]])])])]

/-- The quote mission (id 10) and the original-post mission (id 11) of the example. -/
def exTweetMission (id : Int) : Mission :=
  { ID := id, Typ := 1, Credit := 10,
    OpenUrl := if id = 10 then "https://x.com/titan/status/1800"
               else "https://x.com/intent/post?text=Join Titan",
    TargetID := "", Title := "" }

/-- The configuration in which the user submitted the link `https://x.com/alice/status/9`
and the timeline call answers the post detail `v`; dates are written as seconds. -/
def exEnvTweet (v : JVal) : Env :=
  { exEnv with
    GetMissionById := fun id =>
      if id = 10 ∨ id = 11 then .ok (some (exTweetMission id)) else .ok none,
    GetUserTwitterLink := fun _ _ _ => .ok "https://x.com/alice/status/9",
    urlParse := fun s =>
      if s = "https://x.com/alice/status/9" then .ok { Path := "/alice/status/9", Query := [] }
      else if s = "https://x.com/intent/post?text=Join Titan" then
        .ok { Path := "/intent/post", Query := [("text", "Join Titan")] }
      else .ok { Path := "/titan/status/1800", Query := [] },
    TweetTimelineUsingGET := fun _ _ => .ok { Code := 1, Msg := "", Data := .str "detail" },
    fastjsonParse := fun _ => .ok v,
    carbonParse := fun s =>
      match ParseInt s with
      | (n, true) => some n
      | (_, false) => none }

/-- The entry credited to `alice` for the quote or original-post mission of the example. -/
def exTweetEntry (id : Int) : UserMission :=
  { Username := "alice", MissionID := id, SubMissionID := 0, Typ := 1, Credit := 10,
    Content := "t1", CreatedAt := 1000 }

/-- The entry a single-entry predicate hands to the store (for instance lines 676-683). -/
def missionEntry (env : Env) (mission : Mission) (username content : String) : UserMission :=
  { Username := username, MissionID := mission.ID, SubMissionID := 0, Typ := mission.Typ,
    Credit := mission.Credit, Content := content, CreatedAt := env.Now }

/-- The steps of `checkFollowTwitter` up to the decoded id list all succeed: the linked
Twitter id is `twitterUserID`, the key selection returns `apiKey` leaving `w1`, and the
followings call answers code 1 with a string payload that decodes to `ids`. -/
def FollowFetched (env : Env) (cfg : Config) (username : String) (w : World)
    (twitterUserID apiKey : String) (w1 : World) (ids : List Int) : Prop :=
  env.GetTwitterOauthByUsername username = .ok twitterUserID ∧
  GetUToolKeyByRoundRobin cfg w = (some apiKey, w1) ∧
  ∃ r bytesString, env.FollowingsIdsUsingGET apiKey twitterUserID = .ok r ∧ r.Code = 1 ∧
    r.Data = .str bytesString ∧ env.jsonUnmarshalIds bytesString = .ok ids

/-- The configuration in which the followings call succeeds with the id list `ids`. -/
def exEnvFollow (ids : List Int) : Env :=
  { exEnv with
    FollowingsIdsUsingGET := fun _ _ => .ok { Code := 1, Msg := "", Data := .str "ids" },
    jsonUnmarshalIds := fun _ => .ok ids }

/-- The steps of `checkLikeTweet` up to the parsed timeline all succeed: the linked Twitter
id is `twitterUserID`, the `tweet_id` query parameter of the mission's target URL is
`tweetId`, the key selection returns `apiKey` leaving `w1`, and the favoriters call answers
code 1 with a string payload that parses to `v`. -/
def LikeFetched (env : Env) (cfg : Config) (mission : Mission) (username : String)
    (w : World) (twitterUserID apiKey : String) (w1 : World) (tweetId : String)
    (v : JVal) : Prop :=
  env.GetTwitterOauthByUsername username = .ok twitterUserID ∧
  (∃ openURL, env.urlParse mission.OpenUrl = .ok openURL ∧
    openURL.QueryGet "tweet_id" = tweetId) ∧
  GetUToolKeyByRoundRobin cfg w = (some apiKey, w1) ∧
  ∃ r data, env.FavoritersV2UsingGET apiKey tweetId = .ok r ∧ r.Code = 1 ∧
    r.Data = .str data ∧ env.fastjsonParse data = .ok v

/-- The steps of `checkReTweet` up to the parsed timeline all succeed; as `LikeFetched`,
with the retweeters call. -/
def RetweetFetched (env : Env) (cfg : Config) (mission : Mission) (username : String)
    (w : World) (twitterUserID apiKey : String) (w1 : World) (tweetId : String)
    (v : JVal) : Prop :=
  env.GetTwitterOauthByUsername username = .ok twitterUserID ∧
  (∃ openURL, env.urlParse mission.OpenUrl = .ok openURL ∧
    openURL.QueryGet "tweet_id" = tweetId) ∧
  GetUToolKeyByRoundRobin cfg w = (some apiKey, w1) ∧
  ∃ r data, env.RetweetersV2UsingGET apiKey tweetId = .ok r ∧ r.Code = 1 ∧
    r.Data = .str data ∧ env.fastjsonParse data = .ok v

/-- The configuration in which the user is a member everywhere: referral code `KOL7`, in
the Discord member set, with the view permission on the channel, a member of the Telegram
group. -/
def exEnvMember : Env :=
  { exEnv with
    GetUserByUsername := fun _ => .ok "KOL7",
    SIsMember := fun _ _ => .ok true,
    UserChannelPermissions := fun _ _ => .ok 0x400,
    ChatMemberOf := fun _ _ => none }

/-- The world in which a predicate ended. -/
def Ret.world : Ret → World
  | .done _ w => w
  | .panic w => w

/-- Shape of the outcome `r` of a single-entry predicate started in `w`: either the
predicate reached the re-check-then-insert tail with the evidence `content`, in a world with
the ledger of `w`, or it ended earlier, with an error or a panic, and the ledger of `w`. -/
def TailOrFail (env : Env) (mission : Mission) (username : String) (qo : QueryOption)
    (content : String) (w : World) (r : Ret) : Prop :=
  (∃ w2, w2.ledger = w.ledger ∧ r = insertIfAbsent env mission username qo content w2) ∨
  (r.world.ledger = w.ledger ∧ ∀ w2, r ≠ .done none w2)
/-- The configuration in which every u-tool call answers code 1 with a payload that is not
a string. -/
def exEnvNonString : Env :=
  { exEnv with
    FollowingsIdsUsingGET := fun _ _ => .ok { Code := 1, Msg := "", Data := .other },
    FavoritersV2UsingGET := fun _ _ => .ok { Code := 1, Msg := "", Data := .other },
    RetweetersV2UsingGET := fun _ _ => .ok { Code := 1, Msg := "", Data := .other },
    TweetTimelineUsingGET := fun _ _ => .ok { Code := 1, Msg := "", Data := .other } }

/-- Another user's entry of the daily quote mission of the example, written today. -/
def exOtherTodayEntry : UserMission :=
  { Username := "bob", MissionID := 10, SubMissionID := 0, Typ := 1, Credit := 10,
    Content := "t9", CreatedAt := 950 }

/-- The entry of the quote mission written the day before (day start is 900). -/
def exYesterdayEntry : UserMission :=
  { Username := "alice", MissionID := 10, SubMissionID := 0, Typ := 1, Credit := 10,
    Content := "t1", CreatedAt := 800 }

/-! ## Address masking (`maskAddress`)

A Go string is its sequence of bytes; bytes are natural numbers here, `46` is `.` and `42`
is `*`. -/

/-- The segments of a byte string around a separator byte, as `strings.Split` with a
one-byte separator returns them; `cur` is the reversed segment under construction. -/
def splitBytes (sep : Nat) : List Nat → List Nat → List (List Nat)
  | [], cur => [cur.reverse]
  | b :: bs, cur =>
    if b = sep then cur.reverse :: splitBytes sep bs [] else splitBytes sep bs (b :: cur)

/-- Go `s[:hi]`; `none` is the slice-bounds panic. -/
def sliceTo (s : List Nat) (hi : Int) : Option (List Nat) :=
  if hi < 0 ∨ hi > s.length then none else some (s.take hi.toNat)

/-- Go `s[lo:]`; `none` is the slice-bounds panic. -/
def sliceFrom (s : List Nat) (lo : Int) : Option (List Nat) :=
  if lo < 0 ∨ lo > s.length then none else some (s.drop lo.toNat)

/-- The bytes of `"****"`. -/
def stars : List Nat := [42, 42, 42, 42]

/-- `maskAddress`; `none` is a slice-bounds panic. `pre` and `suffix` are the `prefix` and
`suffix` of the source. -/
def maskAddress (address : List Nat) : Option (List Nat) :=
  let words := splitBytes 46 address []
  if words.length < 2 then
    match sliceTo address 3, sliceFrom address ((address.length : Int) - 3) with
    | some a, some b => some (a ++ stars ++ b)
    | _, _ => none
  else
    let pre := words.headD []
    let suffix := (words.get? 1).getD []
    if pre.length > 5 then
      match sliceTo pre 3, sliceFrom pre ((pre.length : Int) - 2) with
      | some a, some b => some (a ++ stars ++ b ++ [46] ++ suffix)
      | _, _ => none
    else
      match sliceTo pre 3 with
      | some a => some (a ++ stars ++ [46] ++ suffix)
      | none => none

/-- The part of an address before its first `.` (the whole address when it has none). -/
def firstSegment (address : List Nat) : List Nat := address.takeWhile (fun b => b ≠ 46)

/-- The second dot-separated segment of an address that has a `.`. -/
def secondSegment (address : List Nat) : List Nat :=
  firstSegment ((address.dropWhile (fun b => b ≠ 46)).tail)

/-- The bytes of an ASCII text. -/
def asciiBytes (s : String) : List Nat := s.data.map Char.toNat

/-- The configuration in which the second sub-mission of the campaign has a title that is
not a number. -/
def exEnvBadTitle : Env :=
  { exEnv with
    GetSubMissions := fun _ => .ok [exSub 101 "1", exSub 102 "five", exSub 103 "10"] }

/-! ## The visit-and-dwell callback (`BrowsOfficialWebsiteCallback`) -/

/-- The collaborators of `BrowsOfficialWebsiteCallback` outside `quest.go`: the clock
(`time.Now().Unix()`), the configured dwell time, the mission id constant, the AES
decryption of package `opcrypt` under the configured key, and `completeMission`, which
grants a mission to a user (the error it returns and the world it leaves). -/
structure BrowsEnv where
  tnow : Int
  BrowsOfficialWebsiteTime : Int
  MissionIdBrowsOfficialWebSite : Int
  AesDecryptCBC : String → Except String String
  completeMission : World → String → Int → Option String × World

/-- `BrowsOfficialWebsiteCallback`; `body` is the `code` field bound from the JSON body,
`none` when `c.BindJSON` fails. The difference `tnow-pnow` is a 64-bit subtraction. -/
def BrowsOfficialWebsiteCallback (env : BrowsEnv) (body : Option String) (w : World) :
    HandlerResult :=
  match body with
  | none => .respond (.errorCode .InvalidParams) w
  | some paramsCode =>
    let code := TrimSpace paramsCode
    if code = "" then .respond (.errorCode .InvalidParams) w
    else
      match env.AesDecryptCBC code with
      | .error _ => .respond (.errorCode .InternalServer) w
      | .ok value =>
        let values := Split value ':'
        if values.length < 2 then .respond (.errorCode .InternalServer) w
        else
          let username := values.headD ""
          let pnow := (ParseInt ((values.get? 1).getD "")).1
          if pnow = 0 then .respond (.errorCode .InternalServer) w
          else if wrapInt64 (env.tnow - pnow) ≥ env.BrowsOfficialWebsiteTime then
            match env.completeMission w username env.MissionIdBrowsOfficialWebSite with
            | (some _, w2) => .respond (.errorCode .InternalServer) w2
            | (none, w2) => .respond .nil w2
          else .respond .nil w

/-- The example of the callback: the code `c1` decrypts to `alice:1000`, the dwell time is
30 seconds, and granting a mission appends an entry to the ledger. -/
def exBrowsEnv (tnow : Int) : BrowsEnv :=
  { tnow := tnow, BrowsOfficialWebsiteTime := 30, MissionIdBrowsOfficialWebSite := 20,
    AesDecryptCBC := fun code => if code = "c1" then .ok "alice:1000" else .error "bad code",
    completeMission := fun w username missionId =>
      (none, { w with ledger := w.ledger ++
                 [{ Username := username, MissionID := missionId, SubMissionID := 0,
                    Typ := 0, Credit := 10, Content := "", CreatedAt := tnow }] }) }

/-! ## The identity-link handlers -/

/-- A row of an identity-link table (`model.TelegramOauth`, `model.DiscordOauth`,
`model.TwitterOauth`), reduced to the field the handlers read: the internal user it is
bound to. -/
structure LinkRow where
  Username : String
  deriving DecidableEq, Repr, Inhabited

/-- The collaborators of the three bind handlers outside `quest.go`, over a link store of
type `σ`: the `dao` lookups, which return a row pointer (`none` is nil) and an error, the
`dao` writes, which return an error and the store they leave, the OAuth exchanges, the
HMAC of the Telegram login data under a bot token, and the configuration. -/
structure LinkEnv (σ : Type) where
  RedirectURI : String
  TelegramBotSparkToken : String
  TelegramBotTestToken : String
  hmacHex : String → List (String × String) → String
  isErrNoRows : Option String → Bool
  GenerateRandomString : Nat → String
  GetTelegramOAuth : σ → Int → Option LinkRow × Option String
  GetTelegramOauthByUsername : σ → String → Option LinkRow × Option String
  AddTelegramUserInfo : σ → String → String → Int → String → Option String × σ
  GetDiscordOAuthByState : σ → String → Except String String
  Exchange : String → String → Except String String
  DiscordUser : String → Except String (String × String)
  GetDiscordOAuth : σ → String → Option LinkRow × Option String
  UpdateDiscordUserInfo : σ → String → String → String → Option String × σ
  AuthorizeToken : String → String → Except String (String × String)
  GetTwitterOauth : σ → String → Option LinkRow × Option String
  UpdateTwitterUserInfo : σ → String → String → String → Option String × σ

/-- Outcome of a bind handler: the response written and the link store left, or a panic
(after the response `written`, if any). -/
inductive BindResult (σ : Type) where
  | respond (r : Response) (s : σ)
  | panic (written : Option Response) (s : σ)

/-- `c.Query(key)`: the first value of the key, or the empty string. -/
def queryGet (query : List (String × String)) (key : String) : String :=
  match query.find? (fun kv => kv.1 == key) with
  | some kv => kv.2
  | none => ""

/-- The test `dau != nil && dau.Username != ""` of the three handlers. -/
def alreadyBound (row : Option LinkRow) : Bool :=
  match row with
  | some dau => decide (dau.Username ≠ "")
  | none => false

/-- `TelegramBindHandler`; `username` is the authenticated identity, `host` and `query`
the host and the query parameters of the request URL. -/
def TelegramBindHandler {σ : Type} (env : LinkEnv σ) (username host : String)
    (query : List (String × String)) (s : σ) : BindResult σ :=
  let hash := queryGet query "hash"
  let telegramId := (ParseInt (queryGet query "id")).1
  let telegramUser := queryGet query "username"
  if alreadyBound (env.GetTelegramOAuth s telegramId).1 then
    .respond (.errorCode .SocialMediaAccountIsAlreadyInUse) s
  else
    let values := query.filter (fun kv => kv.1 != "hash")
    let botToken :=
      if Contains host "www" then env.TelegramBotSparkToken else env.TelegramBotTestToken
    if env.hmacHex botToken values ≠ hash then .respond (.errorCode .InvalidParams) s
    else
      match env.GetTelegramOauthByUsername s username with
      | (some _, _) => .respond .nil s
      | (none, err) =>
        if !env.isErrNoRows err then .respond (.errorCode .InternalServer) s
        else
          let code := env.GenerateRandomString 12
          match env.AddTelegramUserInfo s code username telegramId telegramUser with
          | (some _, s2) => .respond (.errorCode .InternalServer) s2
          | (none, s2) => .respond .nil s2

/-- `DiscordCallBackHandler`. After a failed `ts.User("@me")` the handler writes
`InternalServer` but does not return, and the next statement reads through the nil user. -/
def DiscordCallBackHandler {σ : Type} (env : LinkEnv σ) (code state : String) (s : σ) :
    BindResult σ :=
  if code = "" ∨ state = "" then .respond (.errorCode .InvalidParams) s
  else
    match env.GetDiscordOAuthByState s state with
    | .error _ => .respond (.errorCode .InternalServer) s
    | .ok daRedirectUri =>
      let redirectUri := if daRedirectUri = "" then env.RedirectURI else daRedirectUri
      match env.Exchange redirectUri code with
      | .error _ => .respond (.errorCode .InternalServer) s
      | .ok accessToken =>
        match env.DiscordUser accessToken with
        | .error _ => .panic (some (.errorCode .InternalServer)) s
        | .ok (uID, uEmail) =>
          if alreadyBound (env.GetDiscordOAuth s uID).1 then
            .respond (.errorCode .SocialMediaAccountIsAlreadyInUse) s
          else
            match env.UpdateDiscordUserInfo s state uID uEmail with
            | (some _, s2) => .respond (.errorCode .InternalServer) s2
            | (none, s2) => .respond .nil s2

/-- `TwitterCallBackHandler`. -/
def TwitterCallBackHandler {σ : Type} (env : LinkEnv σ) (oauthToken oauthVerify : String)
    (s : σ) : BindResult σ :=
  if oauthToken = "" ∨ oauthVerify = "" then .respond (.errorCode .InvalidParams) s
  else
    match env.AuthorizeToken oauthToken oauthVerify with
    | .error _ => .respond (.errorCode .InternalServer) s
    | .ok (userId, screenName) =>
      if alreadyBound (env.GetTwitterOauth s userId).1 then
        .respond (.errorCode .SocialMediaAccountIsAlreadyInUse) s
      else
        match env.UpdateTwitterUserInfo s oauthToken userId screenName with
        | (some _, s2) => .respond (.errorCode .InternalServer) s2
        | (none, s2) => .respond .nil s2

/-- The example link store: pairs of an external account id and the internal user it is
bound to; every lookup reads it and every write appends to it. -/
def exLinkEnv : LinkEnv (List (String × String)) :=
  { RedirectURI := "https://quest.example/callback",
    TelegramBotSparkToken := "spark", TelegramBotTestToken := "test",
    hmacHex := fun _ _ => "h",
    isErrNoRows := fun err => err == some "sql: no rows in result set",
    GenerateRandomString := fun _ => "abcdefghijkl",
    GetTelegramOAuth := fun s id =>
      ((s.find? (fun kv => kv.1 == toString id)).map (fun kv => { Username := kv.2 }), none),
    GetTelegramOauthByUsername := fun s u =>
      match s.find? (fun kv => kv.2 == u) with
      | some kv => (some { Username := kv.2 }, none)
      | none => (none, some "sql: no rows in result set"),
    AddTelegramUserInfo := fun s _ u id _ => (none, s ++ [(toString id, u)]),
    GetDiscordOAuthByState := fun _ _ => .ok "",
    Exchange := fun _ _ => .ok "token",
    DiscordUser := fun _ => .ok ("d1", "alice@example.org"),
    GetDiscordOAuth := fun s id =>
      ((s.find? (fun kv => kv.1 == id)).map (fun kv => { Username := kv.2 }), none),
    UpdateDiscordUserInfo := fun s state id _ => (none, s ++ [(id, state)]),
    AuthorizeToken := fun _ _ => .ok ("t1", "alice_tw"),
    GetTwitterOauth := fun s id =>
      ((s.find? (fun kv => kv.1 == id)).map (fun kv => { Username := kv.2 }), none),
    UpdateTwitterUserInfo := fun s tok id _ => (none, s ++ [(id, tok)]) }

/-! ## Credential rotation: proofs -/

theorem wrapInt64_id (x : Int) (h0 : 0 ≤ x) (h1 : x < 2 ^ 63) : wrapInt64 x = x := by
  unfold wrapInt64
  omega

theorem rr_step (cfg : Config) (w : World) (h2 : 2 ≤ cfg.UToolAPIKeys.length)
    (h0 : 0 ≤ w.globalCounter) (h1 : w.globalCounter + 1 < 2 ^ 63) :
    GetUToolKeyByRoundRobin cfg w =
      (cfg.UToolAPIKeys.get? ((w.globalCounter.toNat + 1) % cfg.UToolAPIKeys.length),
        { w with globalCounter := w.globalCounter + 1 }) := by
  unfold GetUToolKeyByRoundRobin
  have hw : wrapInt64 (w.globalCounter + 1) = w.globalCounter + 1 :=
    wrapInt64_id _ (by omega) h1
  have hne1 : ¬ cfg.UToolAPIKeys.length = 1 := by omega
  have hne0 : ¬ cfg.UToolAPIKeys.length = 0 := by omega
  simp only [hne1, hne0, if_false, hw]
  unfold indexKeys
  obtain ⟨c, hc⟩ := Int.eq_ofNat_of_zero_le h0
  simp only [hc]
  have h3 : Int.tmod ((c : Int) + 1) (cfg.UToolAPIKeys.length : Int)
      = (((c + 1) % cfg.UToolAPIKeys.length : Nat) : Int) := by
    rw [Int.tmod_eq_emod (by omega) (by omega)]
    push_cast
    rfl
  rw [h3]
  have h4 : ¬ (((c + 1) % cfg.UToolAPIKeys.length : Nat) : Int) < 0 := by omega
  simp only [h4, if_false, Int.toNat_ofNat]

theorem block_count (a i n : Nat) (hi : i < n) :
    (List.range n).countP (fun j => decide ((a + j) % n = i)) = 1 := by
  have hn : 0 < n := by omega
  have hnodup : ((List.range n).map (fun j => (a + j) % n)).Nodup := by
    apply List.Nodup.map_on _ (List.nodup_range n)
    intro x hx y hy hxy
    rw [List.mem_range] at hx hy
    have h1 : a + x ≡ a + y [MOD n] := hxy
    have h2 : x ≡ y [MOD n] := Nat.ModEq.add_left_cancel' a h1
    have h3 : x % n = y % n := h2
    rwa [Nat.mod_eq_of_lt hx, Nat.mod_eq_of_lt hy] at h3
  have hmem : i ∈ (List.range n).map (fun j => (a + j) % n) := by
    rw [List.mem_map]
    refine ⟨(i + (n - a % n)) % n, List.mem_range.2 (Nat.mod_lt _ hn), ?_⟩
    have ha : a % n < n := Nat.mod_lt _ hn
    have h1 : (a + (i + (n - a % n)) % n) % n = (a % n + (i + (n - a % n))) % n := by
      rw [Nat.add_mod, Nat.mod_mod, ← Nat.add_mod]
      conv_lhs => rw [Nat.add_mod]
      conv_rhs => rw [Nat.add_mod, Nat.mod_mod]
    rw [h1]
    have h2 : a % n + (i + (n - a % n)) = i + n := by omega
    rw [h2, Nat.add_mod_right, Nat.mod_eq_of_lt hi]
  have hc := List.count_eq_one_of_mem hnodup hmem
  rw [List.count, List.countP_map] at hc
  rw [← hc]
  apply List.countP_congr
  intro x _
  simp [Function.comp]

theorem period_count (a i n m : Nat) (hi : i < n) :
    (List.range (n * m)).countP (fun j => decide ((a + j) % n = i)) = m := by
  induction m with
  | zero => simp
  | succ m ih =>
    rw [Nat.mul_succ, List.range_add, List.countP_append, ih, List.countP_map]
    have : (List.range n).countP ((fun j => decide ((a + j) % n = i)) ∘ fun x => n * m + x)
        = (List.range n).countP (fun j => decide ((a + j) % n = i)) := by
      apply List.countP_congr
      intro x _
      simp only [Function.comp, decide_eq_true_eq]
      have : a + (n * m + x) = a + x + n * m := by omega
      rw [this, Nat.add_mul_mod_self_left]
    rw [this, block_count a i n hi]

theorem rotate_keys (cfg : Config) (h2 : 2 ≤ cfg.UToolAPIKeys.length) :
    ∀ (k : Nat) (w : World), 0 ≤ w.globalCounter → w.globalCounter + k < 2 ^ 63 →
      (rotate cfg k w).1 = (List.range k).map (fun j =>
        cfg.UToolAPIKeys.get? ((w.globalCounter.toNat + (j + 1)) % cfg.UToolAPIKeys.length)) ∧
      (rotate cfg k w).2 = { w with globalCounter := w.globalCounter + k } := by
  intro k
  induction k with
  | zero => intro w _ _; simp [rotate]
  | succ k ih =>
    intro w h0 h1
    have hstep := rr_step cfg w h2 h0 (by omega)
    have hrec := ih { w with globalCounter := w.globalCounter + 1 } (by simp; omega)
      (by simp; omega)
    simp only [rotate, hstep]
    refine ⟨?_, ?_⟩
    · rw [hrec.1, List.range_succ_eq_map, List.map_cons, List.map_map]
      congr 1
      apply List.map_congr_left
      intro j _
      simp only [Function.comp]
      have : (w.globalCounter + 1).toNat = w.globalCounter.toNat + 1 := by omega
      rw [this]
      congr 2
      omega
    · rw [hrec.2]
      simp
      omega

/-- C8 (round-robin selection). With `n ≥ 2` credentials and a non-negative counter `c` that
does not overflow, the `(j+1)`-th successive call of `GetUToolKeyByRoundRobin` returns
`keys[(c + (j+1)) mod n]` and `k` calls advance the counter by `k`; hence, when the
credentials are pairwise different, `n * m` consecutive calls return each credential exactly
`m` times. -/
theorem round_robin_selection (cfg : Config) (w : World) (k m : Nat)
    (hn : 2 ≤ cfg.UToolAPIKeys.length) (hc : 0 ≤ w.globalCounter)
    (hk : w.globalCounter + k < 2 ^ 63)
    (hm : w.globalCounter + cfg.UToolAPIKeys.length * m < 2 ^ 63) :
    (rotate cfg k w).1 = (List.range k).map (fun j =>
        cfg.UToolAPIKeys.get? ((w.globalCounter.toNat + (j + 1)) % cfg.UToolAPIKeys.length)) ∧
    (rotate cfg k w).2.globalCounter = w.globalCounter + k ∧
    (cfg.UToolAPIKeys.Nodup → ∀ key ∈ cfg.UToolAPIKeys,
      (rotate cfg (cfg.UToolAPIKeys.length * m) w).1.count (some key) = m) := by
  refine ⟨(rotate_keys cfg hn k w hc hk).1, ?_, ?_⟩
  · rw [(rotate_keys cfg hn k w hc hk).2]
  · intro hnd key hkey
    rw [(rotate_keys cfg hn _ w hc (by exact_mod_cast hm)).1]
    obtain ⟨i, hi, hget⟩ := List.getElem_of_mem hkey
    rw [List.count, List.countP_map]
    refine Eq.trans ?_ (period_count (w.globalCounter.toNat + 1) i cfg.UToolAPIKeys.length m hi)
    apply List.countP_congr
    intro j _
    simp only [Function.comp, beq_iff_eq, decide_eq_true_eq]
    have hlt : (w.globalCounter.toNat + (j + 1)) % cfg.UToolAPIKeys.length
        < cfg.UToolAPIKeys.length := Nat.mod_lt _ (by omega)
    have e : w.globalCounter.toNat + 1 + j = w.globalCounter.toNat + (j + 1) := by omega
    rw [e]
    constructor
    · intro h
      have h1 : cfg.UToolAPIKeys.get? i = some key := by
        rw [List.get?_eq_getElem?, List.getElem?_eq_getElem hi, hget]
      rw [← h1] at h
      rw [List.get?_eq_getElem?, List.get?_eq_getElem?] at h
      exact (List.getElem?_inj hlt hnd h)
    · intro h
      rw [h, List.get?_eq_getElem?, List.getElem?_eq_getElem hi, hget]

/-- Witness of C8: three credentials, six calls from counter 0, each returned twice in
rotation order. -/
theorem round_robin_selection_witness :
    (rotate { UToolAPIKeys := ["k0", "k1", "k2"], OfficialTwitterUserId := 0 } 6
        { ledger := [], globalCounter := 0, calls := [] }).1
      = [some "k1", some "k2", some "k0", some "k1", some "k2", some "k0"] ∧
    ∀ key ∈ ["k0", "k1", "k2"],
      (rotate { UToolAPIKeys := ["k0", "k1", "k2"], OfficialTwitterUserId := 0 } 6
        { ledger := [], globalCounter := 0, calls := [] }).1.count (some key) = 2 := by
  have h := round_robin_selection { UToolAPIKeys := ["k0", "k1", "k2"], OfficialTwitterUserId := 0 }
    { ledger := [], globalCounter := 0, calls := [] } 6 2 (by decide) (by decide) (by decide)
    (by decide)
  exact ⟨by decide, h.2.2 (by decide)⟩

/-- C9 (single-credential bypass). With exactly one configured credential every call of
`GetUToolKeyByRoundRobin` returns that credential and leaves the world, in particular the
rotation counter, unchanged. -/
theorem single_credential_bypass (key : String) (official : Int) (w : World) :
    GetUToolKeyByRoundRobin { UToolAPIKeys := [key], OfficialTwitterUserId := official } w
      = (some key, w) := by
  simp [GetUToolKeyByRoundRobin, indexKeys]

/-! ## The dispatch -/

theorem caseIds_length (k : Consts) : k.caseIds.length = 13 := rfl

theorem caseIds_ne (k : Consts) (hdist : k.Distinct) (i j : Fin 13) (h : i ≠ j) :
    k.caseIds.get (Fin.cast (caseIds_length k).symm i)
      ≠ k.caseIds.get (Fin.cast (caseIds_length k).symm j) := by
  intro heq
  have h2 := (List.Nodup.get_inj_iff hdist).1 heq
  apply h
  apply Fin.ext
  have h3 := congrArg Fin.val h2
  simpa using h3

theorem dispatch_FollowTwitter (k : Consts) (_hdist : k.Distinct) (env : Env) (cfg : Config)
    (mission : Mission) (username : String) (option : QueryOption) (w : World) :
    dispatch k env cfg mission username k.MissionIdFollowTwitter option w
      = some (checkFollowTwitter env cfg mission username option w) := by
  simp only [dispatch, if_false, if_true, false_or, or_true, true_or, ite_true, ite_false]

theorem dispatch_Retweet (k : Consts) (hdist : k.Distinct) (env : Env) (cfg : Config)
    (mission : Mission) (username : String) (option : QueryOption) (w : World) :
    dispatch k env cfg mission username k.MissionIdRetweet option w
      = some (checkReTweet env cfg mission username option w) := by
  have h0 : ¬ k.MissionIdRetweet = k.MissionIdFollowTwitter :=
    caseIds_ne k hdist 1 0 (by decide)
  simp only [dispatch, h0, if_false, if_true, false_or, or_true, true_or, ite_true, ite_false]

theorem dispatch_LikeTwitter (k : Consts) (hdist : k.Distinct) (env : Env) (cfg : Config)
    (mission : Mission) (username : String) (option : QueryOption) (w : World) :
    dispatch k env cfg mission username k.MissionIdLikeTwitter option w
      = some (checkLikeTweet env cfg mission username option w) := by
  have h0 : ¬ k.MissionIdLikeTwitter = k.MissionIdFollowTwitter :=
    caseIds_ne k hdist 2 0 (by decide)
  have h1 : ¬ k.MissionIdLikeTwitter = k.MissionIdRetweet :=
    caseIds_ne k hdist 2 1 (by decide)
  simp only [dispatch, h0, h1, if_false, if_true, false_or, or_true, true_or, ite_true, ite_false]

theorem dispatch_JoinDiscord (k : Consts) (hdist : k.Distinct) (env : Env) (cfg : Config)
    (mission : Mission) (username : String) (option : QueryOption) (w : World) :
    dispatch k env cfg mission username k.MissionIdJoinDiscord option w
      = some (checkJoinDiscord env mission username option w) := by
  have h0 : ¬ k.MissionIdJoinDiscord = k.MissionIdFollowTwitter :=
    caseIds_ne k hdist 3 0 (by decide)
  have h1 : ¬ k.MissionIdJoinDiscord = k.MissionIdRetweet :=
    caseIds_ne k hdist 3 1 (by decide)
  have h2 : ¬ k.MissionIdJoinDiscord = k.MissionIdLikeTwitter :=
    caseIds_ne k hdist 3 2 (by decide)
  simp only [dispatch, h0, h1, h2, if_false, if_true, false_or, or_true, true_or, ite_true, ite_false]

theorem dispatch_BindingKOL (k : Consts) (hdist : k.Distinct) (env : Env) (cfg : Config)
    (mission : Mission) (username : String) (option : QueryOption) (w : World) :
    dispatch k env cfg mission username k.MissionIdBindingKOL option w
      = some (checkBindingKOL env mission username option w) := by
  have h0 : ¬ k.MissionIdBindingKOL = k.MissionIdFollowTwitter :=
    caseIds_ne k hdist 4 0 (by decide)
  have h1 : ¬ k.MissionIdBindingKOL = k.MissionIdRetweet :=
    caseIds_ne k hdist 4 1 (by decide)
  have h2 : ¬ k.MissionIdBindingKOL = k.MissionIdLikeTwitter :=
    caseIds_ne k hdist 4 2 (by decide)
  have h3 : ¬ k.MissionIdBindingKOL = k.MissionIdJoinDiscord :=
    caseIds_ne k hdist 4 3 (by decide)
  simp only [dispatch, h0, h1, h2, h3, if_false, if_true, false_or, or_true, true_or, ite_true, ite_false]

theorem dispatch_VisitOfficialWebsite (k : Consts) (hdist : k.Distinct) (env : Env) (cfg : Config)
    (mission : Mission) (username : String) (option : QueryOption) (w : World) :
    dispatch k env cfg mission username k.MissionIdVisitOfficialWebsite option w
      = some (checkVisitOfficialWebsite env mission username option w) := by
  have h0 : ¬ k.MissionIdVisitOfficialWebsite = k.MissionIdFollowTwitter :=
    caseIds_ne k hdist 5 0 (by decide)
  have h1 : ¬ k.MissionIdVisitOfficialWebsite = k.MissionIdRetweet :=
    caseIds_ne k hdist 5 1 (by decide)
  have h2 : ¬ k.MissionIdVisitOfficialWebsite = k.MissionIdLikeTwitter :=
    caseIds_ne k hdist 5 2 (by decide)
  have h3 : ¬ k.MissionIdVisitOfficialWebsite = k.MissionIdJoinDiscord :=
    caseIds_ne k hdist 5 3 (by decide)
  have h4 : ¬ k.MissionIdVisitOfficialWebsite = k.MissionIdBindingKOL :=
    caseIds_ne k hdist 5 4 (by decide)
  simp only [dispatch, h0, h1, h2, h3, h4, if_false, if_true, false_or, or_true, true_or, ite_true, ite_false]

theorem dispatch_VisitReferrerPage (k : Consts) (hdist : k.Distinct) (env : Env) (cfg : Config)
    (mission : Mission) (username : String) (option : QueryOption) (w : World) :
    dispatch k env cfg mission username k.MissionIdVisitReferrerPage option w
      = some (checkVisitReferrerPage env mission username option w) := by
  have h0 : ¬ k.MissionIdVisitReferrerPage = k.MissionIdFollowTwitter :=
    caseIds_ne k hdist 6 0 (by decide)
  have h1 : ¬ k.MissionIdVisitReferrerPage = k.MissionIdRetweet :=
    caseIds_ne k hdist 6 1 (by decide)
  have h2 : ¬ k.MissionIdVisitReferrerPage = k.MissionIdLikeTwitter :=
    caseIds_ne k hdist 6 2 (by decide)
  have h3 : ¬ k.MissionIdVisitReferrerPage = k.MissionIdJoinDiscord :=
    caseIds_ne k hdist 6 3 (by decide)
  have h4 : ¬ k.MissionIdVisitReferrerPage = k.MissionIdBindingKOL :=
    caseIds_ne k hdist 6 4 (by decide)
  have h5 : ¬ k.MissionIdVisitReferrerPage = k.MissionIdVisitOfficialWebsite :=
    caseIds_ne k hdist 6 5 (by decide)
  simp only [dispatch, h0, h1, h2, h3, h4, h5, if_false, if_true, false_or, or_true, true_or, ite_true, ite_false]

theorem dispatch_JoinTelegramGroup (k : Consts) (hdist : k.Distinct) (env : Env) (cfg : Config)
    (mission : Mission) (username : String) (option : QueryOption) (w : World) :
    dispatch k env cfg mission username k.MissionIdJoinTelegramGroup option w
      = some (checkJoinTelegram env mission username option w) := by
  have h0 : ¬ k.MissionIdJoinTelegramGroup = k.MissionIdFollowTwitter :=
    caseIds_ne k hdist 7 0 (by decide)
  have h1 : ¬ k.MissionIdJoinTelegramGroup = k.MissionIdRetweet :=
    caseIds_ne k hdist 7 1 (by decide)
  have h2 : ¬ k.MissionIdJoinTelegramGroup = k.MissionIdLikeTwitter :=
    caseIds_ne k hdist 7 2 (by decide)
  have h3 : ¬ k.MissionIdJoinTelegramGroup = k.MissionIdJoinDiscord :=
    caseIds_ne k hdist 7 3 (by decide)
  have h4 : ¬ k.MissionIdJoinTelegramGroup = k.MissionIdBindingKOL :=
    caseIds_ne k hdist 7 4 (by decide)
  have h5 : ¬ k.MissionIdJoinTelegramGroup = k.MissionIdVisitOfficialWebsite :=
    caseIds_ne k hdist 7 5 (by decide)
  have h6 : ¬ k.MissionIdJoinTelegramGroup = k.MissionIdVisitReferrerPage :=
    caseIds_ne k hdist 7 6 (by decide)
  simp only [dispatch, h0, h1, h2, h3, h4, h5, h6, if_false, if_true, false_or, or_true, true_or, ite_true, ite_false]

theorem dispatch_JoinTelegramVolunteerGroup (k : Consts) (hdist : k.Distinct) (env : Env) (cfg : Config)
    (mission : Mission) (username : String) (option : QueryOption) (w : World) :
    dispatch k env cfg mission username k.MissionIdJoinTelegramVolunteerGroup option w
      = some (checkJoinTelegram env mission username option w) := by
  have h0 : ¬ k.MissionIdJoinTelegramVolunteerGroup = k.MissionIdFollowTwitter :=
    caseIds_ne k hdist 8 0 (by decide)
  have h1 : ¬ k.MissionIdJoinTelegramVolunteerGroup = k.MissionIdRetweet :=
    caseIds_ne k hdist 8 1 (by decide)
  have h2 : ¬ k.MissionIdJoinTelegramVolunteerGroup = k.MissionIdLikeTwitter :=
    caseIds_ne k hdist 8 2 (by decide)
  have h3 : ¬ k.MissionIdJoinTelegramVolunteerGroup = k.MissionIdJoinDiscord :=
    caseIds_ne k hdist 8 3 (by decide)
  have h4 : ¬ k.MissionIdJoinTelegramVolunteerGroup = k.MissionIdBindingKOL :=
    caseIds_ne k hdist 8 4 (by decide)
  have h5 : ¬ k.MissionIdJoinTelegramVolunteerGroup = k.MissionIdVisitOfficialWebsite :=
    caseIds_ne k hdist 8 5 (by decide)
  have h6 : ¬ k.MissionIdJoinTelegramVolunteerGroup = k.MissionIdVisitReferrerPage :=
    caseIds_ne k hdist 8 6 (by decide)
  simp only [dispatch, h0, h1, h2, h3, h4, h5, h6, if_false, if_true, false_or, or_true, true_or, ite_true, ite_false]

theorem dispatch_QuoteTweet (k : Consts) (hdist : k.Distinct) (env : Env) (cfg : Config)
    (mission : Mission) (username : String) (option : QueryOption) (w : World) :
    dispatch k env cfg mission username k.MissionIdQuoteTweet option w
      = some (checkQuoteTweet env cfg mission username option w) := by
  have h0 : ¬ k.MissionIdQuoteTweet = k.MissionIdFollowTwitter :=
    caseIds_ne k hdist 9 0 (by decide)
  have h1 : ¬ k.MissionIdQuoteTweet = k.MissionIdRetweet :=
    caseIds_ne k hdist 9 1 (by decide)
  have h2 : ¬ k.MissionIdQuoteTweet = k.MissionIdLikeTwitter :=
    caseIds_ne k hdist 9 2 (by decide)
  have h3 : ¬ k.MissionIdQuoteTweet = k.MissionIdJoinDiscord :=
    caseIds_ne k hdist 9 3 (by decide)
  have h4 : ¬ k.MissionIdQuoteTweet = k.MissionIdBindingKOL :=
    caseIds_ne k hdist 9 4 (by decide)
  have h5 : ¬ k.MissionIdQuoteTweet = k.MissionIdVisitOfficialWebsite :=
    caseIds_ne k hdist 9 5 (by decide)
  have h6 : ¬ k.MissionIdQuoteTweet = k.MissionIdVisitReferrerPage :=
    caseIds_ne k hdist 9 6 (by decide)
  have h7 : ¬ k.MissionIdQuoteTweet = k.MissionIdJoinTelegramGroup :=
    caseIds_ne k hdist 9 7 (by decide)
  have h8 : ¬ k.MissionIdQuoteTweet = k.MissionIdJoinTelegramVolunteerGroup :=
    caseIds_ne k hdist 9 8 (by decide)
  simp only [dispatch, h0, h1, h2, h3, h4, h5, h6, h7, h8, if_false, if_true, false_or, or_true, true_or, ite_true, ite_false]

theorem dispatch_PostTweet (k : Consts) (hdist : k.Distinct) (env : Env) (cfg : Config)
    (mission : Mission) (username : String) (option : QueryOption) (w : World) :
    dispatch k env cfg mission username k.MissionIdPostTweet option w
      = some (checkPostTweet env cfg mission username option w) := by
  have h0 : ¬ k.MissionIdPostTweet = k.MissionIdFollowTwitter :=
    caseIds_ne k hdist 10 0 (by decide)
  have h1 : ¬ k.MissionIdPostTweet = k.MissionIdRetweet :=
    caseIds_ne k hdist 10 1 (by decide)
  have h2 : ¬ k.MissionIdPostTweet = k.MissionIdLikeTwitter :=
    caseIds_ne k hdist 10 2 (by decide)
  have h3 : ¬ k.MissionIdPostTweet = k.MissionIdJoinDiscord :=
    caseIds_ne k hdist 10 3 (by decide)
  have h4 : ¬ k.MissionIdPostTweet = k.MissionIdBindingKOL :=
    caseIds_ne k hdist 10 4 (by decide)
  have h5 : ¬ k.MissionIdPostTweet = k.MissionIdVisitOfficialWebsite :=
    caseIds_ne k hdist 10 5 (by decide)
  have h6 : ¬ k.MissionIdPostTweet = k.MissionIdVisitReferrerPage :=
    caseIds_ne k hdist 10 6 (by decide)
  have h7 : ¬ k.MissionIdPostTweet = k.MissionIdJoinTelegramGroup :=
    caseIds_ne k hdist 10 7 (by decide)
  have h8 : ¬ k.MissionIdPostTweet = k.MissionIdJoinTelegramVolunteerGroup :=
    caseIds_ne k hdist 10 8 (by decide)
  have h9 : ¬ k.MissionIdPostTweet = k.MissionIdQuoteTweet :=
    caseIds_ne k hdist 10 9 (by decide)
  simp only [dispatch, h0, h1, h2, h3, h4, h5, h6, h7, h8, h9, if_false, if_true, false_or, or_true, true_or, ite_true, ite_false]

theorem dispatch_InviteFriendsToDiscord (k : Consts) (hdist : k.Distinct) (env : Env) (cfg : Config)
    (mission : Mission) (username : String) (option : QueryOption) (w : World) :
    dispatch k env cfg mission username k.MissionIdInviteFriendsToDiscord option w
      = some (checkInviteFriendsToDiscord env mission username option w) := by
  have h0 : ¬ k.MissionIdInviteFriendsToDiscord = k.MissionIdFollowTwitter :=
    caseIds_ne k hdist 11 0 (by decide)
  have h1 : ¬ k.MissionIdInviteFriendsToDiscord = k.MissionIdRetweet :=
    caseIds_ne k hdist 11 1 (by decide)
  have h2 : ¬ k.MissionIdInviteFriendsToDiscord = k.MissionIdLikeTwitter :=
    caseIds_ne k hdist 11 2 (by decide)
  have h3 : ¬ k.MissionIdInviteFriendsToDiscord = k.MissionIdJoinDiscord :=
    caseIds_ne k hdist 11 3 (by decide)
  have h4 : ¬ k.MissionIdInviteFriendsToDiscord = k.MissionIdBindingKOL :=
    caseIds_ne k hdist 11 4 (by decide)
  have h5 : ¬ k.MissionIdInviteFriendsToDiscord = k.MissionIdVisitOfficialWebsite :=
    caseIds_ne k hdist 11 5 (by decide)
  have h6 : ¬ k.MissionIdInviteFriendsToDiscord = k.MissionIdVisitReferrerPage :=
    caseIds_ne k hdist 11 6 (by decide)
  have h7 : ¬ k.MissionIdInviteFriendsToDiscord = k.MissionIdJoinTelegramGroup :=
    caseIds_ne k hdist 11 7 (by decide)
  have h8 : ¬ k.MissionIdInviteFriendsToDiscord = k.MissionIdJoinTelegramVolunteerGroup :=
    caseIds_ne k hdist 11 8 (by decide)
  have h9 : ¬ k.MissionIdInviteFriendsToDiscord = k.MissionIdQuoteTweet :=
    caseIds_ne k hdist 11 9 (by decide)
  have h10 : ¬ k.MissionIdInviteFriendsToDiscord = k.MissionIdPostTweet :=
    caseIds_ne k hdist 11 10 (by decide)
  simp only [dispatch, h0, h1, h2, h3, h4, h5, h6, h7, h8, h9, h10, if_false, if_true, false_or, or_true, true_or, ite_true, ite_false]

theorem dispatch_JoinDCVolunteerChannel (k : Consts) (hdist : k.Distinct) (env : Env) (cfg : Config)
    (mission : Mission) (username : String) (option : QueryOption) (w : World) :
    dispatch k env cfg mission username k.MissionIdJoinDCVolunteerChannel option w
      = some (checkJoinVolunteerChannel env mission username option w) := by
  have h0 : ¬ k.MissionIdJoinDCVolunteerChannel = k.MissionIdFollowTwitter :=
    caseIds_ne k hdist 12 0 (by decide)
  have h1 : ¬ k.MissionIdJoinDCVolunteerChannel = k.MissionIdRetweet :=
    caseIds_ne k hdist 12 1 (by decide)
  have h2 : ¬ k.MissionIdJoinDCVolunteerChannel = k.MissionIdLikeTwitter :=
    caseIds_ne k hdist 12 2 (by decide)
  have h3 : ¬ k.MissionIdJoinDCVolunteerChannel = k.MissionIdJoinDiscord :=
    caseIds_ne k hdist 12 3 (by decide)
  have h4 : ¬ k.MissionIdJoinDCVolunteerChannel = k.MissionIdBindingKOL :=
    caseIds_ne k hdist 12 4 (by decide)
  have h5 : ¬ k.MissionIdJoinDCVolunteerChannel = k.MissionIdVisitOfficialWebsite :=
    caseIds_ne k hdist 12 5 (by decide)
  have h6 : ¬ k.MissionIdJoinDCVolunteerChannel = k.MissionIdVisitReferrerPage :=
    caseIds_ne k hdist 12 6 (by decide)
  have h7 : ¬ k.MissionIdJoinDCVolunteerChannel = k.MissionIdJoinTelegramGroup :=
    caseIds_ne k hdist 12 7 (by decide)
  have h8 : ¬ k.MissionIdJoinDCVolunteerChannel = k.MissionIdJoinTelegramVolunteerGroup :=
    caseIds_ne k hdist 12 8 (by decide)
  have h9 : ¬ k.MissionIdJoinDCVolunteerChannel = k.MissionIdQuoteTweet :=
    caseIds_ne k hdist 12 9 (by decide)
  have h10 : ¬ k.MissionIdJoinDCVolunteerChannel = k.MissionIdPostTweet :=
    caseIds_ne k hdist 12 10 (by decide)
  have h11 : ¬ k.MissionIdJoinDCVolunteerChannel = k.MissionIdInviteFriendsToDiscord :=
    caseIds_ne k hdist 12 11 (by decide)
  simp only [dispatch, h0, h1, h2, h3, h4, h5, h6, h7, h8, h9, h10, h11, if_false, if_true, false_or, or_true, true_or, ite_true, ite_false]

/-! ## The orchestrator: proofs -/

/-- C2 (short-circuit). When the mission exists and the ledger lookup scoped by the handler's
option already returns at least `expectedCount` entries, `CheckQuestHandler` answers exactly
those entries and leaves the world as it was: no ledger write, no credential rotation and no
outgoing call, so no predicate ran. -/
theorem short_circuit (k : Consts) (env : Env) (cfg : Config) (username : String)
    (missionId : Int) (w : World) (mission : Mission) (ums : List UserMission)
    (expectedCount : Nat)
    (hmission : env.GetMissionById missionId = .ok (some mission))
    (hums : env.GetUserMissionByMissionId w.ledger username missionId
      (buildOption k env mission missionId) = .ok ums)
    (hexp : expectedCountOf k env missionId = .ok expectedCount)
    (hcount : ums.length ≥ expectedCount) :
    CheckQuestHandler k env cfg username missionId w = .respond (.missions ums) w := by
  simp only [CheckQuestHandler, hmission, hums, hexp, hcount, if_true]

/-- Witness of C2: the follow mission with one recorded entry. -/
theorem short_circuit_witness :
    CheckQuestHandler exConsts exEnv exCfg "alice" 1
        { ledger := [exEntry], globalCounter := 4, calls := [] }
      = .respond (.missions [exEntry]) { ledger := [exEntry], globalCounter := 4, calls := [] } :=
  short_circuit exConsts exEnv exCfg "alice" 1
    { ledger := [exEntry], globalCounter := 4, calls := [] } (exMission 1) [exEntry] 1
    (by decide) (by decide) (by decide) (by decide)

/-- C3, counterexample. Mission id 999999 is not in the catalog and the handler answers
`InternalServer`, not `NotFound`. -/
theorem unknown_mission_not_NotFound :
    exEnv.GetMissionById 999999 = .ok none ∧
    CheckQuestHandler exConsts exEnv exCfg "alice" 999999 exWorld
      = .respond (.errorCode .InternalServer) exWorld ∧
    CheckQuestHandler exConsts exEnv exCfg "alice" 999999 exWorld
      ≠ .respond (.errorCode .NotFound) exWorld := by
  decide

/-- C3, amended. For every mission id for which the catalog lookup returns no mission or
an error, `CheckQuestHandler` answers `InternalServer` with the world untouched. -/
theorem unknown_mission_internal_server (k : Consts) (env : Env) (cfg : Config)
    (username : String) (missionId : Int) (w : World)
    (habsent : env.GetMissionById missionId = .ok none ∨
      ∃ e, env.GetMissionById missionId = .error e) :
    CheckQuestHandler k env cfg username missionId w
      = .respond (.errorCode .InternalServer) w := by
  rcases habsent with h | ⟨e, h⟩ <;> simp only [CheckQuestHandler, h]

/-- Witness of the amended C3. -/
theorem unknown_mission_internal_server_witness :
    CheckQuestHandler exConsts exEnv exCfg "alice" 999999 exWorld
      = .respond (.errorCode .InternalServer) exWorld :=
  unknown_mission_internal_server exConsts exEnv exCfg "alice" 999999 exWorld
    (Or.inl (by decide))

theorem expectedCountOf_not_invite (k : Consts) (env : Env) (missionId : Int)
    (h : missionId ≠ k.MissionIdInviteFriendsToDiscord) :
    expectedCountOf k env missionId = .ok 1 := by
  simp [expectedCountOf, h]

/-- C4, counterexample. The visit-official-website and visit-referrer-page missions exist,
nothing is recorded, and the handler answers `MissionUnComplete`, not `NoImplement`. -/
theorem visit_missions_not_NoImplement :
    exEnv.GetMissionById exConsts.MissionIdVisitOfficialWebsite
      = .ok (some (exMission exConsts.MissionIdVisitOfficialWebsite)) ∧
    CheckQuestHandler exConsts exEnv exCfg "alice" exConsts.MissionIdVisitOfficialWebsite exWorld
      = .respond (.errorCode .MissionUnComplete) exWorld ∧
    CheckQuestHandler exConsts exEnv exCfg "alice" exConsts.MissionIdVisitReferrerPage exWorld
      = .respond (.errorCode .MissionUnComplete) exWorld := by
  decide

/-- C4, amended. For an existing mission with no recorded entry: when its id is none of the
case constants of the dispatch the handler answers `NoImplement`; when it is the
visit-official-website or the visit-referrer-page id the handler answers
`MissionUnComplete`. -/
theorem no_implement_default_branch (k : Consts) (env : Env) (cfg : Config) (username : String)
    (missionId : Int) (w : World) (mission : Mission)
    (hdist : k.Distinct)
    (hmission : env.GetMissionById missionId = .ok (some mission))
    (hums : env.GetUserMissionByMissionId w.ledger username missionId
      (buildOption k env mission missionId) = .ok []) :
    (missionId ∉ k.caseIds →
      CheckQuestHandler k env cfg username missionId w = .respond (.errorCode .NoImplement) w) ∧
    (missionId = k.MissionIdVisitOfficialWebsite ∨ missionId = k.MissionIdVisitReferrerPage →
      CheckQuestHandler k env cfg username missionId w
        = .respond (.errorCode .MissionUnComplete) w) := by
  constructor
  · intro hnot
    simp only [Consts.caseIds, List.mem_cons, List.mem_singleton, not_or, List.not_mem_nil,
      not_false_eq_true, and_true] at hnot
    have hexp := expectedCountOf_not_invite k env missionId hnot.2.2.2.2.2.2.2.2.2.2.2.1
    simp [CheckQuestHandler, hmission, hums, hexp, dispatch, hnot]
  · rintro (h | h)
    · subst h
      have hexp := expectedCountOf_not_invite k env k.MissionIdVisitOfficialWebsite
        (caseIds_ne k hdist 5 11 (by decide))
      simp only [CheckQuestHandler, hmission, hums, hexp,
        dispatch_VisitOfficialWebsite k hdist]
      rfl
    · subst h
      have hexp := expectedCountOf_not_invite k env k.MissionIdVisitReferrerPage
        (caseIds_ne k hdist 6 11 (by decide))
      simp only [CheckQuestHandler, hmission, hums, hexp,
        dispatch_VisitReferrerPage k hdist]
      rfl

/-- Witness of the amended C4: mission 14 has no case in the dispatch. -/
theorem no_implement_default_branch_witness :
    CheckQuestHandler exConsts exEnv exCfg "alice" 14 exWorld
      = .respond (.errorCode .NoImplement) exWorld :=
  (no_implement_default_branch exConsts exEnv exCfg "alice" 14 exWorld (exMission 14)
    (by decide) (by decide) (by decide)).1 (by decide)

theorem GetUToolKeyByRoundRobin_ledger (cfg : Config) (w : World) :
    (GetUToolKeyByRoundRobin cfg w).2.ledger = w.ledger := by
  unfold GetUToolKeyByRoundRobin
  simp only
  split_ifs <;> rfl

theorem handler_of_dispatch (k : Consts) (env : Env) (cfg : Config) (username : String)
    (missionId : Int) (w : World) (mission : Mission) (r : Ret)
    (hmission : env.GetMissionById missionId = .ok (some mission))
    (hums : env.GetUserMissionByMissionId w.ledger username missionId
      (buildOption k env mission missionId) = .ok [])
    (hni : missionId ≠ k.MissionIdInviteFriendsToDiscord)
    (hd : dispatch k env cfg mission username missionId (buildOption k env mission missionId) w
      = some r) :
    CheckQuestHandler k env cfg username missionId w
      = afterPredicate env username missionId (buildOption k env mission missionId) r := by
  have hexp := expectedCountOf_not_invite k env missionId hni
  simp [CheckQuestHandler, hmission, hums, hexp, hd]

/-- C5 (vendor envelope failure). Let the linked Twitter id be found, the key selection
return a key, and the mission exist with nothing recorded. For each of the five Twitter
predicates (follow, like, repost, quote, original post): when the upstream call it makes is
answered by an envelope whose code is not 1, the predicate returns the error whose message
is the envelope's `Msg`, the ledger is unchanged, and `CheckQuestHandler` on that mission
answers `MissionUnComplete`. -/
theorem vendor_envelope_failure (k : Consts) (env : Env) (cfg : Config) (username : String)
    (missionId : Int) (w w1 : World) (mission : Mission) (r : Envelope)
    (twitterUserID apiKey : String)
    (hdist : k.Distinct)
    (hmission : env.GetMissionById missionId = .ok (some mission))
    (hums : env.GetUserMissionByMissionId w.ledger username missionId
      (buildOption k env mission missionId) = .ok [])
    (htw : env.GetTwitterOauthByUsername username = .ok twitterUserID)
    (hkey : GetUToolKeyByRoundRobin cfg w = (some apiKey, w1))
    (hcode : r.Code ≠ 1) :
    (env.FollowingsIdsUsingGET apiKey twitterUserID = .ok r →
      ∃ w2, w2.ledger = w.ledger ∧
        (∀ qo, checkFollowTwitter env cfg mission username qo w = .done (some r.Msg) w2) ∧
        (missionId = k.MissionIdFollowTwitter →
          CheckQuestHandler k env cfg username missionId w
            = .respond (.errorCode .MissionUnComplete) w2)) ∧
    (∀ openURL, env.urlParse mission.OpenUrl = .ok openURL →
      env.FavoritersV2UsingGET apiKey (openURL.QueryGet "tweet_id") = .ok r →
      ∃ w2, w2.ledger = w.ledger ∧
        (∀ qo, checkLikeTweet env cfg mission username qo w = .done (some r.Msg) w2) ∧
        (missionId = k.MissionIdLikeTwitter →
          CheckQuestHandler k env cfg username missionId w
            = .respond (.errorCode .MissionUnComplete) w2)) ∧
    (∀ openURL, env.urlParse mission.OpenUrl = .ok openURL →
      env.RetweetersV2UsingGET apiKey (openURL.QueryGet "tweet_id") = .ok r →
      ∃ w2, w2.ledger = w.ledger ∧
        (∀ qo, checkReTweet env cfg mission username qo w = .done (some r.Msg) w2) ∧
        (missionId = k.MissionIdRetweet →
          CheckQuestHandler k env cfg username missionId w
            = .respond (.errorCode .MissionUnComplete) w2)) ∧
    (∀ link replyURL replyId,
      env.GetUserTwitterLink username mission.ID env.StartOfDay = .ok link →
      env.urlParse link = .ok replyURL → replyIdOf replyURL = some replyId →
      env.TweetTimelineUsingGET apiKey replyId = .ok r →
      ∃ w2, w2.ledger = w.ledger ∧
        (∀ qo, checkQuoteTweet env cfg mission username qo w = .done (some r.Msg) w2) ∧
        (missionId = k.MissionIdQuoteTweet →
          CheckQuestHandler k env cfg username missionId w
            = .respond (.errorCode .MissionUnComplete) w2)) ∧
    (∀ openURL link replyURL replyId, env.urlParse mission.OpenUrl = .ok openURL →
      env.GetUserTwitterLink username mission.ID env.StartOfDay = .ok link →
      env.urlParse link = .ok replyURL → replyIdOf replyURL = some replyId →
      env.TweetTimelineUsingGET apiKey replyId = .ok r →
      ∃ w2, w2.ledger = w.ledger ∧
        (∀ qo, checkPostTweet env cfg mission username qo w = .done (some r.Msg) w2) ∧
        (missionId = k.MissionIdPostTweet →
          CheckQuestHandler k env cfg username missionId w
            = .respond (.errorCode .MissionUnComplete) w2)) := by
  have hl : w1.ledger = w.ledger := by
    have := GetUToolKeyByRoundRobin_ledger cfg w
    rw [hkey] at this
    exact this
  refine ⟨?_, ?_, ?_, ?_, ?_⟩
  · intro hf
    have hp : ∀ qo, checkFollowTwitter env cfg mission username qo w
        = .done (some r.Msg) (w1.log (.FollowingsIds apiKey twitterUserID)) := by
      intro qo
      simp only [checkFollowTwitter, htw, hkey, hf, if_pos hcode]
    refine ⟨(w1.log (.FollowingsIds apiKey twitterUserID)), hl, hp, ?_⟩
    intro hid
    subst hid
    rw [handler_of_dispatch k env cfg username _ w mission _ hmission hums
      (caseIds_ne k hdist 0 11 (by decide)) (dispatch_FollowTwitter k hdist ..), hp]
    rfl
  · intro openURL hu hf
    have hp : ∀ qo, checkLikeTweet env cfg mission username qo w
        = .done (some r.Msg) (w1.log (.FavoritersV2 apiKey (openURL.QueryGet "tweet_id"))) := by
      intro qo
      simp only [checkLikeTweet, htw, hkey, hu, hf, if_pos hcode]
    refine ⟨(w1.log (.FavoritersV2 apiKey (openURL.QueryGet "tweet_id"))), hl, hp, ?_⟩
    intro hid
    subst hid
    rw [handler_of_dispatch k env cfg username _ w mission _ hmission hums
      (caseIds_ne k hdist 2 11 (by decide)) (dispatch_LikeTwitter k hdist ..), hp]
    rfl
  · intro openURL hu hf
    have hp : ∀ qo, checkReTweet env cfg mission username qo w
        = .done (some r.Msg) (w1.log (.RetweetersV2 apiKey (openURL.QueryGet "tweet_id"))) := by
      intro qo
      simp only [checkReTweet, htw, hkey, hu, hf, if_pos hcode]
    refine ⟨(w1.log (.RetweetersV2 apiKey (openURL.QueryGet "tweet_id"))), hl, hp, ?_⟩
    intro hid
    subst hid
    rw [handler_of_dispatch k env cfg username _ w mission _ hmission hums
      (caseIds_ne k hdist 1 11 (by decide)) (dispatch_Retweet k hdist ..), hp]
    rfl
  · intro link replyURL replyId hlink hu hid2 hf
    have hp : ∀ qo, checkQuoteTweet env cfg mission username qo w
        = .done (some r.Msg) (w1.log (.TweetTimeline apiKey replyId)) := by
      intro qo
      simp only [checkQuoteTweet, htw, hkey, hlink, hu, hid2, hf, if_pos hcode]
    refine ⟨(w1.log (.TweetTimeline apiKey replyId)), hl, hp, ?_⟩
    intro hid
    subst hid
    rw [handler_of_dispatch k env cfg username _ w mission _ hmission hums
      (caseIds_ne k hdist 9 11 (by decide)) (dispatch_QuoteTweet k hdist ..), hp]
    rfl
  · intro openURL link replyURL replyId hou hlink hu hid2 hf
    have hp : ∀ qo, checkPostTweet env cfg mission username qo w
        = .done (some r.Msg) (w1.log (.TweetTimeline apiKey replyId)) := by
      intro qo
      simp only [checkPostTweet, htw, hkey, hlink, hu, hou, hid2, hf, if_pos hcode]
    refine ⟨(w1.log (.TweetTimeline apiKey replyId)), hl, hp, ?_⟩
    intro hid
    subst hid
    rw [handler_of_dispatch k env cfg username _ w mission _ hmission hums
      (caseIds_ne k hdist 10 11 (by decide)) (dispatch_PostTweet k hdist ..), hp]
    rfl

/-- Witness of C5: the follow mission against an upstream that answers
`{code: 0, msg: "rate limited"}`. -/
theorem vendor_envelope_failure_witness :
    ∃ w2, w2.ledger = exWorld.ledger ∧
      (∀ qo, checkFollowTwitter exEnv exCfg (exMission 1) "alice" qo exWorld
        = .done (some "rate limited") w2) ∧
      CheckQuestHandler exConsts exEnv exCfg "alice" 1 exWorld
        = .respond (.errorCode .MissionUnComplete) w2 := by
  obtain ⟨w2, h1, h2, h3⟩ := (vendor_envelope_failure exConsts exEnv exCfg "alice" 1 exWorld
    { exWorld with globalCounter := 1 } (exMission 1)
    { Code := 0, Msg := "rate limited", Data := .other } "t1" "k1"
    (by decide) (by decide) (by decide) (by decide) (by decide) (by decide)).1 (by decide)
  exact ⟨w2, h1, h2, h3 (by decide)⟩

/-- C6, counterexample. The identity-link lookup of the follow predicate fails and the
handler answers `MissionUnComplete`, not `InternalServer`. -/
theorem storage_failure_reported_uncompleted :
    exEnvLinkDown.GetTwitterOauthByUsername "alice" = .error "sql: database is closed" ∧
    CheckQuestHandler exConsts exEnvLinkDown exCfg "alice" 1 exWorld
      = .respond (.errorCode .MissionUnComplete) exWorld ∧
    CheckQuestHandler exConsts exEnvLinkDown exCfg "alice" 1 exWorld
      ≠ .respond (.errorCode .InternalServer) exWorld := by
  decide

/-- C6, amended. A failure of a store operation made by the handler before the dispatch
(mission lookup, first ledger query, sub-mission lookup) is answered `InternalServer`. A
failure of a store operation inside a predicate (the identity-link or user lookup of each
predicate, the ledger query and the ledger insert of the common tail) makes the predicate
return that error, and the handler answers every predicate error `MissionUnComplete`. -/
theorem storage_failures (k : Consts) (env : Env) (cfg : Config) (username : String)
    (missionId : Int) (w : World) (mission : Mission) (e : String) :
    (env.GetMissionById missionId = .error e →
      CheckQuestHandler k env cfg username missionId w
        = .respond (.errorCode .InternalServer) w) ∧
    (env.GetMissionById missionId = .ok (some mission) →
      env.GetUserMissionByMissionId w.ledger username missionId
        (buildOption k env mission missionId) = .error e →
      CheckQuestHandler k env cfg username missionId w
        = .respond (.errorCode .InternalServer) w) ∧
    (∀ ums, env.GetMissionById missionId = .ok (some mission) →
      env.GetUserMissionByMissionId w.ledger username missionId
        (buildOption k env mission missionId) = .ok ums →
      missionId = k.MissionIdInviteFriendsToDiscord →
      env.GetSubMissions missionId = .error e →
      CheckQuestHandler k env cfg username missionId w
        = .respond (.errorCode .InternalServer) w) ∧
    (env.GetTwitterOauthByUsername username = .error e → ∀ qo,
      checkFollowTwitter env cfg mission username qo w = .done (some e) w ∧
      checkLikeTweet env cfg mission username qo w = .done (some e) w ∧
      checkReTweet env cfg mission username qo w = .done (some e) w ∧
      checkQuoteTweet env cfg mission username qo w = .done (some e) w ∧
      checkPostTweet env cfg mission username qo w = .done (some e) w) ∧
    (env.GetTelegramOauthByUsername username = .error e → ∀ qo,
      checkJoinTelegram env mission username qo w = .done (some e) w) ∧
    (env.GetDiscordOAuthByUsername username = .error e → ∀ qo,
      checkJoinDiscord env mission username qo w = .done (some e) w ∧
      checkInviteFriendsToDiscord env mission username qo w = .done (some e) w ∧
      checkJoinVolunteerChannel env mission username qo w = .done (some e) w) ∧
    (env.GetUserByUsername username = .error e → ∀ qo,
      checkBindingKOL env mission username qo w = .done (some e) w) ∧
    (∀ qo content, env.GetUserMissionByMissionId w.ledger username mission.ID qo = .error e →
      insertIfAbsent env mission username qo content w = .done (some e) w) ∧
    (∀ qo content, env.GetUserMissionByMissionId w.ledger username mission.ID qo = .ok [] →
      env.AddUserMissionAndInviteLog w.ledger
        { Username := username, MissionID := mission.ID, SubMissionID := 0, Typ := mission.Typ,
          Credit := mission.Credit, Content := content, CreatedAt := env.Now } = .error e →
      insertIfAbsent env mission username qo content w = .done (some e) w) ∧
    (∀ ums expectedCount w2, env.GetMissionById missionId = .ok (some mission) →
      env.GetUserMissionByMissionId w.ledger username missionId
        (buildOption k env mission missionId) = .ok ums →
      expectedCountOf k env missionId = .ok expectedCount →
      ums.length < expectedCount →
      dispatch k env cfg mission username missionId (buildOption k env mission missionId) w
        = some (.done (some e) w2) →
      CheckQuestHandler k env cfg username missionId w
        = .respond (.errorCode .MissionUnComplete) w2) := by
  refine ⟨?_, ?_, ?_, ?_, ?_, ?_, ?_, ?_, ?_, ?_⟩
  · intro h
    simp only [CheckQuestHandler, h]
  · intro h1 h2
    simp only [CheckQuestHandler, h1, h2]
  · intro ums h1 h2 h3 h4
    simp only [CheckQuestHandler, h1, h2, expectedCountOf, if_pos h3, h4]
  · intro h qo
    simp only [checkFollowTwitter, checkLikeTweet, checkReTweet, checkQuoteTweet,
      checkPostTweet, h, and_self]
  · intro h qo
    simp only [checkJoinTelegram, h]
  · intro h qo
    simp only [checkJoinDiscord, checkInviteFriendsToDiscord, checkJoinVolunteerChannel, h,
      and_self]
  · intro h qo
    simp only [checkBindingKOL, h]
  · intro qo content h
    simp only [insertIfAbsent, h]
  · intro qo content h1 h2
    simp only [insertIfAbsent, h1, h2, List.length_nil, if_true]
  · intro ums n w2 h1 h2 h3 h4 h5
    have h6 : ¬ ums.length ≥ n := by omega
    simp only [CheckQuestHandler, h1, h2, h3, h5, if_neg h6]
    rfl

/-- Witness of the amended C6: the follow mission with the identity-link store down. -/
theorem storage_failures_witness :
    CheckQuestHandler exConsts exEnvLinkDown exCfg "alice" 1 exWorld
      = .respond (.errorCode .MissionUnComplete) exWorld :=
  (storage_failures exConsts exEnvLinkDown exCfg "alice" 1 exWorld (exMission 1)
    "sql: database is closed").2.2.2.2.2.2.2.2.2 [] 1 exWorld (by decide) (by decide)
    (by decide) (by decide) (by decide)

/-- C7, counterexample. The follow condition holds, nothing is recorded, and the ledger
rejects the insert with a uniqueness violation: the handler answers `MissionUnComplete`,
it does not report success. -/
theorem uniqueness_violation_reported_uncompleted :
    (∀ l e, exEnvDuplicate.AddUserMissionAndInviteLog l e
      = .error "Error 1062: Duplicate entry") ∧
    CheckQuestHandler exConsts exEnvDuplicate exCfg "alice" 1 exWorld
      = .respond (.errorCode .MissionUnComplete)
          { ledger := [], globalCounter := 1, calls := [.FollowingsIds "k1" "t1"] } :=
  ⟨fun _ _ => rfl, by decide⟩

/-- C7, amended. In the common tail of the single-entry predicates: when the re-query is
empty and the insert is rejected with any error (a uniqueness violation included), the
predicate returns that error and the handler answers `MissionUnComplete`; when the re-query
already finds entries, nothing is inserted, the predicate succeeds and the handler returns
the existing entries. -/
theorem insert_rejected_is_uncompleted (env : Env) (mission : Mission) (username : String)
    (qo : QueryOption) (content : String) (w : World) :
    (∀ e, env.GetUserMissionByMissionId w.ledger username mission.ID qo = .ok [] →
      env.AddUserMissionAndInviteLog w.ledger
        { Username := username, MissionID := mission.ID, SubMissionID := 0, Typ := mission.Typ,
          Credit := mission.Credit, Content := content, CreatedAt := env.Now } = .error e →
      insertIfAbsent env mission username qo content w = .done (some e) w ∧
      afterPredicate env username mission.ID qo (insertIfAbsent env mission username qo content w)
        = .respond (.errorCode .MissionUnComplete) w) ∧
    (∀ ums, env.GetUserMissionByMissionId w.ledger username mission.ID qo = .ok ums →
      ums ≠ [] →
      insertIfAbsent env mission username qo content w = .done none w ∧
      afterPredicate env username mission.ID qo (insertIfAbsent env mission username qo content w)
        = .respond (.missions ums) w) := by
  constructor
  · intro e h1 h2
    have h : insertIfAbsent env mission username qo content w = .done (some e) w := by
      simp only [insertIfAbsent, h1, h2, List.length_nil, if_true]
    exact ⟨h, by rw [h]; rfl⟩
  · intro ums h1 h2
    have hlen : ¬ ums.length = 0 := by
      intro h0
      exact h2 (List.length_eq_zero.1 h0)
    have h : insertIfAbsent env mission username qo content w = .done none w := by
      simp only [insertIfAbsent, h1, if_neg hlen]
    refine ⟨h, ?_⟩
    rw [h]
    have hpos : ums.length > 0 := by omega
    simp only [afterPredicate, h1, if_pos hpos]

/-- Witness of the amended C7. -/
theorem insert_rejected_is_uncompleted_witness :
    insertIfAbsent exEnvDuplicate (exMission 1) "alice" { Content := "", StartTime := none } "t1"
        exWorld = .done (some "Error 1062: Duplicate entry") exWorld ∧
    afterPredicate exEnvDuplicate "alice" 1 { Content := "", StartTime := none }
        (insertIfAbsent exEnvDuplicate (exMission 1) "alice" { Content := "", StartTime := none }
          "t1" exWorld)
      = .respond (.errorCode .MissionUnComplete) exWorld :=
  (insert_rejected_is_uncompleted exEnvDuplicate (exMission 1) "alice"
    { Content := "", StartTime := none } "t1" exWorld).1 "Error 1062: Duplicate entry"
    (by decide) (by decide)

/-! ## The invite-friends predicate: proofs -/

theorem qualifying_cons_skip (count : Int) (completed : List Int) (sm : Mission)
    (rest : List Mission)
    (h : completed.contains sm.ID = true ∨ ¬ (ParseInt sm.Title).1 ≤ count) :
    qualifying count completed (sm :: rest) = qualifying count completed rest := by
  unfold qualifying
  rw [List.filter_cons]
  rcases h with h | h
  · simp only [h, Bool.not_true, Bool.false_and, Bool.false_eq_true, if_false]
  · simp only [h, decide_False, Bool.and_false, Bool.false_eq_true, if_false]

theorem qualifying_cons_take (count : Int) (completed : List Int) (sm : Mission)
    (rest : List Mission)
    (h1 : completed.contains sm.ID = false) (h2 : (ParseInt sm.Title).1 ≤ count) :
    qualifying count completed (sm :: rest) = sm :: qualifying count completed rest := by
  unfold qualifying
  rw [List.filter_cons]
  simp only [h1, h2, Bool.not_false, decide_True, Bool.and_self, if_true]

theorem inviteLoop_ok (env : Env) (mission : Mission) (username discordUserID : String)
    (count : Int) (completed : List Int)
    (hins : ∀ l e, env.AddUserMissionAndInviteLog l e = .ok (l ++ [e])) :
    ∀ (subMission : List Mission) (completedCount : Int) (w : World),
      (∀ sm ∈ subMission, (ParseInt sm.Title).2 = true) →
      inviteLoop env mission username discordUserID count completed subMission completedCount w
        = (.ok (completedCount + (qualifying count completed subMission).length),
            { w with ledger := w.ledger ++ inviteEntries env mission username discordUserID
                                 (qualifying count completed subMission) }) := by
  intro subMission
  induction subMission with
  | nil => intro cc w _; simp [inviteLoop, qualifying, inviteEntries]
  | cons sm rest ih =>
    intro cc w hnum
    have hsm : (ParseInt sm.Title).2 = true := hnum sm (List.mem_cons_self _ _)
    have hrest : ∀ x ∈ rest, (ParseInt x.Title).2 = true :=
      fun x hx => hnum x (List.mem_cons_of_mem _ hx)
    have hp : ParseInt sm.Title = ((ParseInt sm.Title).1, true) := by
      rw [← hsm]
    unfold inviteLoop
    rw [hp]
    simp only
    by_cases hc : completed.contains sm.ID = true
    · rw [if_pos hc, ih cc w hrest, qualifying_cons_skip count completed sm rest (Or.inl hc)]
    · rw [if_neg hc]
      by_cases hlt : count < (ParseInt sm.Title).1
      · rw [if_pos hlt, ih cc w hrest,
          qualifying_cons_skip count completed sm rest (Or.inr (by omega))]
      · rw [if_neg hlt, hins]
        simp only
        rw [ih _ _ hrest, qualifying_cons_take count completed sm rest (by simpa using hc)
          (by omega)]
        simp only [inviteEntries, List.map_cons, List.length_cons, List.append_assoc,
          List.singleton_append, Nat.cast_add, Nat.cast_one]
        congr 2
        omega

/-- C10 (sub-mission thresholds). Let the linked Discord id be found, the invite counter be
`c > 0`, every sub-mission title be numeric, `ums` be the recorded entries returned by the
ledger query, and the store accept every insert. Then `checkInviteFriendsToDiscord` returns
and the ledger it leaves is the old ledger followed by exactly one entry, carrying the
sub-mission's id, type and credit and the Discord id as content, for each sub-mission (in
list order) that is not recorded in `ums` and whose threshold is at most `c`; nothing is
written for any other sub-mission. -/
theorem sub_mission_thresholds (env : Env) (mission : Mission) (username : String)
    (qo : QueryOption) (w : World) (discordUserID result : String)
    (subMission : List Mission) (ums : List UserMission)
    (hdiscord : env.GetDiscordOAuthByUsername username = .ok discordUserID)
    (hsubs : env.GetSubMissions mission.ID = .ok subMission)
    (hredis : env.RedisGet discordUserID env.StartOfWeek = .ok result)
    (hcount : 0 < (ParseInt result).1)
    (hums : env.GetUserMissionByMissionId w.ledger username mission.ID qo = .ok ums)
    (hnum : ∀ sm ∈ subMission, (ParseInt sm.Title).2 = true)
    (hins : ∀ l e, env.AddUserMissionAndInviteLog l e = .ok (l ++ [e])) :
    ∃ err w2, checkInviteFriendsToDiscord env mission username qo w = .done err w2 ∧
      w2.ledger = w.ledger ++
        (subMission.filter (fun sm =>
          decide (sm.ID ∉ ums.map (fun m => m.SubMissionID)) &&
          decide ((ParseInt sm.Title).1 ≤ (ParseInt result).1))).map
        (fun sm =>
          { Username := username, MissionID := mission.ID, SubMissionID := sm.ID,
            Typ := sm.Typ, Credit := sm.Credit, Content := discordUserID,
            CreatedAt := env.Now }) := by
  have hq : (subMission.filter (fun sm =>
          decide (sm.ID ∉ ums.map (fun m => m.SubMissionID)) &&
          decide ((ParseInt sm.Title).1 ≤ (ParseInt result).1)))
      = qualifying (ParseInt result).1 (ums.map (fun m => m.SubMissionID)).dedup subMission := by
    unfold qualifying
    apply List.filter_congr
    intro sm _
    by_cases h : sm.ID ∈ ums.map (fun m => m.SubMissionID)
    · have h2 : (ums.map (fun m => m.SubMissionID)).dedup.contains sm.ID = true := by
        simpa [List.mem_dedup] using h
      rw [h2]
      simp only [h, not_true_eq_false, decide_False, Bool.false_and, Bool.not_true]
    · have h2 : (ums.map (fun m => m.SubMissionID)).dedup.contains sm.ID = false := by
        simpa [List.mem_dedup] using h
      rw [h2]
      simp only [h, not_false_eq_true, decide_True, Bool.true_and, Bool.not_false]
  have hnc : ¬ (ParseInt result).1 ≤ 0 := by omega
  have hums2 : env.GetUserMissionByMissionId (w.log (.RedisGet discordUserID env.StartOfWeek)).ledger
      username mission.ID qo = .ok ums := hums
  simp only [checkInviteFriendsToDiscord, hdiscord, hsubs, hredis, if_neg hnc, hums2]
  rw [inviteLoop_ok env mission username discordUserID _ _ hins subMission _ _ hnum]
  simp only
  rw [hq]
  split_ifs
  · exact ⟨_, _, rfl, rfl⟩
  · exact ⟨_, _, rfl, rfl⟩

/-- Witness of C10: thresholds 1, 5, 10, counter 6, empty ledger: exactly the entries for
thresholds 1 and 5 are written and the call succeeds. -/
theorem sub_mission_thresholds_witness :
    checkInviteFriendsToDiscord exEnv (exMission 12) "alice" { Content := "", StartTime := none }
        exWorld
      = .done none
          { ledger := [subMissionEntry exEnv (exMission 12) "alice" "d1" (exSub 101 "1"),
                       subMissionEntry exEnv (exMission 12) "alice" "d1" (exSub 102 "5")],
            globalCounter := 0, calls := [.RedisGet "d1" 500] } ∧
    ∃ err w2, checkInviteFriendsToDiscord exEnv (exMission 12) "alice"
        { Content := "", StartTime := none } exWorld = .done err w2 ∧
      w2.ledger = [subMissionEntry exEnv (exMission 12) "alice" "d1" (exSub 101 "1"),
                   subMissionEntry exEnv (exMission 12) "alice" "d1" (exSub 102 "5")] := by
  refine ⟨by decide, ?_⟩
  obtain ⟨err, w2, h1, h2⟩ := sub_mission_thresholds exEnv (exMission 12) "alice"
    { Content := "", StartTime := none } exWorld "d1" "6"
    [exSub 101 "1", exSub 102 "5", exSub 103 "10"] [] (by decide) (by decide) (by decide)
    (by decide) (by decide) (by decide) (fun _ _ => rfl)
  exact ⟨err, w2, h1, by rw [h2]; decide⟩

/-! ## Idempotency of the check -/

theorem inviteLoop_inv (env : Env) (mission : Mission) (username discordUserID : String)
    (count : Int) (completed : List Int)
    (hins : ∀ l e l2, env.AddUserMissionAndInviteLog l e = .ok l2 → l2 = l ++ [e]) :
    ∀ (subMission : List Mission) (cc : Int) (w : World) (cc2 : Int) (w2 : World),
      inviteLoop env mission username discordUserID count completed subMission cc w
        = (.ok cc2, w2) →
      (∀ sm ∈ subMission, (ParseInt sm.Title).2 = true) ∧
      w2.ledger = w.ledger ++ inviteEntries env mission username discordUserID
        (qualifying count completed subMission) ∧
      cc2 = cc + (qualifying count completed subMission).length := by
  intro subMission
  induction subMission with
  | nil =>
    intro cc w cc2 w2 h
    simp only [inviteLoop, Prod.mk.injEq, Except.ok.injEq] at h
    obtain ⟨rfl, rfl⟩ := h
    simp [qualifying, inviteEntries]
  | cons sm rest ih =>
    intro cc w cc2 w2 h
    unfold inviteLoop at h
    rcases hp : ParseInt sm.Title with ⟨v, b⟩
    rw [hp] at h
    cases b with
    | false => simp at h
    | true =>
      simp only at h
      have hv : (ParseInt sm.Title).1 = v := by rw [hp]
      have hb : (ParseInt sm.Title).2 = true := by rw [hp]
      by_cases hc : completed.contains sm.ID = true
      · rw [if_pos hc] at h
        obtain ⟨h1, h2, h3⟩ := ih cc w cc2 w2 h
        rw [qualifying_cons_skip count completed sm rest (Or.inl hc)]
        refine ⟨?_, h2, h3⟩
        intro x hx
        rcases List.mem_cons.1 hx with rfl | hx
        · exact hb
        · exact h1 x hx
      · rw [if_neg hc] at h
        by_cases hlt : count < v
        · rw [if_pos hlt] at h
          obtain ⟨h1, h2, h3⟩ := ih cc w cc2 w2 h
          rw [qualifying_cons_skip count completed sm rest (Or.inr (by omega))]
          refine ⟨?_, h2, h3⟩
          intro x hx
          rcases List.mem_cons.1 hx with rfl | hx
          · exact hb
          · exact h1 x hx
        · rw [if_neg hlt] at h
          cases hi : env.AddUserMissionAndInviteLog w.ledger
              (subMissionEntry env mission username discordUserID sm) with
          | error e => rw [hi] at h; simp at h
          | ok l =>
            rw [hi] at h
            simp only at h
            obtain ⟨h1, h2, h3⟩ := ih _ _ cc2 w2 h
            have hl := hins _ _ _ hi
            rw [qualifying_cons_take count completed sm rest (by simpa using hc) (by omega)]
            refine ⟨?_, ?_, ?_⟩
            · intro x hx
              rcases List.mem_cons.1 hx with rfl | hx
              · exact hb
              · exact h1 x hx
            · rw [h2]
              simp only [hl, inviteEntries, List.map_cons, List.append_assoc,
                List.singleton_append]
            · rw [h3]
              simp only [List.length_cons, Nat.cast_add, Nat.cast_one]
              omega

theorem inviteLoop_no_qualifying (env : Env) (mission : Mission)
    (username discordUserID : String) (count : Int) (completed : List Int) :
    ∀ (subMission : List Mission) (cc : Int) (w : World),
      (∀ sm ∈ subMission, (ParseInt sm.Title).2 = true) →
      qualifying count completed subMission = [] →
      inviteLoop env mission username discordUserID count completed subMission cc w
        = (.ok cc, w) := by
  intro subMission
  induction subMission with
  | nil => intro cc w _ _; rfl
  | cons sm rest ih =>
    intro cc w hnum hq
    have hb : (ParseInt sm.Title).2 = true := hnum sm (List.mem_cons_self _ _)
    have hrest : ∀ x ∈ rest, (ParseInt x.Title).2 = true :=
      fun x hx => hnum x (List.mem_cons_of_mem _ hx)
    have hp : ParseInt sm.Title = ((ParseInt sm.Title).1, true) := by
      rw [← hb]
    unfold inviteLoop
    rw [hp]
    simp only
    by_cases hc : completed.contains sm.ID = true
    · rw [if_pos hc]
      rw [qualifying_cons_skip count completed sm rest (Or.inl hc)] at hq
      exact ih cc w hrest hq
    · rw [if_neg hc]
      by_cases hlt : count < (ParseInt sm.Title).1
      · rw [if_pos hlt]
        rw [qualifying_cons_skip count completed sm rest (Or.inr (by omega))] at hq
        exact ih cc w hrest hq
      · rw [qualifying_cons_take count completed sm rest (by simpa using hc) (by omega)] at hq
        cases hq

theorem QueryEntries_append (l1 l2 : List UserMission) (username : String) (missionId : Int)
    (opt : QueryOption) :
    QueryEntries (l1 ++ l2) username missionId opt
      = QueryEntries l1 username missionId opt ++ QueryEntries l2 username missionId opt := by
  simp [QueryEntries, List.filter_append]

theorem subMissionEntry_mem_query (env : Env) (mission : Mission)
    (username discordUserID : String) (opt : QueryOption) (sm : Mission)
    (l : List UserMission)
    (hcontent : opt.Content = "")
    (hstart : ∀ t, opt.StartTime = some t → t ≤ env.Now)
    (hmem : subMissionEntry env mission username discordUserID sm ∈ l) :
    subMissionEntry env mission username discordUserID sm
      ∈ QueryEntries l username mission.ID opt := by
  unfold QueryEntries
  rw [List.mem_filter]
  refine ⟨hmem, ?_⟩
  cases hs : opt.StartTime with
  | none => simp [subMissionEntry, hcontent]
  | some t =>
    have := hstart t hs
    simp [subMissionEntry, hcontent, this]

theorem invite_second_run (env : Env) (mission : Mission) (username : String)
    (opt : QueryOption) (w0 w1 : World)
    (hstore : env.SpecStore)
    (hcontent : opt.Content = "")
    (hstart : ∀ t, opt.StartTime = some t → t ≤ env.Now)
    (hfirst : checkInviteFriendsToDiscord env mission username opt w0 = .done none w1) :
    ∃ w2, checkInviteFriendsToDiscord env mission username opt w1 = .done none w2 ∧
      w2.ledger = w1.ledger := by
  obtain ⟨hq, hins⟩ := hstore
  unfold checkInviteFriendsToDiscord at hfirst ⊢
  cases hd : env.GetDiscordOAuthByUsername username with
  | error e => rw [hd] at hfirst; simp at hfirst
  | ok d =>
    rw [hd] at hfirst
    simp only at hfirst ⊢
    cases hs : env.GetSubMissions mission.ID with
    | error e => rw [hs] at hfirst; simp at hfirst
    | ok subs =>
      rw [hs] at hfirst
      simp only at hfirst ⊢
      cases hr : env.RedisGet d env.StartOfWeek with
      | error e => rw [hr] at hfirst; simp at hfirst
      | ok result =>
        rw [hr] at hfirst
        simp only at hfirst ⊢
        by_cases hc : (ParseInt result).1 ≤ 0
        · rw [if_pos hc] at hfirst; simp at hfirst
        · rw [if_neg hc] at hfirst ⊢
          rw [hq] at hfirst ⊢
          simp only at hfirst ⊢
          have hl0 : (w0.log (.RedisGet d env.StartOfWeek)).ledger = w0.ledger := rfl
          have hl1 : (w1.log (.RedisGet d env.StartOfWeek)).ledger = w1.ledger := rfl
          rw [hl0] at hfirst
          rw [hl1]
          generalize hcompleted0 :
            (List.map (fun m => m.SubMissionID)
              (QueryEntries w0.ledger username mission.ID opt)).dedup = completed0 at hfirst
          rcases hloop : inviteLoop env mission username d (ParseInt result).1 completed0 subs
            (completed0.length : Int) (w0.log (.RedisGet d env.StartOfWeek)) with ⟨res, wl⟩
          rw [hloop] at hfirst
          cases res with
          | error e => simp at hfirst
          | ok cc =>
            simp only at hfirst
            by_cases hcc : cc ≤ 0
            · rw [if_pos hcc] at hfirst; simp at hfirst
            · rw [if_neg hcc] at hfirst
              simp only [Ret.done.injEq, true_and] at hfirst
              subst hfirst
              obtain ⟨hnum, hledger, hcount⟩ :=
                inviteLoop_inv env mission username d _ completed0 hins subs _ _ _ _ hloop
              rw [hl0] at hledger
              have hsub : ∀ m ∈ QueryEntries w0.ledger username mission.ID opt,
                  m ∈ QueryEntries wl.ledger username mission.ID opt := by
                intro m hm
                rw [hledger, QueryEntries_append]
                exact List.mem_append_left _ hm
              have hnew : ∀ sm ∈ qualifying (ParseInt result).1 completed0 subs,
                  subMissionEntry env mission username d sm
                    ∈ QueryEntries wl.ledger username mission.ID opt := by
                intro sm hsm
                apply subMissionEntry_mem_query env mission username d opt sm _ hcontent hstart
                rw [hledger]
                apply List.mem_append_right
                exact List.mem_map_of_mem _ hsm
              have hqual : qualifying (ParseInt result).1
                  (List.map (fun m => m.SubMissionID)
                    (QueryEntries wl.ledger username mission.ID opt)).dedup subs = [] := by
                unfold qualifying
                rw [List.filter_eq_nil_iff]
                intro sm hsm hcond
                simp only [Bool.and_eq_true, Bool.not_eq_true', decide_eq_true_eq] at hcond
                obtain ⟨hnot, hle⟩ := hcond
                have hnot2 : sm.ID ∉ List.map (fun m => m.SubMissionID)
                    (QueryEntries wl.ledger username mission.ID opt) := by
                  intro hmem
                  have : (List.map (fun m => m.SubMissionID)
                    (QueryEntries wl.ledger username mission.ID opt)).dedup.contains sm.ID
                      = true := by simpa [List.mem_dedup] using hmem
                  rw [this] at hnot
                  cases hnot
                apply hnot2
                by_cases hc0 : completed0.contains sm.ID = true
                · rw [← hcompleted0] at hc0
                  have hmem0 : sm.ID ∈ List.map (fun m => m.SubMissionID)
                      (QueryEntries w0.ledger username mission.ID opt) := by
                    simpa [List.mem_dedup] using hc0
                  obtain ⟨m, hm, hmid⟩ := List.mem_map.1 hmem0
                  exact List.mem_map.2 ⟨m, hsub m hm, hmid⟩
                · have hq0 : sm ∈ qualifying (ParseInt result).1 completed0 subs := by
                    unfold qualifying
                    rw [List.mem_filter]
                    refine ⟨hsm, ?_⟩
                    have : completed0.contains sm.ID = false := by simpa using hc0
                    simp only [this, hle, Bool.not_false, decide_True, Bool.and_self]
                  exact List.mem_map.2 ⟨_, hnew sm hq0, rfl⟩
              rw [inviteLoop_no_qualifying env mission username d _ _ subs _ _ hnum hqual]
              simp only
              have hpos : ¬ (((List.map (fun m => m.SubMissionID)
                  (QueryEntries wl.ledger username mission.ID opt)).dedup.length : Nat) : Int)
                    ≤ 0 := by
                have hne : (List.map (fun m => m.SubMissionID)
                    (QueryEntries wl.ledger username mission.ID opt)).dedup ≠ [] := by
                  intro hnil
                  have hall : ∀ x, x ∉ List.map (fun m => m.SubMissionID)
                      (QueryEntries wl.ledger username mission.ID opt) := by
                    intro x hx
                    have := List.mem_dedup.2 hx
                    rw [hnil] at this
                    cases this
                  by_cases hc0 : completed0 = []
                  · have hqne : qualifying (ParseInt result).1 completed0 subs ≠ [] := by
                      intro hqn
                      rw [hqn, hc0] at hcount
                      simp only [List.length_nil, Nat.cast_zero, add_zero] at hcount
                      omega
                    obtain ⟨sm, hsm⟩ := List.exists_mem_of_ne_nil _ hqne
                    exact hall _ (List.mem_map.2 ⟨_, hnew sm hsm, rfl⟩)
                  · obtain ⟨x, hx⟩ := List.exists_mem_of_ne_nil _ hc0
                    rw [← hcompleted0, List.mem_dedup] at hx
                    obtain ⟨m, hm, hmid⟩ := List.mem_map.1 hx
                    exact hall _ (List.mem_map.2 ⟨m, hsub m hm, hmid⟩)
                have := List.length_pos.2 hne
                omega
              rw [if_neg hpos]
              exact ⟨_, rfl, rfl⟩

theorem buildOption_invite (k : Consts) (hdist : k.Distinct) (env : Env) (mission : Mission)
    (hday : env.StartOfDay ≤ env.Now) (hweek : env.StartOfWeek ≤ env.Now) :
    (buildOption k env mission k.MissionIdInviteFriendsToDiscord).Content = "" ∧
    ∀ t, (buildOption k env mission k.MissionIdInviteFriendsToDiscord).StartTime = some t →
      t ≤ env.Now := by
  have h1 : ¬ k.MissionIdInviteFriendsToDiscord = k.MissionIdRetweet :=
    caseIds_ne k hdist 11 1 (by decide)
  have h2 : ¬ k.MissionIdInviteFriendsToDiscord = k.MissionIdLikeTwitter :=
    caseIds_ne k hdist 11 2 (by decide)
  constructor
  · simp only [buildOption, h1, h2, or_self, if_false]
  · intro t ht
    simp only [buildOption] at ht
    split_ifs at ht <;> simp only [Option.some.injEq] at ht <;> omega

/-- C1 (idempotency). Let the clock, the upstream answers and the invite counter be fixed
(one `Env`), the ledger store follow `QueryEntries` and append accepted inserts, and today's
and this week's start not lie after the current time. If one check of `(user, mission)`
answers a non-empty entry list, then a second check run on the resulting world answers the
same entry list and leaves the ledger as it was: no further entry is written. -/
theorem check_idempotent (k : Consts) (env : Env) (cfg : Config) (username : String)
    (missionId : Int) (w0 w1 : World) (entries : List UserMission)
    (hdist : k.Distinct) (hstore : env.SpecStore)
    (hday : env.StartOfDay ≤ env.Now) (hweek : env.StartOfWeek ≤ env.Now)
    (hfirst : CheckQuestHandler k env cfg username missionId w0
      = .respond (.missions entries) w1)
    (hne : entries ≠ []) :
    ∃ w2, CheckQuestHandler k env cfg username missionId w1
        = .respond (.missions entries) w2 ∧
      w2.ledger = w1.ledger := by
  have hq := hstore.1
  have hlen : entries.length > 0 := List.length_pos.2 hne
  unfold CheckQuestHandler at hfirst ⊢
  cases hm : env.GetMissionById missionId with
  | error e => rw [hm] at hfirst; simp at hfirst
  | ok om =>
    cases om with
    | none => rw [hm] at hfirst; simp at hfirst
    | some mission =>
      rw [hm] at hfirst
      simp only at hfirst ⊢
      rw [hq] at hfirst ⊢
      simp only at hfirst ⊢
      cases hexp : expectedCountOf k env missionId with
      | error e => rw [hexp] at hfirst; simp at hfirst
      | ok n =>
        rw [hexp] at hfirst
        simp only at hfirst ⊢
        by_cases hge : (QueryEntries w0.ledger username missionId
            (buildOption k env mission missionId)).length ≥ n
        · rw [if_pos hge] at hfirst
          simp only [HandlerResult.respond.injEq, Response.missions.injEq] at hfirst
          obtain ⟨h1, h2⟩ := hfirst
          subst h2
          rw [if_pos hge, h1]
          exact ⟨w0, rfl, rfl⟩
        · rw [if_neg hge] at hfirst
          cases hdsp : dispatch k env cfg mission username missionId
              (buildOption k env mission missionId) w0 with
          | none => rw [hdsp] at hfirst; simp at hfirst
          | some r =>
            rw [hdsp] at hfirst
            simp only at hfirst
            cases r with
            | panic w => simp [afterPredicate] at hfirst
            | done err w =>
              cases err with
              | some e => simp [afterPredicate] at hfirst
              | none =>
                simp only [afterPredicate, hq] at hfirst
                split_ifs at hfirst with hpos
                · simp only [HandlerResult.respond.injEq, Response.missions.injEq] at hfirst
                  obtain ⟨h1, h2⟩ := hfirst
                  subst h2
                  rw [h1]
                  by_cases hge2 : entries.length ≥ n
                  · rw [if_pos hge2]
                    exact ⟨w, rfl, rfl⟩
                  · rw [if_neg hge2]
                    have hid : missionId = k.MissionIdInviteFriendsToDiscord := by
                      by_contra hni
                      rw [expectedCountOf_not_invite k env missionId hni] at hexp
                      simp only [Except.ok.injEq] at hexp
                      omega
                    subst hid
                    rw [dispatch_InviteFriendsToDiscord k hdist] at hdsp ⊢
                    simp only [Option.some.injEq] at hdsp
                    obtain ⟨hcontent, hstart⟩ := buildOption_invite k hdist env mission hday hweek
                    obtain ⟨w2, hsecond, hledger⟩ := invite_second_run env mission username _
                      w0 w hstore hcontent hstart hdsp
                    rw [hsecond]
                    simp only [afterPredicate, hq, hledger, h1, if_pos hlen]
                    exact ⟨w2, rfl, hledger⟩
                · simp at hfirst

/-- Witness of C1: the invite-friends campaign (thresholds 1, 5, 10, counter 6); the first
check writes two entries, the second returns the same two and writes nothing. -/
theorem check_idempotent_witness :
    ∃ w2, CheckQuestHandler exConsts exEnv exCfg "alice" 12
        { ledger := [subMissionEntry exEnv (exMission 12) "alice" "d1" (exSub 101 "1"),
                     subMissionEntry exEnv (exMission 12) "alice" "d1" (exSub 102 "5")],
          globalCounter := 0, calls := [.RedisGet "d1" 500] }
        = .respond (.missions
            [subMissionEntry exEnv (exMission 12) "alice" "d1" (exSub 101 "1"),
             subMissionEntry exEnv (exMission 12) "alice" "d1" (exSub 102 "5")]) w2 ∧
      w2.ledger = [subMissionEntry exEnv (exMission 12) "alice" "d1" (exSub 101 "1"),
                   subMissionEntry exEnv (exMission 12) "alice" "d1" (exSub 102 "5")] :=
  check_idempotent exConsts exEnv exCfg "alice" 12 exWorld
    { ledger := [subMissionEntry exEnv (exMission 12) "alice" "d1" (exSub 101 "1"),
                 subMissionEntry exEnv (exMission 12) "alice" "d1" (exSub 102 "5")],
      globalCounter := 0, calls := [.RedisGet "d1" 500] }
    [subMissionEntry exEnv (exMission 12) "alice" "d1" (exSub 101 "1"),
     subMissionEntry exEnv (exMission 12) "alice" "d1" (exSub 102 "5")]
    (by decide) ⟨fun _ _ _ _ => rfl, fun _ _ _ h => by cases h; rfl⟩ (by decide) (by decide)
    (by decide) (by decide)

/-- C11 (overall result of the invite-friends predicate). Let the ledger query of the
predicate return `ums` and an accepted insert append its entry. If
`checkInviteFriendsToDiscord` returns `nil`, then a sub-mission entry already existed
(`ums` is not empty) or this call wrote at least one new entry (the ledger grew). And when
the lookups succeed, the counter is positive, the titles are numeric, nothing is recorded
and no sub-mission reaches its threshold, it returns the error `complete mission first`
and writes nothing. -/
theorem invite_overall_result (env : Env) (mission : Mission) (username : String)
    (qo : QueryOption) (w : World) (ums : List UserMission)
    (hums : env.GetUserMissionByMissionId w.ledger username mission.ID qo = .ok ums)
    (hins : ∀ l e l2, env.AddUserMissionAndInviteLog l e = .ok l2 → l2 = l ++ [e]) :
    (∀ w2, checkInviteFriendsToDiscord env mission username qo w = .done none w2 →
      ums ≠ [] ∨ ∃ added, added ≠ [] ∧ w2.ledger = w.ledger ++ added) ∧
    (∀ discordUserID subMission result,
      env.GetDiscordOAuthByUsername username = .ok discordUserID →
      env.GetSubMissions mission.ID = .ok subMission →
      env.RedisGet discordUserID env.StartOfWeek = .ok result →
      0 < (ParseInt result).1 →
      (∀ sm ∈ subMission, (ParseInt sm.Title).2 = true) →
      ums = [] →
      (∀ sm ∈ subMission, (ParseInt result).1 < (ParseInt sm.Title).1) →
      checkInviteFriendsToDiscord env mission username qo w
        = .done (some "complete mission first")
            (w.log (.RedisGet discordUserID env.StartOfWeek))) := by
  constructor
  · intro w2 h
    unfold checkInviteFriendsToDiscord at h
    cases hd : env.GetDiscordOAuthByUsername username with
    | error e => rw [hd] at h; simp at h
    | ok d =>
      rw [hd] at h
      simp only at h
      cases hs : env.GetSubMissions mission.ID with
      | error e => rw [hs] at h; simp at h
      | ok subs =>
        rw [hs] at h
        simp only at h
        cases hr : env.RedisGet d env.StartOfWeek with
        | error e => rw [hr] at h; simp at h
        | ok result =>
          rw [hr] at h
          simp only at h
          by_cases hc : (ParseInt result).1 ≤ 0
          · rw [if_pos hc] at h; simp at h
          · rw [if_neg hc] at h
            have hl0 : (w.log (.RedisGet d env.StartOfWeek)).ledger = w.ledger := rfl
            rw [hl0, hums] at h
            simp only at h
            rcases hloop : inviteLoop env mission username d (ParseInt result).1
              (List.map (fun m => m.SubMissionID) ums).dedup subs
              ((List.map (fun m => m.SubMissionID) ums).dedup.length : Int)
              (w.log (.RedisGet d env.StartOfWeek)) with ⟨res, wl⟩
            rw [hloop] at h
            cases res with
            | error e => simp at h
            | ok cc =>
              simp only at h
              by_cases hcc : cc ≤ 0
              · rw [if_pos hcc] at h; simp at h
              · rw [if_neg hcc] at h
                simp only [Ret.done.injEq, true_and] at h
                subst h
                obtain ⟨_, hledger, hcount⟩ :=
                  inviteLoop_inv env mission username d _ _ hins subs _ _ _ _ hloop
                by_cases hu : ums = []
                · right
                  refine ⟨_, ?_, hledger⟩
                  intro hnil
                  have hq : qualifying (ParseInt result).1
                      (List.map (fun m => m.SubMissionID) ums).dedup subs = [] := by
                    simpa [inviteEntries] using hnil
                  rw [hq, hu] at hcount
                  simp at hcount
                  omega
                · exact Or.inl hu
  · intro d subs result hd hs hr hc hnum hu hlt
    subst hu
    have hnc : ¬ (ParseInt result).1 ≤ 0 := by omega
    have hums2 : env.GetUserMissionByMissionId (w.log (.RedisGet d env.StartOfWeek)).ledger
        username mission.ID qo = .ok [] := hums
    have hq : qualifying (ParseInt result).1 [] subs = [] := by
      unfold qualifying
      rw [List.filter_eq_nil_iff]
      intro sm hsm
      have := hlt sm hsm
      simp
      omega
    simp only [checkInviteFriendsToDiscord, hd, hs, hr, if_neg hnc, hums2, List.map_nil,
      List.dedup_nil, List.length_nil, Nat.cast_zero]
    rw [inviteLoop_no_qualifying env mission username d _ _ subs _ _ hnum hq]
    simp

/-- Witness of C11: thresholds 1, 5, 10 with counter 6 and an empty ledger succeed with new
entries written. -/
theorem invite_overall_result_witness :
    ([] : List UserMission) ≠ [] ∨ ∃ added, added ≠ [] ∧
      [subMissionEntry exEnv (exMission 12) "alice" "d1" (exSub 101 "1"),
       subMissionEntry exEnv (exMission 12) "alice" "d1" (exSub 102 "5")]
        = exWorld.ledger ++ added :=
  (invite_overall_result exEnv (exMission 12) "alice" { Content := "", StartTime := none }
    exWorld [] (by decide) (fun _ _ _ h => by cases h; rfl)).1
    { ledger := [subMissionEntry exEnv (exMission 12) "alice" "d1" (exSub 101 "1"),
                 subMissionEntry exEnv (exMission 12) "alice" "d1" (exSub 102 "5")],
      globalCounter := 0, calls := [.RedisGet "d1" 500] } (by decide)

/-! ## The quote and original-post predicates: proofs -/

theorem checkQuoteTweet_fetched (env : Env) (cfg : Config) (mission : Mission)
    (username : String) (qo : QueryOption) (w w1 : World) (twitterUserID apiKey replyId : String)
    (v : JVal)
    (hf : QuoteFetched env cfg mission username w twitterUserID apiKey w1 replyId v) :
    checkQuoteTweet env cfg mission username qo w =
      if !Contains mission.OpenUrl (quotedSourceId v) then
        .done (some "not allowed source tweet id") (w1.log (.TweetTimeline apiKey replyId))
      else if postAuthor v ≠ twitterUserID then
        .done (some (invalidLinkMsg twitterUserID (postAuthor v)))
          (w1.log (.TweetTimeline apiKey replyId))
      else if carbonLt (env.carbonParse (postCreatedAt v)) env.StartOfDay then
        .done (some "post expiration") (w1.log (.TweetTimeline apiKey replyId))
      else if (userMentions v).length < 3 then
        .done (some "tag users not enough") (w1.log (.TweetTimeline apiKey replyId))
      else insertIfAbsent env mission username qo twitterUserID
        (w1.log (.TweetTimeline apiKey replyId)) := by
  obtain ⟨htw, ⟨link, replyURL, hlink, hurl, hid⟩, hkey, r, data, hr, hcode, hdata, hparse⟩ := hf
  have hc : ¬ r.Code ≠ 1 := by simp [hcode]
  simp only [checkQuoteTweet, htw, hlink, hurl, hid, hkey, hr, if_neg hc, hdata, hparse]
  rfl

theorem checkPostTweet_fetched (env : Env) (cfg : Config) (mission : Mission)
    (username : String) (qo : QueryOption) (w w1 : World)
    (twitterUserID apiKey replyId copyContent : String) (v : JVal)
    (hf : PostFetched env cfg mission username w twitterUserID apiKey w1 replyId copyContent v) :
    checkPostTweet env cfg mission username qo w =
      if !Contains copyContent (postFirstLine v) then
        .done (some "invalid content") (w1.log (.TweetTimeline apiKey replyId))
      else if carbonLt (env.carbonParse (postCreatedAt v)) env.StartOfDay then
        .done (some "post expiration") (w1.log (.TweetTimeline apiKey replyId))
      else if postAuthor v ≠ twitterUserID then
        .done (some (invalidLinkMsg twitterUserID (postAuthor v)))
          (w1.log (.TweetTimeline apiKey replyId))
      else insertIfAbsent env mission username qo twitterUserID
        (w1.log (.TweetTimeline apiKey replyId)) := by
  obtain ⟨⟨openURL, hopen, hcopy⟩, htw, ⟨link, replyURL, hlink, hurl, hid⟩, hkey, r, data, hr,
    hcode, hdata, hparse⟩ := hf
  have hc : ¬ r.Code ≠ 1 := by simp [hcode]
  simp only [checkPostTweet, htw, hopen, hlink, hurl, hid, hkey, hr, if_neg hc, hdata, hparse,
    hcopy]
  rfl

theorem key_step_ledger (cfg : Config) (w w1 : World) (apiKey : Option String)
    (h : GetUToolKeyByRoundRobin cfg w = (apiKey, w1)) : w1.ledger = w.ledger := by
  have := GetUToolKeyByRoundRobin_ledger cfg w
  rw [h] at this
  exact this
/-- C12 (period boundary for posts). Let the post detail be fetched, its creation date
parse to the time `ts`, its author be the linked Twitter id and every other condition hold
(quote: the target URL contains the quoted id and there are three mentions; original post:
the phrase contains the first line). With `T = env.StartOfDay`: when `ts < T` the
predicate returns the error `post expiration` and the ledger is unchanged; when `T ≤ ts`
the post is accepted, the predicate continues with the re-check-then-insert tail. -/
theorem post_period_boundary (env : Env) (cfg : Config) (mission : Mission)
    (username : String) (qo : QueryOption) (w w1 : World)
    (twitterUserID apiKey replyId copyContent : String) (v : JVal) (ts : Int)
    (hts : env.carbonParse (postCreatedAt v) = some ts)
    (hauthor : postAuthor v = twitterUserID) :
    (QuoteFetched env cfg mission username w twitterUserID apiKey w1 replyId v →
      Contains mission.OpenUrl (quotedSourceId v) = true → 3 ≤ (userMentions v).length →
      (ts < env.StartOfDay →
        checkQuoteTweet env cfg mission username qo w
          = .done (some "post expiration") (w1.log (.TweetTimeline apiKey replyId)) ∧
        (w1.log (.TweetTimeline apiKey replyId)).ledger = w.ledger) ∧
      (env.StartOfDay ≤ ts →
        checkQuoteTweet env cfg mission username qo w
          = insertIfAbsent env mission username qo twitterUserID
              (w1.log (.TweetTimeline apiKey replyId)))) ∧
    (PostFetched env cfg mission username w twitterUserID apiKey w1 replyId copyContent v →
      Contains copyContent (postFirstLine v) = true →
      (ts < env.StartOfDay →
        checkPostTweet env cfg mission username qo w
          = .done (some "post expiration") (w1.log (.TweetTimeline apiKey replyId)) ∧
        (w1.log (.TweetTimeline apiKey replyId)).ledger = w.ledger) ∧
      (env.StartOfDay ≤ ts →
        checkPostTweet env cfg mission username qo w
          = insertIfAbsent env mission username qo twitterUserID
              (w1.log (.TweetTimeline apiKey replyId)))) := by
  constructor
  · intro hf hsrc hm
    have hl : w1.ledger = w.ledger := key_step_ledger cfg w w1 _ hf.2.2.1
    have hm3 : ¬ (userMentions v).length < 3 := by omega
    rw [checkQuoteTweet_fetched env cfg mission username qo w w1 _ _ _ v hf]
    constructor
    · intro hlt
      have : carbonLt (env.carbonParse (postCreatedAt v)) env.StartOfDay = true := by
        simp [carbonLt, hts, hlt]
      simp [hsrc, hauthor, this]
      exact hl
    · intro hge
      have : carbonLt (env.carbonParse (postCreatedAt v)) env.StartOfDay = false := by
        simp [carbonLt, hts]
        omega
      simp [hsrc, hauthor, this, hm3]
  · intro hf hsrc
    have hl : w1.ledger = w.ledger := key_step_ledger cfg w w1 _ hf.2.2.2.1
    rw [checkPostTweet_fetched env cfg mission username qo w w1 _ _ _ _ v hf]
    constructor
    · intro hlt
      have : carbonLt (env.carbonParse (postCreatedAt v)) env.StartOfDay = true := by
        simp [carbonLt, hts, hlt]
      simp [hsrc, this]
      exact hl
    · intro hge
      have : carbonLt (env.carbonParse (postCreatedAt v)) env.StartOfDay = false := by
        simp [carbonLt, hts]
        omega
      simp [hsrc, hauthor, this]

/-- Witness of C12: day start `T = 900`; a quote post created at 899 is rejected with
`post expiration`, and the same post created at 901 is accepted and credited. -/
theorem post_period_boundary_witness :
    checkQuoteTweet (exEnvTweet (exTweet "t1" "899" (some "1800") 3 "gm")) exCfg
        (exTweetMission 10) "alice" { Content := "", StartTime := some 900 } exWorld
      = .done (some "post expiration")
          { ledger := [], globalCounter := 1, calls := [.TweetTimeline "k1" "9"] } ∧
    CheckQuestHandler exConsts (exEnvTweet (exTweet "t1" "901" (some "1800") 3 "gm")) exCfg
        "alice" 10 exWorld
      = .respond (.missions [exTweetEntry 10])
          { ledger := [exTweetEntry 10], globalCounter := 1,
            calls := [.TweetTimeline "k1" "9"] } := by
  refine ⟨?_, by decide⟩
  exact (((post_period_boundary (exEnvTweet (exTweet "t1" "899" (some "1800") 3 "gm")) exCfg
    (exTweetMission 10) "alice" { Content := "", StartTime := some 900 } exWorld
    { exWorld with globalCounter := 1 } "t1" "k1" "9" "" (exTweet "t1" "899" (some "1800") 3 "gm")
    899 (by decide) (by decide)).1
    ⟨by decide, ⟨"https://x.com/alice/status/9", { Path := "/alice/status/9", Query := [] },
        by decide, by decide, by decide⟩, by decide,
      ⟨{ Code := 1, Msg := "", Data := .str "detail" }, "detail", by decide, by decide,
        by decide, rfl⟩⟩
    (by decide) (by decide)).1 (by decide)).1

/-- C13, the code at the failing input. A post that quotes nothing (no quoted source in
the payload), written today by the linked user with three mentions, is accepted by the
quote mission: the handler credits it. -/
theorem quote_accepts_post_without_quoted_source :
    quotedSourceId (exTweet "t1" "950" none 3 "gm") = "" ∧
    CheckQuestHandler exConsts (exEnvTweet (exTweet "t1" "950" none 3 "gm")) exCfg
        "alice" 10 exWorld
      = .respond (.missions [exTweetEntry 10])
          { ledger := [exTweetEntry 10], globalCounter := 1,
            calls := [.TweetTimeline "k1" "9"] } := by
  decide

/-- C14 (original-post condition). Once the post detail is fetched, `checkPostTweet` accepts
the post, that is continues with the re-check-then-insert tail, exactly when the first line
of the body is a substring of the `text` parameter of the target URL, the author is the
linked Twitter id, and the post is not dated before the start of the day (a date that does
not parse is not before it); otherwise it returns an error. The ledger is untouched up to
that point. -/
theorem original_post_condition (env : Env) (cfg : Config) (mission : Mission)
    (username : String) (qo : QueryOption) (w w1 : World)
    (twitterUserID apiKey replyId copyContent : String) (v : JVal)
    (hf : PostFetched env cfg mission username w twitterUserID apiKey w1 replyId copyContent v) :
    (Contains copyContent (postFirstLine v) = true ∧ postAuthor v = twitterUserID ∧
        carbonLt (env.carbonParse (postCreatedAt v)) env.StartOfDay = false →
      checkPostTweet env cfg mission username qo w
        = insertIfAbsent env mission username qo twitterUserID
            (w1.log (.TweetTimeline apiKey replyId))) ∧
    (¬ (Contains copyContent (postFirstLine v) = true ∧ postAuthor v = twitterUserID ∧
        carbonLt (env.carbonParse (postCreatedAt v)) env.StartOfDay = false) →
      ∃ e, checkPostTweet env cfg mission username qo w
        = .done (some e) (w1.log (.TweetTimeline apiKey replyId))) ∧
    (w1.log (.TweetTimeline apiKey replyId)).ledger = w.ledger := by
  have hl : w1.ledger = w.ledger := key_step_ledger cfg w w1 _ hf.2.2.2.1
  rw [checkPostTweet_fetched env cfg mission username qo w w1 _ _ _ _ v hf]
  refine ⟨?_, ?_, hl⟩
  · rintro ⟨h1, h2, h3⟩
    simp [h1, h2, h3]
  · intro hn
    by_cases h1 : Contains copyContent (postFirstLine v) = true
    · by_cases h3 : carbonLt (env.carbonParse (postCreatedAt v)) env.StartOfDay = true
      · exact ⟨"post expiration", by simp [h1, h3]⟩
      · have h3f : carbonLt (env.carbonParse (postCreatedAt v)) env.StartOfDay = false := by
          simpa using h3
        have h2 : postAuthor v ≠ twitterUserID := fun h2 => hn ⟨h1, h2, h3f⟩
        exact ⟨invalidLinkMsg twitterUserID (postAuthor v), by simp [h1, h3f, h2]⟩
    · have h1f : Contains copyContent (postFirstLine v) = false := by simpa using h1
      exact ⟨"invalid content", by simp [h1f]⟩

/-- Witness of C14: the phrase is `Join Titan`, the post body starts with the line
`Join Titan`, is written by the linked user and dated after the day start. -/
theorem original_post_condition_witness :
    checkPostTweet (exEnvTweet (exTweet "t1" "950" none 0 "Join Titan\nwith me")) exCfg
        (exTweetMission 11) "alice" { Content := "", StartTime := some 900 } exWorld
      = insertIfAbsent (exEnvTweet (exTweet "t1" "950" none 0 "Join Titan\nwith me"))
          (exTweetMission 11) "alice" { Content := "", StartTime := some 900 } "t1"
          { ledger := [], globalCounter := 1, calls := [.TweetTimeline "k1" "9"] } :=
  (original_post_condition (exEnvTweet (exTweet "t1" "950" none 0 "Join Titan\nwith me")) exCfg
    (exTweetMission 11) "alice" { Content := "", StartTime := some 900 } exWorld
    { exWorld with globalCounter := 1 } "t1" "k1" "9" "Join Titan"
    (exTweet "t1" "950" none 0 "Join Titan\nwith me")
    ⟨⟨{ Path := "/intent/post", Query := [("text", "Join Titan")] }, by decide, by decide⟩,
      by decide, ⟨"https://x.com/alice/status/9", { Path := "/alice/status/9", Query := [] },
        by decide, by decide, by decide⟩, by decide,
      ⟨{ Code := 1, Msg := "", Data := .str "detail" }, "detail", by decide, by decide,
        by decide, rfl⟩⟩).1 ⟨by decide, by decide, by decide⟩

/-! ## The follow predicate: proofs -/

theorem checkFollowTwitter_fetched (env : Env) (cfg : Config) (mission : Mission)
    (username : String) (qo : QueryOption) (w w1 : World) (twitterUserID apiKey : String)
    (ids : List Int)
    (hf : FollowFetched env cfg username w twitterUserID apiKey w1 ids) :
    checkFollowTwitter env cfg mission username qo w =
      if cfg.OfficialTwitterUserId ∈ ids then
        insertIfAbsent env mission username qo twitterUserID
          (w1.log (.FollowingsIds apiKey twitterUserID))
      else .done (some "user unfollow") (w1.log (.FollowingsIds apiKey twitterUserID)) := by
  obtain ⟨htw, hkey, r, bs, hr, hcode, hdata, hids⟩ := hf
  have hc : ¬ r.Code ≠ 1 := by simp [hcode]
  simp only [checkFollowTwitter, htw, hkey, hr, if_neg hc, hdata, hids]
  by_cases hmem : cfg.OfficialTwitterUserId ∈ ids
  · have : ids.any (fun id => id == cfg.OfficialTwitterUserId) = true := by
      rw [List.any_eq_true]
      exact ⟨_, hmem, by simp⟩
    simp [this, hmem]
  · have : ids.any (fun id => id == cfg.OfficialTwitterUserId) = false := by
      rw [← Bool.not_eq_true, List.any_eq_true]
      rintro ⟨x, hx, hxe⟩
      have : x = cfg.OfficialTwitterUserId := by simpa using hxe
      exact hmem (this ▸ hx)
    simp [this, hmem]

theorem insertIfAbsent_not_nil_error (env : Env) (mission : Mission) (username : String)
    (qo : QueryOption) (content : String) (w : World)
    (hq : ∀ l u m o, ∃ ums, env.GetUserMissionByMissionId l u m o = .ok ums)
    (hins : ∀ l e, ∃ l2, env.AddUserMissionAndInviteLog l e = .ok l2) :
    ∃ w3, insertIfAbsent env mission username qo content w = .done none w3 := by
  obtain ⟨ums, hums⟩ := hq w.ledger username mission.ID qo
  unfold insertIfAbsent
  rw [hums]
  simp only
  split_ifs
  · obtain ⟨l2, hl2⟩ := hins w.ledger (missionEntry env mission username content)
    simp only [missionEntry] at hl2
    rw [hl2]
    exact ⟨_, rfl⟩
  · exact ⟨_, rfl⟩

/-- C15 (follow predicate). Let the followings call succeed with a payload that decodes to
the id list `ids`. If the official account id is not in `ids` (the empty list included),
`checkFollowTwitter` returns the error `user unfollow`, does not panic, leaves the ledger
unchanged, and the handler answers `MissionUnComplete`. If it is in `ids`, the predicate
continues with the re-check-then-insert tail; so it returns `nil` only if the id is in
`ids`, and it does return `nil` then when the store operations succeed. When in addition
the re-query is empty, the entry handed to the store has the linked Twitter id as content
and the mission's credit. -/
theorem follow_predicate (k : Consts) (env : Env) (cfg : Config) (mission : Mission)
    (username : String) (qo : QueryOption) (w w1 : World) (twitterUserID apiKey : String)
    (ids : List Int)
    (hf : FollowFetched env cfg username w twitterUserID apiKey w1 ids) :
    (w1.log (.FollowingsIds apiKey twitterUserID)).ledger = w.ledger ∧
    (cfg.OfficialTwitterUserId ∉ ids →
      checkFollowTwitter env cfg mission username qo w
        = .done (some "user unfollow") (w1.log (.FollowingsIds apiKey twitterUserID)) ∧
      (k.Distinct → env.GetMissionById k.MissionIdFollowTwitter = .ok (some mission) →
        env.GetUserMissionByMissionId w.ledger username k.MissionIdFollowTwitter
          (buildOption k env mission k.MissionIdFollowTwitter) = .ok [] →
        CheckQuestHandler k env cfg username k.MissionIdFollowTwitter w
          = .respond (.errorCode .MissionUnComplete)
              (w1.log (.FollowingsIds apiKey twitterUserID)))) ∧
    ((∃ w3, checkFollowTwitter env cfg mission username qo w = .done none w3) →
      cfg.OfficialTwitterUserId ∈ ids) ∧
    (cfg.OfficialTwitterUserId ∈ ids →
      checkFollowTwitter env cfg mission username qo w
        = insertIfAbsent env mission username qo twitterUserID
            (w1.log (.FollowingsIds apiKey twitterUserID)) ∧
      ((∀ l u m o, ∃ ums, env.GetUserMissionByMissionId l u m o = .ok ums) →
        (∀ l e, ∃ l2, env.AddUserMissionAndInviteLog l e = .ok l2) →
        ∃ w3, checkFollowTwitter env cfg mission username qo w = .done none w3) ∧
      (∀ l, env.GetUserMissionByMissionId w.ledger username mission.ID qo = .ok [] →
        env.AddUserMissionAndInviteLog w.ledger
          (missionEntry env mission username twitterUserID) = .ok l →
        checkFollowTwitter env cfg mission username qo w
          = .done none { ledger := l, globalCounter := w1.globalCounter,
                         calls := w1.calls ++ [.FollowingsIds apiKey twitterUserID] })) := by
  have hl : w1.ledger = w.ledger := key_step_ledger cfg w w1 _ hf.2.1
  have hfetch := checkFollowTwitter_fetched env cfg mission username qo w w1 _ _ ids hf
  refine ⟨hl, ?_, ?_, ?_⟩
  · intro hnot
    have hp : checkFollowTwitter env cfg mission username qo w
        = .done (some "user unfollow") (w1.log (.FollowingsIds apiKey twitterUserID)) := by
      rw [hfetch, if_neg hnot]
    refine ⟨hp, ?_⟩
    intro hdist hmission hums
    have hp2 := checkFollowTwitter_fetched env cfg mission username
      (buildOption k env mission k.MissionIdFollowTwitter) w w1 _ _ ids hf
    rw [if_neg hnot] at hp2
    rw [handler_of_dispatch k env cfg username _ w mission _ hmission hums
      (caseIds_ne k hdist 0 11 (by decide)) (dispatch_FollowTwitter k hdist ..), hp2]
    rfl
  · rintro ⟨w3, h3⟩
    by_contra hnot
    rw [hfetch, if_neg hnot] at h3
    simp at h3
  · intro hmem
    have hp : checkFollowTwitter env cfg mission username qo w
        = insertIfAbsent env mission username qo twitterUserID
            (w1.log (.FollowingsIds apiKey twitterUserID)) := by
      rw [hfetch, if_pos hmem]
    refine ⟨hp, ?_, ?_⟩
    · intro hq hins
      rw [hp]
      exact insertIfAbsent_not_nil_error env mission username qo _ _ hq hins
    · intro l hq hins
      rw [hp]
      have hq2 : env.GetUserMissionByMissionId
          (w1.log (.FollowingsIds apiKey twitterUserID)).ledger username mission.ID qo
            = .ok [] := by
        rw [show (w1.log (.FollowingsIds apiKey twitterUserID)).ledger = w.ledger from hl]
        exact hq
      have hins2 : env.AddUserMissionAndInviteLog
          (w1.log (.FollowingsIds apiKey twitterUserID)).ledger
          (missionEntry env mission username twitterUserID) = .ok l := by
        rw [show (w1.log (.FollowingsIds apiKey twitterUserID)).ledger = w.ledger from hl]
        exact hins
      simp only [missionEntry] at hins2
      simp only [insertIfAbsent, hq2, hins2, List.length_nil, if_true]
      rfl

/-- Witness of C15: the followings list is empty, the predicate answers `user unfollow`
and the handler `MissionUnComplete`. -/
theorem follow_predicate_witness :
    checkFollowTwitter (exEnvFollow []) exCfg (exMission 1) "alice"
        { Content := "", StartTime := none } exWorld
      = .done (some "user unfollow")
          { ledger := [], globalCounter := 1, calls := [.FollowingsIds "k1" "t1"] } ∧
    CheckQuestHandler exConsts (exEnvFollow []) exCfg "alice" 1 exWorld
      = .respond (.errorCode .MissionUnComplete)
          { ledger := [], globalCounter := 1, calls := [.FollowingsIds "k1" "t1"] } := by
  have h := (follow_predicate exConsts (exEnvFollow []) exCfg (exMission 1) "alice"
    { Content := "", StartTime := none } exWorld { exWorld with globalCounter := 1 } "t1" "k1" []
    ⟨by decide, by decide, ⟨{ Code := 1, Msg := "", Data := .str "ids" }, "ids", by decide,
      by decide, by decide, by decide⟩⟩).2.1 (by decide)
  exact ⟨h.1, h.2 (by decide) (by decide) (by decide)⟩

/-! ## Re-check-then-insert, evidence and period key: proofs -/

theorem tailOrFail_error (env : Env) (mission : Mission) (username : String)
    (qo : QueryOption) (content : String) (w w2 : World) (e : String)
    (h : w2.ledger = w.ledger) :
    TailOrFail env mission username qo content w (.done (some e) w2) :=
  Or.inr ⟨h, fun _ hc => by cases hc⟩

theorem tailOrFail_panic (env : Env) (mission : Mission) (username : String)
    (qo : QueryOption) (content : String) (w w2 : World) (h : w2.ledger = w.ledger) :
    TailOrFail env mission username qo content w (.panic w2) :=
  Or.inr ⟨h, fun _ hc => by cases hc⟩

theorem tailOrFail_tail (env : Env) (mission : Mission) (username : String)
    (qo : QueryOption) (content : String) (w w2 : World) (h : w2.ledger = w.ledger) :
    TailOrFail env mission username qo content w
      (insertIfAbsent env mission username qo content w2) :=
  Or.inl ⟨w2, h, rfl⟩

theorem log_key_ledger (cfg : Config) (w w1 : World) (apiKey : Option String) (c : Call)
    (h : GetUToolKeyByRoundRobin cfg w = (apiKey, w1)) : (w1.log c).ledger = w.ledger :=
  key_step_ledger cfg w w1 apiKey h

theorem checkLikeTweet_shape (env : Env) (cfg : Config) (mission : Mission)
    (username : String) (qo : QueryOption) (w : World) :
    TailOrFail env mission username qo mission.OpenUrl w
      (checkLikeTweet env cfg mission username qo w) := by
  simp only [checkLikeTweet]
  repeat' split
  all_goals first
    | exact tailOrFail_error _ _ _ _ _ _ _ _ rfl
    | exact tailOrFail_error _ _ _ _ _ _ _ _ (key_step_ledger _ _ _ _ (by assumption))
    | exact tailOrFail_error _ _ _ _ _ _ _ _ (log_key_ledger _ _ _ _ _ (by assumption))
    | exact tailOrFail_panic _ _ _ _ _ _ _ (key_step_ledger _ _ _ _ (by assumption))
    | exact tailOrFail_panic _ _ _ _ _ _ _ (log_key_ledger _ _ _ _ _ (by assumption))
    | exact tailOrFail_tail _ _ _ _ _ _ _ (log_key_ledger _ _ _ _ _ (by assumption))

theorem checkReTweet_shape (env : Env) (cfg : Config) (mission : Mission)
    (username : String) (qo : QueryOption) (w : World) :
    TailOrFail env mission username qo mission.OpenUrl w
      (checkReTweet env cfg mission username qo w) := by
  simp only [checkReTweet]
  repeat' split
  all_goals first
    | exact tailOrFail_error _ _ _ _ _ _ _ _ rfl
    | exact tailOrFail_error _ _ _ _ _ _ _ _ (key_step_ledger _ _ _ _ (by assumption))
    | exact tailOrFail_error _ _ _ _ _ _ _ _ (log_key_ledger _ _ _ _ _ (by assumption))
    | exact tailOrFail_panic _ _ _ _ _ _ _ (key_step_ledger _ _ _ _ (by assumption))
    | exact tailOrFail_panic _ _ _ _ _ _ _ (log_key_ledger _ _ _ _ _ (by assumption))
    | exact tailOrFail_tail _ _ _ _ _ _ _ (log_key_ledger _ _ _ _ _ (by assumption))

theorem checkFollowTwitter_shape (env : Env) (cfg : Config) (mission : Mission)
    (username : String) (qo : QueryOption) (w : World) :
    ∃ content, TailOrFail env mission username qo content w
      (checkFollowTwitter env cfg mission username qo w) := by
  cases h : env.GetTwitterOauthByUsername username with
  | error e =>
    refine ⟨"", ?_⟩
    simp only [checkFollowTwitter, h]
    exact tailOrFail_error _ _ _ _ _ _ _ _ rfl
  | ok linked =>
    refine ⟨linked, ?_⟩
    simp only [checkFollowTwitter, h]
    repeat' split
    all_goals first
      | exact tailOrFail_error _ _ _ _ _ _ _ _ rfl
      | exact tailOrFail_error _ _ _ _ _ _ _ _ (key_step_ledger _ _ _ _ (by assumption))
      | exact tailOrFail_error _ _ _ _ _ _ _ _ (log_key_ledger _ _ _ _ _ (by assumption))
      | exact tailOrFail_panic _ _ _ _ _ _ _ (key_step_ledger _ _ _ _ (by assumption))
      | exact tailOrFail_panic _ _ _ _ _ _ _ (log_key_ledger _ _ _ _ _ (by assumption))
      | exact tailOrFail_tail _ _ _ _ _ _ _ (log_key_ledger _ _ _ _ _ (by assumption))

theorem checkQuoteTweet_shape (env : Env) (cfg : Config) (mission : Mission)
    (username : String) (qo : QueryOption) (w : World) :
    ∃ content, TailOrFail env mission username qo content w
      (checkQuoteTweet env cfg mission username qo w) := by
  cases h : env.GetTwitterOauthByUsername username with
  | error e =>
    refine ⟨"", ?_⟩
    simp only [checkQuoteTweet, h]
    exact tailOrFail_error _ _ _ _ _ _ _ _ rfl
  | ok linked =>
    refine ⟨linked, ?_⟩
    simp only [checkQuoteTweet, h]
    repeat' split
    all_goals first
      | exact tailOrFail_error _ _ _ _ _ _ _ _ rfl
      | exact tailOrFail_error _ _ _ _ _ _ _ _ (key_step_ledger _ _ _ _ (by assumption))
      | exact tailOrFail_error _ _ _ _ _ _ _ _ (log_key_ledger _ _ _ _ _ (by assumption))
      | exact tailOrFail_panic _ _ _ _ _ _ _ (key_step_ledger _ _ _ _ (by assumption))
      | exact tailOrFail_panic _ _ _ _ _ _ _ (log_key_ledger _ _ _ _ _ (by assumption))
      | exact tailOrFail_tail _ _ _ _ _ _ _ (log_key_ledger _ _ _ _ _ (by assumption))

theorem checkPostTweet_shape (env : Env) (cfg : Config) (mission : Mission)
    (username : String) (qo : QueryOption) (w : World) :
    ∃ content, TailOrFail env mission username qo content w
      (checkPostTweet env cfg mission username qo w) := by
  cases h : env.GetTwitterOauthByUsername username with
  | error e =>
    refine ⟨"", ?_⟩
    simp only [checkPostTweet, h]
    exact tailOrFail_error _ _ _ _ _ _ _ _ rfl
  | ok linked =>
    refine ⟨linked, ?_⟩
    simp only [checkPostTweet, h]
    repeat' split
    all_goals first
      | exact tailOrFail_error _ _ _ _ _ _ _ _ rfl
      | exact tailOrFail_error _ _ _ _ _ _ _ _ (key_step_ledger _ _ _ _ (by assumption))
      | exact tailOrFail_error _ _ _ _ _ _ _ _ (log_key_ledger _ _ _ _ _ (by assumption))
      | exact tailOrFail_panic _ _ _ _ _ _ _ (key_step_ledger _ _ _ _ (by assumption))
      | exact tailOrFail_panic _ _ _ _ _ _ _ (log_key_ledger _ _ _ _ _ (by assumption))
      | exact tailOrFail_tail _ _ _ _ _ _ _ (log_key_ledger _ _ _ _ _ (by assumption))

theorem checkJoinTelegram_shape (env : Env) (mission : Mission)
    (username : String) (qo : QueryOption) (w : World) :
    ∃ content, TailOrFail env mission username qo content w
      (checkJoinTelegram env mission username qo w) := by
  cases h : env.GetTelegramOauthByUsername username with
  | error e =>
    refine ⟨"", ?_⟩
    simp only [checkJoinTelegram, h]
    exact tailOrFail_error _ _ _ _ _ _ _ _ rfl
  | ok linked =>
    refine ⟨toString linked, ?_⟩
    simp only [checkJoinTelegram, h]
    repeat' split
    all_goals first
      | exact tailOrFail_error _ _ _ _ _ _ _ _ rfl
      | exact tailOrFail_tail _ _ _ _ _ _ _ rfl

theorem checkJoinDiscord_shape (env : Env) (mission : Mission)
    (username : String) (qo : QueryOption) (w : World) :
    ∃ content, TailOrFail env mission username qo content w
      (checkJoinDiscord env mission username qo w) := by
  cases h : env.GetDiscordOAuthByUsername username with
  | error e =>
    refine ⟨"", ?_⟩
    simp only [checkJoinDiscord, h]
    exact tailOrFail_error _ _ _ _ _ _ _ _ rfl
  | ok linked =>
    refine ⟨linked, ?_⟩
    simp only [checkJoinDiscord, h]
    repeat' split
    all_goals first
      | exact tailOrFail_error _ _ _ _ _ _ _ _ rfl
      | exact tailOrFail_tail _ _ _ _ _ _ _ rfl

theorem checkJoinVolunteerChannel_shape (env : Env) (mission : Mission)
    (username : String) (qo : QueryOption) (w : World) :
    ∃ content, TailOrFail env mission username qo content w
      (checkJoinVolunteerChannel env mission username qo w) := by
  cases h : env.GetDiscordOAuthByUsername username with
  | error e =>
    refine ⟨"", ?_⟩
    simp only [checkJoinVolunteerChannel, h]
    exact tailOrFail_error _ _ _ _ _ _ _ _ rfl
  | ok linked =>
    refine ⟨linked, ?_⟩
    simp only [checkJoinVolunteerChannel, h]
    repeat' split
    all_goals first
      | exact tailOrFail_error _ _ _ _ _ _ _ _ rfl
      | exact tailOrFail_tail _ _ _ _ _ _ _ rfl

theorem checkBindingKOL_shape (env : Env) (mission : Mission)
    (username : String) (qo : QueryOption) (w : World) :
    ∃ content, TailOrFail env mission username qo content w
      (checkBindingKOL env mission username qo w) := by
  cases h : env.GetUserByUsername username with
  | error e =>
    refine ⟨"", ?_⟩
    simp only [checkBindingKOL, h]
    exact tailOrFail_error _ _ _ _ _ _ _ _ rfl
  | ok linked =>
    refine ⟨linked, ?_⟩
    simp only [checkBindingKOL, h]
    repeat' split
    all_goals first
      | exact tailOrFail_error _ _ _ _ _ _ _ _ rfl
      | exact tailOrFail_tail _ _ _ _ _ _ _ rfl
theorem insertIfAbsent_ledger (env : Env) (mission : Mission) (username : String)
    (qo : QueryOption) (content : String) (w : World)
    (hins : ∀ l e l2, env.AddUserMissionAndInviteLog l e = .ok l2 → l2 = l ++ [e]) :
    (insertIfAbsent env mission username qo content w).world.ledger = w.ledger ∨
    (insertIfAbsent env mission username qo content w).world.ledger
      = w.ledger ++ [missionEntry env mission username content] := by
  unfold insertIfAbsent
  cases hq : env.GetUserMissionByMissionId w.ledger username mission.ID qo with
  | error e => exact Or.inl rfl
  | ok ums =>
    simp only
    split_ifs
    · cases hi : env.AddUserMissionAndInviteLog w.ledger
          (missionEntry env mission username content) with
      | error e =>
        simp only [missionEntry] at hi
        rw [hi]
        exact Or.inl rfl
      | ok l =>
        have := hins _ _ _ hi
        simp only [missionEntry] at hi
        rw [hi]
        exact Or.inr this
    · exact Or.inl rfl

theorem any_restId_eq (entries : List JVal) (twitterUserID : String) :
    entries.any (fun e => entryRestId e == twitterUserID)
      = decide (twitterUserID ∈ entries.map entryRestId) := by
  by_cases hmem : twitterUserID ∈ entries.map entryRestId
  · rw [decide_eq_true hmem, List.any_eq_true]
    obtain ⟨e, he, hid⟩ := List.mem_map.1 hmem
    exact ⟨e, he, by simp [hid]⟩
  · rw [decide_eq_false hmem, ← Bool.not_eq_true, List.any_eq_true]
    rintro ⟨e, he, hid⟩
    exact hmem (List.mem_map.2 ⟨e, he, by simpa using hid⟩)

theorem checkLikeTweet_fetched (env : Env) (cfg : Config) (mission : Mission)
    (username : String) (qo : QueryOption) (w w1 : World) (twitterUserID apiKey tweetId : String)
    (v : JVal)
    (hf : LikeFetched env cfg mission username w twitterUserID apiKey w1 tweetId v) :
    checkLikeTweet env cfg mission username qo w =
      if twitterUserID ∈ (timelineEntries v "favoriters_timeline").map entryRestId then
        insertIfAbsent env mission username qo mission.OpenUrl
          (w1.log (.FavoritersV2 apiKey tweetId))
      else .done (some "mission uncompleted") (w1.log (.FavoritersV2 apiKey tweetId)) := by
  obtain ⟨htw, ⟨openURL, hopen, hid⟩, hkey, r, data, hr, hcode, hdata, hparse⟩ := hf
  have hc : ¬ r.Code ≠ 1 := by simp [hcode]
  simp only [checkLikeTweet, htw, hopen, hid, hkey, hr, if_neg hc, hdata, hparse,
    any_restId_eq]
  by_cases hmem : twitterUserID ∈ (timelineEntries v "favoriters_timeline").map entryRestId
  · simp [hmem]
  · simp [hmem]

theorem checkReTweet_fetched (env : Env) (cfg : Config) (mission : Mission)
    (username : String) (qo : QueryOption) (w w1 : World) (twitterUserID apiKey tweetId : String)
    (v : JVal)
    (hf : RetweetFetched env cfg mission username w twitterUserID apiKey w1 tweetId v) :
    checkReTweet env cfg mission username qo w =
      if twitterUserID ∈ (timelineEntries v "retweeters_timeline").map entryRestId then
        insertIfAbsent env mission username qo mission.OpenUrl
          (w1.log (.RetweetersV2 apiKey tweetId))
      else .done (some "mission uncompleted") (w1.log (.RetweetersV2 apiKey tweetId)) := by
  obtain ⟨htw, ⟨openURL, hopen, hid⟩, hkey, r, data, hr, hcode, hdata, hparse⟩ := hf
  have hc : ¬ r.Code ≠ 1 := by simp [hcode]
  simp only [checkReTweet, htw, hopen, hid, hkey, hr, if_neg hc, hdata, hparse,
    any_restId_eq]
  by_cases hmem : twitterUserID ∈ (timelineEntries v "retweeters_timeline").map entryRestId
  · simp [hmem]
  · simp [hmem]

theorem checkJoinTelegram_linked (env : Env) (mission : Mission) (username : String)
    (qo : QueryOption) (w : World) (telegramUserID : Int)
    (hl : env.GetTelegramOauthByUsername username = .ok telegramUserID) :
    checkJoinTelegram env mission username qo w =
      match env.ChatMemberOf (ParseInt mission.TargetID).1 telegramUserID with
      | none => insertIfAbsent env mission username qo (toString telegramUserID)
          (w.log (.ChatMemberOf (ParseInt mission.TargetID).1 telegramUserID))
      | some e => .done (some e)
          (w.log (.ChatMemberOf (ParseInt mission.TargetID).1 telegramUserID)) := by
  simp only [checkJoinTelegram, hl]
  cases env.ChatMemberOf (ParseInt mission.TargetID).1 telegramUserID <;> rfl

theorem checkJoinDiscord_linked (env : Env) (mission : Mission) (username : String)
    (qo : QueryOption) (w : World) (discordUserID : String) (existing : Bool)
    (hl : env.GetDiscordOAuthByUsername username = .ok discordUserID)
    (hm : env.SIsMember "gm::discord::members" discordUserID = .ok existing) :
    checkJoinDiscord env mission username qo w =
      if existing = true then
        insertIfAbsent env mission username qo discordUserID
          (w.log (.SIsMember "gm::discord::members" discordUserID))
      else .done (some "user not join discord")
        (w.log (.SIsMember "gm::discord::members" discordUserID)) := by
  simp only [checkJoinDiscord, hl, hm]
  cases existing <;> simp

theorem checkJoinVolunteerChannel_linked (env : Env) (mission : Mission) (username : String)
    (qo : QueryOption) (w : World) (discordUserID : String) (permission : Nat)
    (hl : env.GetDiscordOAuthByUsername username = .ok discordUserID)
    (hp : env.UserChannelPermissions discordUserID mission.TargetID = .ok permission) :
    checkJoinVolunteerChannel env mission username qo w =
      if permission &&& PermissionViewChannel ≠ 0 then
        insertIfAbsent env mission username qo discordUserID
          (w.log (.UserChannelPermissions discordUserID mission.TargetID))
      else .done (some "please complete mission first")
        (w.log (.UserChannelPermissions discordUserID mission.TargetID)) := by
  simp only [checkJoinVolunteerChannel, hl, hp]
  by_cases h0 : permission &&& PermissionViewChannel = 0
  · simp [h0]
  · simp [h0]

theorem checkBindingKOL_found (env : Env) (mission : Mission) (username : String)
    (qo : QueryOption) (w : World) (fromKolRefCode : String)
    (hl : env.GetUserByUsername username = .ok fromKolRefCode) :
    checkBindingKOL env mission username qo w =
      if fromKolRefCode ≠ "" then insertIfAbsent env mission username qo fromKolRefCode w
      else .done (some "please complete mission first") w := by
  simp only [checkBindingKOL, hl]
  by_cases h0 : fromKolRefCode = ""
  · simp [h0]
  · simp [h0]

/-- C20 (re-check-then-insert). For each of the nine single-entry predicates, once the
steps before its condition have succeeded, the predicate is the common tail exactly when its
condition holds and the predicate's own error on the unchanged ledger when it does not:
follow (the official account is among the followed ids), like and repost (the linked
Twitter id is the `rest_id` of an entry of the timeline), quote (the target URL contains
the quoted id, the author is the linked id, the post is not older than today's start, at
least three mentions), original post (the phrase contains the first line, not older, the
author is the linked id), join Telegram (the membership lookup reports no error), join
Discord (the id is in the member set), join channel (the view-channel bit is set),
referral binding (the referral code is not empty). Whatever the steps before do, every
outcome is an error or a panic on the ledger the predicate started with, or the tail on
that ledger. The tail queries the ledger again: when the query is empty it hands exactly
one entry to the store and the ledger becomes what the store returns; when the query is not
empty it writes nothing and succeeds; when the query fails it writes nothing. -/
theorem recheck_then_insert (env : Env) (cfg : Config) (mission : Mission) (username : String)
    (qo : QueryOption) (w : World) :
    ((∀ twitterUserID apiKey w1 ids,
        FollowFetched env cfg username w twitterUserID apiKey w1 ids →
        (w1.log (.FollowingsIds apiKey twitterUserID)).ledger = w.ledger ∧
        checkFollowTwitter env cfg mission username qo w =
          if cfg.OfficialTwitterUserId ∈ ids then
            insertIfAbsent env mission username qo twitterUserID
              (w1.log (.FollowingsIds apiKey twitterUserID))
          else .done (some "user unfollow") (w1.log (.FollowingsIds apiKey twitterUserID))) ∧
      (∀ twitterUserID apiKey w1 tweetId v,
        LikeFetched env cfg mission username w twitterUserID apiKey w1 tweetId v →
        (w1.log (.FavoritersV2 apiKey tweetId)).ledger = w.ledger ∧
        checkLikeTweet env cfg mission username qo w =
          if twitterUserID ∈ (timelineEntries v "favoriters_timeline").map entryRestId then
            insertIfAbsent env mission username qo mission.OpenUrl
              (w1.log (.FavoritersV2 apiKey tweetId))
          else .done (some "mission uncompleted") (w1.log (.FavoritersV2 apiKey tweetId))) ∧
      (∀ twitterUserID apiKey w1 tweetId v,
        RetweetFetched env cfg mission username w twitterUserID apiKey w1 tweetId v →
        (w1.log (.RetweetersV2 apiKey tweetId)).ledger = w.ledger ∧
        checkReTweet env cfg mission username qo w =
          if twitterUserID ∈ (timelineEntries v "retweeters_timeline").map entryRestId then
            insertIfAbsent env mission username qo mission.OpenUrl
              (w1.log (.RetweetersV2 apiKey tweetId))
          else .done (some "mission uncompleted") (w1.log (.RetweetersV2 apiKey tweetId))) ∧
      (∀ twitterUserID apiKey w1 replyId v,
        QuoteFetched env cfg mission username w twitterUserID apiKey w1 replyId v →
        (w1.log (.TweetTimeline apiKey replyId)).ledger = w.ledger ∧
        checkQuoteTweet env cfg mission username qo w =
          if !Contains mission.OpenUrl (quotedSourceId v) then
            .done (some "not allowed source tweet id") (w1.log (.TweetTimeline apiKey replyId))
          else if postAuthor v ≠ twitterUserID then
            .done (some (invalidLinkMsg twitterUserID (postAuthor v)))
              (w1.log (.TweetTimeline apiKey replyId))
          else if carbonLt (env.carbonParse (postCreatedAt v)) env.StartOfDay then
            .done (some "post expiration") (w1.log (.TweetTimeline apiKey replyId))
          else if (userMentions v).length < 3 then
            .done (some "tag users not enough") (w1.log (.TweetTimeline apiKey replyId))
          else insertIfAbsent env mission username qo twitterUserID
            (w1.log (.TweetTimeline apiKey replyId))) ∧
      (∀ twitterUserID apiKey w1 replyId copyContent v,
        PostFetched env cfg mission username w twitterUserID apiKey w1 replyId copyContent v →
        (w1.log (.TweetTimeline apiKey replyId)).ledger = w.ledger ∧
        checkPostTweet env cfg mission username qo w =
          if !Contains copyContent (postFirstLine v) then
            .done (some "invalid content") (w1.log (.TweetTimeline apiKey replyId))
          else if carbonLt (env.carbonParse (postCreatedAt v)) env.StartOfDay then
            .done (some "post expiration") (w1.log (.TweetTimeline apiKey replyId))
          else if postAuthor v ≠ twitterUserID then
            .done (some (invalidLinkMsg twitterUserID (postAuthor v)))
              (w1.log (.TweetTimeline apiKey replyId))
          else insertIfAbsent env mission username qo twitterUserID
            (w1.log (.TweetTimeline apiKey replyId))) ∧
      (∀ telegramUserID, env.GetTelegramOauthByUsername username = .ok telegramUserID →
        (w.log (.ChatMemberOf (ParseInt mission.TargetID).1 telegramUserID)).ledger = w.ledger ∧
        checkJoinTelegram env mission username qo w =
          match env.ChatMemberOf (ParseInt mission.TargetID).1 telegramUserID with
          | none => insertIfAbsent env mission username qo (toString telegramUserID)
              (w.log (.ChatMemberOf (ParseInt mission.TargetID).1 telegramUserID))
          | some e => .done (some e)
              (w.log (.ChatMemberOf (ParseInt mission.TargetID).1 telegramUserID))) ∧
      (∀ discordUserID existing, env.GetDiscordOAuthByUsername username = .ok discordUserID →
        env.SIsMember "gm::discord::members" discordUserID = .ok existing →
        (w.log (.SIsMember "gm::discord::members" discordUserID)).ledger = w.ledger ∧
        checkJoinDiscord env mission username qo w =
          if existing = true then
            insertIfAbsent env mission username qo discordUserID
              (w.log (.SIsMember "gm::discord::members" discordUserID))
          else .done (some "user not join discord")
            (w.log (.SIsMember "gm::discord::members" discordUserID))) ∧
      (∀ discordUserID permission, env.GetDiscordOAuthByUsername username = .ok discordUserID →
        env.UserChannelPermissions discordUserID mission.TargetID = .ok permission →
        (w.log (.UserChannelPermissions discordUserID mission.TargetID)).ledger = w.ledger ∧
        checkJoinVolunteerChannel env mission username qo w =
          if permission &&& PermissionViewChannel ≠ 0 then
            insertIfAbsent env mission username qo discordUserID
              (w.log (.UserChannelPermissions discordUserID mission.TargetID))
          else .done (some "please complete mission first")
            (w.log (.UserChannelPermissions discordUserID mission.TargetID))) ∧
      (∀ fromKolRefCode, env.GetUserByUsername username = .ok fromKolRefCode →
        checkBindingKOL env mission username qo w =
          if fromKolRefCode ≠ "" then
            insertIfAbsent env mission username qo fromKolRefCode w
          else .done (some "please complete mission first") w)) ∧
    ((∃ c, TailOrFail env mission username qo c w
        (checkFollowTwitter env cfg mission username qo w)) ∧
      (∃ c, TailOrFail env mission username qo c w
        (checkLikeTweet env cfg mission username qo w)) ∧
      (∃ c, TailOrFail env mission username qo c w
        (checkReTweet env cfg mission username qo w)) ∧
      (∃ c, TailOrFail env mission username qo c w
        (checkQuoteTweet env cfg mission username qo w)) ∧
      (∃ c, TailOrFail env mission username qo c w
        (checkPostTweet env cfg mission username qo w)) ∧
      (∃ c, TailOrFail env mission username qo c w
        (checkJoinTelegram env mission username qo w)) ∧
      (∃ c, TailOrFail env mission username qo c w
        (checkJoinDiscord env mission username qo w)) ∧
      (∃ c, TailOrFail env mission username qo c w
        (checkJoinVolunteerChannel env mission username qo w)) ∧
      (∃ c, TailOrFail env mission username qo c w
        (checkBindingKOL env mission username qo w))) ∧
    (∀ content w2,
      (∀ l, env.GetUserMissionByMissionId w2.ledger username mission.ID qo = .ok [] →
        env.AddUserMissionAndInviteLog w2.ledger (missionEntry env mission username content)
          = .ok l →
        insertIfAbsent env mission username qo content w2
          = .done none { ledger := l, globalCounter := w2.globalCounter, calls := w2.calls }) ∧
      (∀ ums, env.GetUserMissionByMissionId w2.ledger username mission.ID qo = .ok ums →
        ums ≠ [] → insertIfAbsent env mission username qo content w2 = .done none w2) ∧
      (∀ e, env.GetUserMissionByMissionId w2.ledger username mission.ID qo = .error e →
        insertIfAbsent env mission username qo content w2 = .done (some e) w2)) := by
  refine ⟨⟨?_, ?_, ?_, ?_, ?_, ?_, ?_, ?_, ?_⟩,
    ⟨checkFollowTwitter_shape env cfg mission username qo w,
    ⟨_, checkLikeTweet_shape env cfg mission username qo w⟩,
    ⟨_, checkReTweet_shape env cfg mission username qo w⟩,
    checkQuoteTweet_shape env cfg mission username qo w,
    checkPostTweet_shape env cfg mission username qo w,
    checkJoinTelegram_shape env mission username qo w,
    checkJoinDiscord_shape env mission username qo w,
    checkJoinVolunteerChannel_shape env mission username qo w,
    checkBindingKOL_shape env mission username qo w⟩, ?_⟩
  · intro tid apiKey w1 ids hf
    exact ⟨log_key_ledger cfg w w1 (some apiKey) _ hf.2.1,
      checkFollowTwitter_fetched env cfg mission username qo w w1 tid apiKey ids hf⟩
  · intro tid apiKey w1 tweetId v hf
    exact ⟨log_key_ledger cfg w w1 (some apiKey) _ hf.2.2.1,
      checkLikeTweet_fetched env cfg mission username qo w w1 tid apiKey tweetId v hf⟩
  · intro tid apiKey w1 tweetId v hf
    exact ⟨log_key_ledger cfg w w1 (some apiKey) _ hf.2.2.1,
      checkReTweet_fetched env cfg mission username qo w w1 tid apiKey tweetId v hf⟩
  · intro tid apiKey w1 replyId v hf
    exact ⟨log_key_ledger cfg w w1 (some apiKey) _ hf.2.2.1,
      checkQuoteTweet_fetched env cfg mission username qo w w1 tid apiKey replyId v hf⟩
  · intro tid apiKey w1 replyId copyContent v hf
    exact ⟨log_key_ledger cfg w w1 (some apiKey) _ hf.2.2.2.1,
      checkPostTweet_fetched env cfg mission username qo w w1 tid apiKey replyId copyContent v
        hf⟩
  · intro tg hl
    exact ⟨rfl, checkJoinTelegram_linked env mission username qo w tg hl⟩
  · intro d b hl hm
    exact ⟨rfl, checkJoinDiscord_linked env mission username qo w d b hl hm⟩
  · intro d p hl hp
    exact ⟨rfl, checkJoinVolunteerChannel_linked env mission username qo w d p hl hp⟩
  · intro code hl
    exact checkBindingKOL_found env mission username qo w code hl
  · intro content w2
    refine ⟨?_, ?_, ?_⟩
    · intro l hq hi
      simp only [missionEntry] at hi
      simp only [insertIfAbsent, hq, hi, List.length_nil, if_true]
    · intro ums hq hne
      have hlen : ¬ ums.length = 0 := fun h0 => hne (List.length_eq_zero.1 h0)
      simp only [insertIfAbsent, hq, if_neg hlen]
    · intro e hq
      simp only [insertIfAbsent, hq]

/-- Witness of C20: on an empty ledger the referral-binding predicate writes exactly one
entry for a user with the referral code `KOL7`, writes nothing on a second run, and answers
its error and writes nothing for a user without a referral code; the join-Discord predicate
writes one entry for a member of the member set. -/
theorem recheck_then_insert_witness :
    checkBindingKOL exEnvMember (exMission 5) "alice" { Content := "", StartTime := none }
        exWorld
      = .done none
          { ledger := [missionEntry exEnvMember (exMission 5) "alice" "KOL7"],
            globalCounter := 0, calls := [] } ∧
    checkBindingKOL exEnvMember (exMission 5) "alice" { Content := "", StartTime := none }
        { ledger := [missionEntry exEnvMember (exMission 5) "alice" "KOL7"],
          globalCounter := 0, calls := [] }
      = .done none
          { ledger := [missionEntry exEnvMember (exMission 5) "alice" "KOL7"],
            globalCounter := 0, calls := [] } ∧
    checkBindingKOL exEnv (exMission 5) "alice" { Content := "", StartTime := none } exWorld
      = .done (some "please complete mission first") exWorld ∧
    checkJoinDiscord exEnvMember (exMission 4) "alice" { Content := "", StartTime := none }
        exWorld
      = .done none
          { ledger := [missionEntry exEnvMember (exMission 4) "alice" "d1"],
            globalCounter := 0, calls := [.SIsMember "gm::discord::members" "d1"] } :=
  ⟨((recheck_then_insert exEnvMember exCfg (exMission 5) "alice"
      { Content := "", StartTime := none } exWorld).1.2.2.2.2.2.2.2.2 "KOL7"
      (by decide)).trans (by decide),
    ((recheck_then_insert exEnvMember exCfg (exMission 5) "alice"
      { Content := "", StartTime := none }
      { ledger := [missionEntry exEnvMember (exMission 5) "alice" "KOL7"],
        globalCounter := 0, calls := [] }).1.2.2.2.2.2.2.2.2 "KOL7"
      (by decide)).trans (by decide),
    ((recheck_then_insert exEnv exCfg (exMission 5) "alice"
      { Content := "", StartTime := none } exWorld).1.2.2.2.2.2.2.2.2 ""
      (by decide)).trans (by decide),
    ((recheck_then_insert exEnvMember exCfg (exMission 4) "alice"
      { Content := "", StartTime := none } exWorld).1.2.2.2.2.2.2.1 "d1" true
      (by decide) (by decide)).2.trans (by decide)⟩

/-- C16 (like / repost evidence matches the lookup filter). For the like and the repost
mission id: the content filter of the handler's lookup is the mission's target URL; every
outcome of `checkLikeTweet` and `checkReTweet` leaves the ledger unchanged or extended by
one entry whose content is that URL (the store appending what it accepts); that entry is
returned by the lookup of the ledger store with the handler's option; and, the URL being
non-empty, an entry whose content is a different URL is not returned by that lookup. -/
theorem like_repost_evidence (k : Consts) (env : Env) (cfg : Config) (mission : Mission)
    (username : String) (missionId : Int) (w : World)
    (hid : missionId = k.MissionIdLikeTwitter ∨ missionId = k.MissionIdRetweet)
    (hcat : mission.ID = missionId)
    (hins : ∀ l e l2, env.AddUserMissionAndInviteLog l e = .ok l2 → l2 = l ++ [e])
    (hday : env.StartOfDay ≤ env.Now) (hweek : env.StartOfWeek ≤ env.Now) :
    (buildOption k env mission missionId).Content = mission.OpenUrl ∧
    (∀ qo r, r = checkLikeTweet env cfg mission username qo w ∨
        r = checkReTweet env cfg mission username qo w →
      r.world.ledger = w.ledger ∨
      r.world.ledger = w.ledger ++ [missionEntry env mission username mission.OpenUrl]) ∧
    (∀ l, missionEntry env mission username mission.OpenUrl
      ∈ QueryEntries (l ++ [missionEntry env mission username mission.OpenUrl]) username
          missionId (buildOption k env mission missionId)) ∧
    (mission.OpenUrl ≠ "" → ∀ l e, e.Content ≠ mission.OpenUrl →
      e ∉ QueryEntries l username missionId (buildOption k env mission missionId)) := by
  have hcontent : (buildOption k env mission missionId).Content = mission.OpenUrl := by
    have : missionId = k.MissionIdRetweet ∨ missionId = k.MissionIdLikeTwitter := hid.symm
    simp only [buildOption, this, if_true]
  have hshape : ∀ qo r, TailOrFail env mission username qo mission.OpenUrl w r →
      r.world.ledger = w.ledger ∨
      r.world.ledger = w.ledger ++ [missionEntry env mission username mission.OpenUrl] := by
    intro qo r hr
    rcases hr with ⟨w2, hw2, hr⟩ | ⟨hr, _⟩
    · rw [hr, ← hw2]
      exact insertIfAbsent_ledger env mission username qo _ w2 hins
    · exact Or.inl hr
  refine ⟨hcontent, ?_, ?_, ?_⟩
  · intro qo r hr
    rcases hr with rfl | rfl
    · exact hshape qo _ (checkLikeTweet_shape env cfg mission username qo w)
    · exact hshape qo _ (checkReTweet_shape env cfg mission username qo w)
  · intro l
    unfold QueryEntries
    rw [List.mem_filter]
    refine ⟨List.mem_append_right _ (List.mem_singleton_self _), ?_⟩
    rw [hcontent]
    have hstart : ∀ t, (buildOption k env mission missionId).StartTime = some t →
        t ≤ env.Now := by
      intro t ht
      simp only [buildOption] at ht
      split_ifs at ht <;> simp only [Option.some.injEq] at ht <;> omega
    cases hs : (buildOption k env mission missionId).StartTime with
    | none => simp [missionEntry, hcat]
    | some t =>
      have := hstart t hs
      simp [missionEntry, hcat, this]
  · intro hne l e he hmem
    unfold QueryEntries at hmem
    rw [List.mem_filter, hcontent] at hmem
    have h2 := hmem.2
    simp only [Bool.and_eq_true, Bool.or_eq_true, beq_iff_eq] at h2
    rcases h2.1.2 with h3 | h3
    · exact hne h3
    · exact he h3

/-- Witness of C16: the like mission of the example, target URL `u`. -/
theorem like_repost_evidence_witness :
    (buildOption exConsts exEnv (exMission 3) 3).Content = "u" ∧
    missionEntry exEnv (exMission 3) "alice" "u"
      ∈ QueryEntries ([] ++ [missionEntry exEnv (exMission 3) "alice" "u"]) "alice" 3
          (buildOption exConsts exEnv (exMission 3) 3) := by
  have h := like_repost_evidence exConsts exEnv exCfg (exMission 3) "alice" 3 exWorld
    (Or.inl (by decide)) (by decide) (fun _ _ _ h => by cases h; rfl) (by decide) (by decide)
  exact ⟨h.1, h.2.2.1 []⟩

/-- C17, the code at the failing input. Every u-tool call answers code 1 with a payload
that is not a string: `checkFollowTwitter` returns the error `response not string`, while
`checkLikeTweet`, `checkReTweet`, `checkQuoteTweet` and `checkPostTweet` panic on the
unchecked type assertion, and so does the handler on the like mission. -/
theorem non_string_payload_panics :
    checkFollowTwitter exEnvNonString exCfg (exMission 1) "alice"
        { Content := "", StartTime := none } exWorld
      = .done (some "response not string")
          { ledger := [], globalCounter := 1, calls := [.FollowingsIds "k1" "t1"] } ∧
    checkLikeTweet exEnvNonString exCfg (exMission 3) "alice"
        { Content := "u", StartTime := none } exWorld
      = .panic { ledger := [], globalCounter := 1, calls := [.FavoritersV2 "k1" "42"] } ∧
    checkReTweet exEnvNonString exCfg (exMission 2) "alice"
        { Content := "u", StartTime := none } exWorld
      = .panic { ledger := [], globalCounter := 1, calls := [.RetweetersV2 "k1" "42"] } ∧
    checkQuoteTweet exEnvNonString exCfg (exMission 10) "alice"
        { Content := "", StartTime := none } exWorld
      = .panic { ledger := [], globalCounter := 1, calls := [.TweetTimeline "k1" "9"] } ∧
    checkPostTweet exEnvNonString exCfg (exMission 11) "alice"
        { Content := "", StartTime := none } exWorld
      = .panic { ledger := [], globalCounter := 1, calls := [.TweetTimeline "k1" "9"] } ∧
    CheckQuestHandler exConsts exEnvNonString exCfg "alice" 3 exWorld
      = .panic { ledger := [], globalCounter := 1, calls := [.FavoritersV2 "k1" "42"] } := by
  decide

/-- C18 (period key). With different constants for the daily and the weekly cadence, the
handler's lookup option carries the start of the current day for a daily mission, the start
of the current week for a weekly mission, and no start time otherwise. For a daily mission
the lookup of any ledger is the lookup of that ledger without the entries created before
today's start, so those entries do not count. Hence, with the ledger store of the
specification, when the entries of this user and this mission were all created before
today's start (whatever other users and other missions have in the ledger, today's entries
included) the lookup is empty, and for every positive expected count (1, or the number of
sub-missions of the invite campaign) the handler goes on to the dispatch. -/
theorem period_key (k : Consts) (env : Env) (cfg : Config) (username : String)
    (missionId : Int) (w : World) (mission : Mission)
    (hcad : k.MissionTypeDaily ≠ k.MissionTypeWeekly) :
    (mission.Typ = k.MissionTypeDaily →
      (buildOption k env mission missionId).StartTime = some env.StartOfDay) ∧
    (mission.Typ = k.MissionTypeWeekly →
      (buildOption k env mission missionId).StartTime = some env.StartOfWeek) ∧
    (mission.Typ ≠ k.MissionTypeDaily → mission.Typ ≠ k.MissionTypeWeekly →
      (buildOption k env mission missionId).StartTime = none) ∧
    (mission.Typ = k.MissionTypeDaily → ∀ l : List UserMission,
      QueryEntries l username missionId (buildOption k env mission missionId)
        = QueryEntries (l.filter (fun e => decide (env.StartOfDay ≤ e.CreatedAt))) username
            missionId (buildOption k env mission missionId)) ∧
    (env.SpecStore → env.GetMissionById missionId = .ok (some mission) →
      mission.Typ = k.MissionTypeDaily →
      (∀ e ∈ w.ledger, e.Username = username → e.MissionID = missionId →
        e.CreatedAt < env.StartOfDay) →
      QueryEntries w.ledger username missionId (buildOption k env mission missionId) = [] ∧
      ∀ n, expectedCountOf k env missionId = .ok n → 0 < n →
        CheckQuestHandler k env cfg username missionId w =
          match dispatch k env cfg mission username missionId
              (buildOption k env mission missionId) w with
          | none => .respond (.errorCode .NoImplement) w
          | some r => afterPredicate env username missionId
              (buildOption k env mission missionId) r) := by
  have hd : mission.Typ = k.MissionTypeDaily →
      (buildOption k env mission missionId).StartTime = some env.StartOfDay := by
    intro h
    simp only [buildOption, h, if_true, if_neg hcad]
  refine ⟨hd, ?_, ?_, ?_, ?_⟩
  · intro h
    simp only [buildOption, h, if_true]
  · intro h1 h2
    simp only [buildOption, h1, h2, if_false]
  · intro hdaily l
    unfold QueryEntries
    rw [List.filter_filter, hd hdaily]
    congr 1
    funext e
    by_cases hc : env.StartOfDay ≤ e.CreatedAt
    · simp [hc]
    · simp [hc]
  · intro hstore hmission hdaily hold
    have hq : QueryEntries w.ledger username missionId (buildOption k env mission missionId)
        = [] := by
      unfold QueryEntries
      rw [List.filter_eq_nil_iff]
      intro e he
      have := hold e he
      rw [hd hdaily]
      simp only [Bool.and_eq_true, decide_eq_true_eq, not_and, beq_iff_eq]
      intro h1 _
      have := this h1.1.1 h1.1.2
      omega
    refine ⟨hq, ?_⟩
    intro n hexp hn
    have hz : ¬ 0 ≥ n := by omega
    simp only [CheckQuestHandler, hmission, hstore.1, hq, hexp, List.length_nil, if_neg hz]

/-- Witness of C18: the ledger holds the user's entry of the daily quote mission written
yesterday and another user's entry of the same mission written today; the user's lookup is
empty, the predicate runs again and today's entry is written and returned. -/
theorem period_key_witness :
    QueryEntries [exYesterdayEntry, exOtherTodayEntry] "alice" 10
        (buildOption exConsts (exEnvTweet (exTweet "t1" "950" (some "1800") 3 "gm"))
          (exTweetMission 10) 10) = [] ∧
    CheckQuestHandler exConsts (exEnvTweet (exTweet "t1" "950" (some "1800") 3 "gm")) exCfg
        "alice" 10
        { ledger := [exYesterdayEntry, exOtherTodayEntry], globalCounter := 0, calls := [] }
      = .respond (.missions [exTweetEntry 10])
          { ledger := [exYesterdayEntry, exOtherTodayEntry, exTweetEntry 10],
            globalCounter := 1, calls := [.TweetTimeline "k1" "9"] } := by
  have h := (period_key exConsts (exEnvTweet (exTweet "t1" "950" (some "1800") 3 "gm")) exCfg
    "alice" 10
    { ledger := [exYesterdayEntry, exOtherTodayEntry], globalCounter := 0, calls := [] }
    (exTweetMission 10) (by decide)).2.2.2.2
    ⟨fun _ _ _ _ => rfl, fun _ _ _ h => by cases h; rfl⟩ (by decide) (by decide)
    (by decide)
  exact ⟨h.1, (h.2 1 (by decide) (by decide)).trans (by decide)⟩

/-- C19 (expected count). `expectedCount` is 1 for every mission id other than the
invite-friends campaign and the number of sub-missions for the campaign. So a check on the
campaign returns the recorded entries without running the predicate once there are at least
as many of them as sub-missions, and runs `checkInviteFriendsToDiscord` as long as there
are fewer. With one recorded entry per sub-mission at most (the sub-missions have different
ids, the recorded entries of the period carry different sub-mission ids, each the id of a
sub-mission of the campaign) this is: the handler returns the recorded entries when every
sub-mission has an entry for the period, and dispatches to the predicate as long as some
sub-mission has none. -/
theorem expected_count (k : Consts) (env : Env) (cfg : Config) (username : String)
    (missionId : Int) (w : World) (mission : Mission) (ums : List UserMission)
    (hdist : k.Distinct)
    (hmission : env.GetMissionById missionId = .ok (some mission))
    (hums : env.GetUserMissionByMissionId w.ledger username missionId
      (buildOption k env mission missionId) = .ok ums) :
    (missionId ≠ k.MissionIdInviteFriendsToDiscord → expectedCountOf k env missionId = .ok 1) ∧
    (∀ subMissions, missionId = k.MissionIdInviteFriendsToDiscord →
      env.GetSubMissions missionId = .ok subMissions →
      expectedCountOf k env missionId = .ok subMissions.length ∧
      (subMissions.length ≤ ums.length →
        CheckQuestHandler k env cfg username missionId w = .respond (.missions ums) w) ∧
      (ums.length < subMissions.length →
        CheckQuestHandler k env cfg username missionId w
          = afterPredicate env username missionId (buildOption k env mission missionId)
              (checkInviteFriendsToDiscord env mission username
                (buildOption k env mission missionId) w)) ∧
      ((subMissions.map (fun sm => sm.ID)).Nodup →
        (ums.map (fun m => m.SubMissionID)).Nodup →
        (∀ m ∈ ums, ∃ sm ∈ subMissions, sm.ID = m.SubMissionID) →
        ((∀ sm ∈ subMissions, ∃ m ∈ ums, m.SubMissionID = sm.ID) →
          CheckQuestHandler k env cfg username missionId w = .respond (.missions ums) w) ∧
        ((∃ sm ∈ subMissions, ∀ m ∈ ums, m.SubMissionID ≠ sm.ID) →
          CheckQuestHandler k env cfg username missionId w
            = afterPredicate env username missionId (buildOption k env mission missionId)
                (checkInviteFriendsToDiscord env mission username
                  (buildOption k env mission missionId) w)))) := by
  refine ⟨expectedCountOf_not_invite k env missionId, ?_⟩
  intro subs hid hsubs
  have hexp : expectedCountOf k env missionId = .ok subs.length := by
    simp only [expectedCountOf, if_pos hid, hsubs]
  have hshort : subs.length ≤ ums.length →
      CheckQuestHandler k env cfg username missionId w = .respond (.missions ums) w := by
    intro hle
    have : ums.length ≥ subs.length := hle
    simp only [CheckQuestHandler, hmission, hums, hexp, this, if_true]
  have hrun : ums.length < subs.length →
      CheckQuestHandler k env cfg username missionId w
        = afterPredicate env username missionId (buildOption k env mission missionId)
            (checkInviteFriendsToDiscord env mission username
              (buildOption k env mission missionId) w) := by
    intro hlt
    have hn : ¬ ums.length ≥ subs.length := by omega
    subst hid
    simp only [CheckQuestHandler, hmission, hums, hexp, if_neg hn,
      dispatch_InviteFriendsToDiscord k hdist]
  refine ⟨hexp, hshort, hrun, ?_⟩
  intro hsn hun hsub
  refine ⟨?_, ?_⟩
  · intro hall
    apply hshort
    have hss : subs.map (fun sm => sm.ID) ⊆ ums.map (fun m => m.SubMissionID) := by
      intro i hi
      obtain ⟨sm, hsm, rfl⟩ := List.mem_map.1 hi
      obtain ⟨m, hm, hms⟩ := hall sm hsm
      exact List.mem_map.2 ⟨m, hm, hms⟩
    have := (List.subperm_of_subset hsn hss).length_le
    simpa using this
  · rintro ⟨sm, hsm, hnone⟩
    apply hrun
    have hmem : sm.ID ∈ subs.map (fun sm => sm.ID) := List.mem_map.2 ⟨sm, hsm, rfl⟩
    have hss : ums.map (fun m => m.SubMissionID) ⊆ (subs.map (fun sm => sm.ID)).erase sm.ID := by
      intro i hi
      obtain ⟨m, hm, rfl⟩ := List.mem_map.1 hi
      obtain ⟨sm2, hsm2, h2⟩ := hsub m hm
      rw [hsn.mem_erase_iff]
      exact ⟨hnone m hm, List.mem_map.2 ⟨sm2, hsm2, h2⟩⟩
    have h1 := (List.subperm_of_subset hun hss).length_le
    rw [List.length_erase_of_mem hmem] at h1
    have h2 : 0 < (subs.map (fun sm => sm.ID)).length := List.length_pos_of_mem hmem
    simp only [List.length_map] at h1 h2
    omega

/-- Witness of C19: the campaign has three sub-missions and recorded entries for the first
two; the third has no entry, so the predicate is dispatched again. -/
theorem expected_count_witness :
    expectedCountOf exConsts exEnv 12 = .ok 3 ∧
    CheckQuestHandler exConsts exEnv exCfg "alice" 12
        { ledger := [subMissionEntry exEnv (exMission 12) "alice" "d1" (exSub 101 "1"),
                     subMissionEntry exEnv (exMission 12) "alice" "d1" (exSub 102 "5")],
          globalCounter := 0, calls := [] }
      = afterPredicate exEnv "alice" 12 (buildOption exConsts exEnv (exMission 12) 12)
          (checkInviteFriendsToDiscord exEnv (exMission 12) "alice"
            (buildOption exConsts exEnv (exMission 12) 12)
            { ledger := [subMissionEntry exEnv (exMission 12) "alice" "d1" (exSub 101 "1"),
                         subMissionEntry exEnv (exMission 12) "alice" "d1" (exSub 102 "5")],
              globalCounter := 0, calls := [] }) := by
  have h := (expected_count exConsts exEnv exCfg "alice" 12
    { ledger := [subMissionEntry exEnv (exMission 12) "alice" "d1" (exSub 101 "1"),
                 subMissionEntry exEnv (exMission 12) "alice" "d1" (exSub 102 "5")],
      globalCounter := 0, calls := [] } (exMission 12)
    [subMissionEntry exEnv (exMission 12) "alice" "d1" (exSub 101 "1"),
     subMissionEntry exEnv (exMission 12) "alice" "d1" (exSub 102 "5")]
    (by decide) (by decide) (by decide)).2
    [exSub 101 "1", exSub 102 "5", exSub 103 "10"] (by decide) (by decide)
  exact ⟨h.1, (h.2.2.2 (by decide) (by decide) (by decide)).2
    ⟨exSub 103 "10", by decide, by decide⟩⟩

/-! ## Credential rotation at the ends of the counter range -/

/-- C23, counterexample. Three credentials and the
rotation counter at the largest 64-bit value: the increment wraps to the smallest value, the
remainder by 3 is `-2`, and indexing the key list with it is an index-out-of-range panic.
The same happens for a negative counter that is not a multiple of the list length. -/
theorem round_robin_panics_after_wrap :
    GetUToolKeyByRoundRobin exCfg { ledger := [], globalCounter := 9223372036854775807, calls := [] }
      = (none, { ledger := [], globalCounter := -9223372036854775808, calls := [] }) ∧
    Int.tmod (-9223372036854775808) 3 = -2 ∧
    GetUToolKeyByRoundRobin exCfg { ledger := [], globalCounter := -3, calls := [] }
      = (none, { ledger := [], globalCounter := -2, calls := [] }) := by
  decide

/-- One call on a non-empty credential list, from a non-negative counter whose increment
does not overflow: the call returns an element of the list, and the counter stays
non-negative and grows by at most one. -/
theorem rr_step_in_range (cfg : Config) (w : World) (hne : cfg.UToolAPIKeys ≠ [])
    (h0 : 0 ≤ w.globalCounter) (h1 : w.globalCounter + 1 < 2 ^ 63) :
    ∃ key ∈ cfg.UToolAPIKeys, ∃ w2, GetUToolKeyByRoundRobin cfg w = (some key, w2) ∧
      0 ≤ w2.globalCounter ∧ w2.globalCounter ≤ w.globalCounter + 1 := by
  have hlen : 0 < cfg.UToolAPIKeys.length := List.length_pos.2 hne
  by_cases hone : cfg.UToolAPIKeys.length = 1
  · have hget : cfg.UToolAPIKeys.get? 0 = some (cfg.UToolAPIKeys.get ⟨0, hlen⟩) :=
      List.get?_eq_get hlen
    refine ⟨cfg.UToolAPIKeys.get ⟨0, hlen⟩, List.get_mem _ _ _, w, ?_, h0, by omega⟩
    unfold GetUToolKeyByRoundRobin
    simp only [hone, if_true]
    unfold indexKeys
    simp only [lt_irrefl, if_false, Int.toNat_zero, hget]
  · have h2 : 2 ≤ cfg.UToolAPIKeys.length := by omega
    have hidx : (w.globalCounter.toNat + 1) % cfg.UToolAPIKeys.length
        < cfg.UToolAPIKeys.length := Nat.mod_lt _ hlen
    refine ⟨cfg.UToolAPIKeys.get ⟨_, hidx⟩, List.get_mem _ _ _,
      { w with globalCounter := w.globalCounter + 1 }, ?_, ?_, ?_⟩
    · rw [rr_step cfg w h2 h0 h1, List.get?_eq_get hidx]
    · show 0 ≤ w.globalCounter + 1
      omega
    · show w.globalCounter + 1 ≤ w.globalCounter + 1
      omega

/-- C23, amended. For every non-empty credential list and every non-negative value
of the rotation counter: a call whose increment does not overflow returns an element of the
list, and so does each of `n` successive calls as long as the counter plus `n` stays below
`2 ^ 63`; from the initial counter 0 this covers every run of fewer than `2 ^ 63` calls.
No such call is a division by zero or an index out of range. -/
theorem round_robin_in_range (cfg : Config) (w : World) (hne : cfg.UToolAPIKeys ≠ [])
    (h0 : 0 ≤ w.globalCounter) :
    (w.globalCounter + 1 < 2 ^ 63 →
      ∃ key ∈ cfg.UToolAPIKeys, (GetUToolKeyByRoundRobin cfg w).1 = some key) ∧
    (∀ n : Nat, w.globalCounter + n < 2 ^ 63 →
      ∀ x ∈ (rotate cfg n w).1, ∃ key ∈ cfg.UToolAPIKeys, x = some key) ∧
    (w.globalCounter = 0 → ∀ n : Nat, (n : Int) < 2 ^ 63 →
      ∀ x ∈ (rotate cfg n w).1, ∃ key ∈ cfg.UToolAPIKeys, x = some key) := by
  have hrot : ∀ (n : Nat) (w : World), 0 ≤ w.globalCounter → w.globalCounter + n < 2 ^ 63 →
      ∀ x ∈ (rotate cfg n w).1, ∃ key ∈ cfg.UToolAPIKeys, x = some key := by
    intro n
    induction n with
    | zero =>
      intro w _ _ x hx
      simp [rotate] at hx
    | succ n ih =>
      intro w h0 hn x hx
      push_cast at hn
      obtain ⟨key, hkey, w2, hcall, h20, h21⟩ :=
        rr_step_in_range cfg w hne h0 (by omega)
      simp only [rotate, hcall, List.mem_cons] at hx
      rcases hx with rfl | hx
      · exact ⟨key, hkey, rfl⟩
      · exact ih w2 h20 (by omega) x hx
  refine ⟨?_, fun n hn => hrot n w h0 hn, ?_⟩
  · intro h1
    obtain ⟨key, hkey, w2, hcall, _, _⟩ := rr_step_in_range cfg w hne h0 h1
    exact ⟨key, hkey, by rw [hcall]⟩
  · intro hz n hn
    exact hrot n w h0 (by omega)

/-- Witness of C23: three credentials and the counter at 0; seven successive calls return
the credentials in rotation, each an element of the list. -/
theorem round_robin_in_range_witness :
    (rotate exCfg 7 exWorld).1
        = [some "k1", some "k2", some "k0", some "k1", some "k2", some "k0", some "k1"] ∧
    ∀ x ∈ (rotate exCfg 7 exWorld).1, ∃ key ∈ exCfg.UToolAPIKeys, x = some key :=
  ⟨by decide,
    (round_robin_in_range exCfg exWorld (by decide) (by decide)).2.1 7 (by decide)⟩

/-! ## Address masking: proofs -/

theorem splitBytes_eq (sep : Nat) : ∀ (l cur : List Nat),
    splitBytes sep l cur =
      if sep ∈ l then
        (cur.reverse ++ l.takeWhile (fun b => b ≠ sep)) ::
          splitBytes sep ((l.dropWhile (fun b => b ≠ sep)).tail) []
      else [cur.reverse ++ l] := by
  intro l
  induction l with
  | nil => intro cur; simp [splitBytes]
  | cons b bs ih =>
    intro cur
    by_cases hb : b = sep
    · subst hb
      simp [splitBytes, List.takeWhile, List.dropWhile]
    · have hsb : ¬ sep = b := fun h => hb h.symm
      rw [splitBytes, if_neg hb, ih]
      by_cases hmem : sep ∈ bs
      · simp [hmem, hb, hsb, List.takeWhile, List.dropWhile]
      · simp [hmem, hb, hsb]

theorem splitBytes_head (sep : Nat) (l : List Nat) :
    ∃ rest, splitBytes sep l [] = l.takeWhile (fun b => b ≠ sep) :: rest := by
  rw [splitBytes_eq]
  by_cases hmem : sep ∈ l
  · rw [if_pos hmem]
    exact ⟨_, rfl⟩
  · rw [if_neg hmem]
    refine ⟨[], ?_⟩
    have : l.takeWhile (fun b => b ≠ sep) = l := by
      rw [List.takeWhile_eq_self_iff]
      intro x hx
      have : x ≠ sep := fun h => hmem (h ▸ hx)
      simpa using this
    rw [this]
    rfl

theorem take_firstSegment (address : List Nat) (n : Nat)
    (h : n ≤ (firstSegment address).length) :
    (firstSegment address).take n = address.take n := by
  have hsplit : address = firstSegment address ++ address.dropWhile (fun b => b ≠ 46) := by
    unfold firstSegment
    exact (List.takeWhile_append_dropWhile _ _).symm
  conv_rhs => rw [hsplit]
  rw [List.take_append_of_le_length h]

theorem sliceTo_some (s : List Nat) (n : Nat) (h : n ≤ s.length) :
    sliceTo s (n : Int) = some (s.take n) := by
  unfold sliceTo
  have : ¬ ((n : Int) < 0 ∨ (n : Int) > s.length) := by omega
  rw [if_neg this]
  simp

theorem sliceTo_none (s : List Nat) (n : Nat) (h : s.length < n) :
    sliceTo s (n : Int) = none := by
  unfold sliceTo
  have : ((n : Int) < 0 ∨ (n : Int) > s.length) := by omega
  rw [if_pos this]

theorem sliceFrom_some (s : List Nat) (k : Nat) (h : k ≤ s.length) :
    sliceFrom s ((s.length : Int) - k) = some (s.drop (s.length - k)) := by
  unfold sliceFrom
  have : ¬ (((s.length : Int) - k) < 0 ∨ ((s.length : Int) - k) > s.length) := by omega
  rw [if_neg this]
  have h2 : ((s.length : Int) - k).toNat = s.length - k := by omega
  rw [h2]

/-- C25 (`maskAddress`). The function returns without a slice-bounds panic exactly when the
part of the address before its first `.` has at least 3 bytes. In that case the result is
the first 3 bytes of the address, then `****`, then: the last 3 bytes of the address when it
has no `.`; otherwise the last 2 bytes of that first part when it is longer than 5 bytes
(nothing when it is not), then `.` and the second dot-separated segment. -/
theorem maskAddress_spec (address : List Nat) :
    ((maskAddress address).isSome = true ↔ 3 ≤ (firstSegment address).length) ∧
    (3 ≤ (firstSegment address).length →
      maskAddress address = some (address.take 3 ++ stars ++
        (if 46 ∈ address then
          (if (firstSegment address).length > 5 then
            (firstSegment address).drop ((firstSegment address).length - 2) else []) ++
            [46] ++ secondSegment address
         else address.drop (address.length - 3)))) := by
  by_cases hmem : 46 ∈ address
  · have hwords : splitBytes 46 address []
        = firstSegment address :: splitBytes 46
            ((address.dropWhile (fun b => b ≠ 46)).tail) [] := by
      rw [splitBytes_eq, if_pos hmem]
      rfl
    obtain ⟨rest, hrest⟩ := splitBytes_head 46 ((address.dropWhile (fun b => b ≠ 46)).tail)
    have hw2 : splitBytes 46 address []
        = firstSegment address :: secondSegment address :: rest := by
      rw [hwords, hrest]
      rfl
    have hlen : ¬ (firstSegment address :: secondSegment address :: rest).length < 2 := by
      simp
    by_cases h5 : (firstSegment address).length > 5
    · have h3 : 3 ≤ (firstSegment address).length := by omega
      have hval : maskAddress address = some (address.take 3 ++ stars ++
          ((firstSegment address).drop ((firstSegment address).length - 2) ++ [46] ++
            secondSegment address)) := by
        simp only [maskAddress, hw2, if_neg hlen, List.headD_cons, List.get?_cons_succ,
          List.get?_cons_zero, Option.getD_some, if_pos h5]
        rw [show ((3 : Int)) = ((3 : Nat) : Int) from rfl, sliceTo_some _ 3 h3,
          show ((2 : Int)) = ((2 : Nat) : Int) from rfl, sliceFrom_some _ 2 (by omega),
          take_firstSegment address 3 h3]
        simp
      constructor
      · rw [hval]
        simp [h3]
      · intro _
        rw [hval, if_pos hmem, if_pos h5]
    · by_cases h3 : 3 ≤ (firstSegment address).length
      · have hval : maskAddress address = some (address.take 3 ++ stars ++
            ([] ++ [46] ++ secondSegment address)) := by
          simp only [maskAddress, hw2, if_neg hlen, List.headD_cons, List.get?_cons_succ,
            List.get?_cons_zero, Option.getD_some, if_neg h5]
          rw [show ((3 : Int)) = ((3 : Nat) : Int) from rfl, sliceTo_some _ 3 h3,
            take_firstSegment address 3 h3]
          simp
        constructor
        · rw [hval]
          simp [h3]
        · intro _
          rw [hval, if_pos hmem, if_neg h5]
      · have hval : maskAddress address = none := by
          simp only [maskAddress, hw2, if_neg hlen, List.headD_cons, if_neg h5]
          rw [show ((3 : Int)) = ((3 : Nat) : Int) from rfl, sliceTo_none _ 3 (by omega)]
        constructor
        · rw [hval]
          simp [h3]
        · intro h
          exact absurd h h3
  · have hfirst : firstSegment address = address := by
      unfold firstSegment
      rw [List.takeWhile_eq_self_iff]
      intro x hx
      have : x ≠ 46 := fun h => hmem (h ▸ hx)
      simpa using this
    have hwords : splitBytes 46 address [] = [address] := by
      rw [splitBytes_eq, if_neg hmem]
      rfl
    have hlen : ([address] : List (List Nat)).length < 2 := by simp
    rw [hfirst]
    by_cases h3 : 3 ≤ address.length
    · have hval : maskAddress address
          = some (address.take 3 ++ stars ++ address.drop (address.length - 3)) := by
        simp only [maskAddress, hwords, if_pos hlen]
        rw [show ((3 : Int)) = ((3 : Nat) : Int) from rfl, sliceTo_some _ 3 h3,
          sliceFrom_some _ 3 h3]
      constructor
      · rw [hval]
        simp [h3]
      · intro _
        rw [hval, if_neg hmem]
    · have hval : maskAddress address = none := by
        simp only [maskAddress, hwords, if_pos hlen]
        rw [show ((3 : Int)) = ((3 : Nat) : Int) from rfl, sliceTo_none _ 3 (by omega)]
      constructor
      · rw [hval]
        simp [h3]
      · intro h
        exact absurd h h3

/-- Witness of C25: `titan1abc.eth` is masked to `tit****bc.eth`, and `ab.eth` makes the
function panic. -/
theorem maskAddress_spec_witness :
    maskAddress (asciiBytes "titan1abc.eth") = some (asciiBytes "tit****bc.eth") ∧
    maskAddress (asciiBytes "ab.eth") = none := by
  have h := (maskAddress_spec (asciiBytes "titan1abc.eth")).2 (by decide)
  exact ⟨by rw [h]; decide, by decide⟩

/-! ## Partial writes of the invite-friends predicate -/

theorem inviteLoop_written (env : Env) (mission : Mission) (username discordUserID : String)
    (count : Int) (completed : List Int)
    (hins : ∀ l e l2, env.AddUserMissionAndInviteLog l e = .ok l2 → l2 = l ++ [e]) :
    ∀ (subMission : List Mission) (cc : Int) (w : World),
      ∃ n, (inviteLoop env mission username discordUserID count completed subMission cc w).2.ledger
        = w.ledger ++ inviteEntries env mission username discordUserID
            ((qualifying count completed subMission).take n) := by
  intro subMission
  induction subMission with
  | nil => intro cc w; exact ⟨0, by simp [inviteLoop, inviteEntries]⟩
  | cons sm rest ih =>
    intro cc w
    unfold inviteLoop
    rcases hp : ParseInt sm.Title with ⟨v, b⟩
    cases b with
    | false => exact ⟨0, by simp [inviteEntries]⟩
    | true =>
      simp only
      have hv : (ParseInt sm.Title).1 = v := by rw [hp]
      by_cases hc : completed.contains sm.ID = true
      · rw [if_pos hc, qualifying_cons_skip count completed sm rest (Or.inl hc)]
        exact ih cc w
      · rw [if_neg hc]
        by_cases hlt : count < v
        · rw [if_pos hlt, qualifying_cons_skip count completed sm rest (Or.inr (by omega))]
          exact ih cc w
        · rw [if_neg hlt]
          cases hi : env.AddUserMissionAndInviteLog w.ledger
              (subMissionEntry env mission username discordUserID sm) with
          | error e => exact ⟨0, by simp [inviteEntries]⟩
          | ok l =>
            simp only
            obtain ⟨n, hn⟩ := ih (cc + 1) { w with ledger := l }
            refine ⟨n + 1, ?_⟩
            rw [hn, qualifying_cons_take count completed sm rest (by simpa using hc)
              (by omega)]
            have hl := hins _ _ _ hi
            simp only [hl, inviteEntries, List.take_succ_cons, List.map_cons, List.append_assoc,
              List.singleton_append]

/-- C24, counterexample. The campaign has the sub-missions `1`, `five`, `10` and the
counter is 6: the predicate writes the entry of the first sub-mission, then returns the
parse error of the second title; the entry stays in the ledger. -/
theorem invite_error_keeps_earlier_entry :
    checkInviteFriendsToDiscord exEnvBadTitle (exMission 12) "alice"
        { Content := "", StartTime := none } exWorld
      = .done (some (parseTitleError "five"))
          { ledger := [subMissionEntry exEnvBadTitle (exMission 12) "alice" "d1"
              (exSub 101 "1")],
            globalCounter := 0, calls := [.RedisGet "d1" 500] } := by
  decide

/-- C24, amended. With a store that appends what it accepts: if
`checkInviteFriendsToDiscord` returns an error, the ledger is the initial one, or the
initial one followed by the entries of a leading part of the qualifying sub-missions (those
handled before the error arose inside the loop). Nothing has been written when a lookup
before the loop fails or the counter is not positive, nor when every title is numeric and
the store accepts every insert, which leaves only the final `complete mission first`. -/
theorem invite_error_ledger (env : Env) (mission : Mission) (username : String)
    (qo : QueryOption) (w : World)
    (hins : ∀ l e l2, env.AddUserMissionAndInviteLog l e = .ok l2 → l2 = l ++ [e]) :
    (∀ e w2, checkInviteFriendsToDiscord env mission username qo w = .done (some e) w2 →
      w2.ledger = w.ledger ∨
      ∃ discordUserID subMission result ums n,
        env.GetDiscordOAuthByUsername username = .ok discordUserID ∧
        env.GetSubMissions mission.ID = .ok subMission ∧
        env.RedisGet discordUserID env.StartOfWeek = .ok result ∧
        env.GetUserMissionByMissionId w.ledger username mission.ID qo = .ok ums ∧
        w2.ledger = w.ledger ++ inviteEntries env mission username discordUserID
          ((qualifying (ParseInt result).1 (ums.map (fun m => m.SubMissionID)).dedup
            subMission).take n)) ∧
    (∀ e, env.GetDiscordOAuthByUsername username = .error e →
      checkInviteFriendsToDiscord env mission username qo w = .done (some e) w) ∧
    (∀ discordUserID e, env.GetDiscordOAuthByUsername username = .ok discordUserID →
      env.GetSubMissions mission.ID = .error e →
      checkInviteFriendsToDiscord env mission username qo w = .done (some e) w) ∧
    (∀ discordUserID subMission, env.GetDiscordOAuthByUsername username = .ok discordUserID →
      env.GetSubMissions mission.ID = .ok subMission →
      ∃ w2, w2.ledger = w.ledger ∧
        (∀ e, env.RedisGet discordUserID env.StartOfWeek = .error e →
          checkInviteFriendsToDiscord env mission username qo w = .done (some e) w2) ∧
        (∀ result, env.RedisGet discordUserID env.StartOfWeek = .ok result →
          ((ParseInt result).1 ≤ 0 →
            checkInviteFriendsToDiscord env mission username qo w
              = .done (some "complete mission first") w2) ∧
          (∀ e, 0 < (ParseInt result).1 →
            env.GetUserMissionByMissionId w.ledger username mission.ID qo = .error e →
            checkInviteFriendsToDiscord env mission username qo w = .done (some e) w2))) ∧
    ((∀ l e, env.AddUserMissionAndInviteLog l e = .ok (l ++ [e])) →
      (∀ subMission, env.GetSubMissions mission.ID = .ok subMission →
        ∀ sm ∈ subMission, (ParseInt sm.Title).2 = true) →
      ∀ e w2, checkInviteFriendsToDiscord env mission username qo w = .done (some e) w2 →
        w2.ledger = w.ledger) := by
  refine ⟨?_, ?_, ?_, ?_, ?_⟩
  · intro e w2 h
    unfold checkInviteFriendsToDiscord at h
    cases hd : env.GetDiscordOAuthByUsername username with
    | error e1 =>
      rw [hd] at h
      simp only [Ret.done.injEq] at h
      exact Or.inl (h.2 ▸ rfl)
    | ok d =>
      rw [hd] at h
      simp only at h
      cases hs : env.GetSubMissions mission.ID with
      | error e1 =>
        rw [hs] at h
        simp only [Ret.done.injEq] at h
        exact Or.inl (h.2 ▸ rfl)
      | ok subs =>
        rw [hs] at h
        simp only at h
        cases hr : env.RedisGet d env.StartOfWeek with
        | error e1 =>
          rw [hr] at h
          simp only [Ret.done.injEq] at h
          exact Or.inl (h.2 ▸ rfl)
        | ok result =>
          rw [hr] at h
          simp only at h
          by_cases hc : (ParseInt result).1 ≤ 0
          · rw [if_pos hc] at h
            simp only [Ret.done.injEq] at h
            exact Or.inl (h.2 ▸ rfl)
          · rw [if_neg hc] at h
            have hl0 : (w.log (.RedisGet d env.StartOfWeek)).ledger = w.ledger := rfl
            rw [hl0] at h
            cases hq : env.GetUserMissionByMissionId w.ledger username mission.ID qo with
            | error e1 =>
              rw [hq] at h
              simp only [Ret.done.injEq] at h
              exact Or.inl (h.2 ▸ rfl)
            | ok ums =>
              rw [hq] at h
              simp only at h
              right
              obtain ⟨n, hn⟩ := inviteLoop_written env mission username d (ParseInt result).1
                (ums.map (fun m => m.SubMissionID)).dedup hins subs
                ((ums.map (fun m => m.SubMissionID)).dedup.length : Int)
                (w.log (.RedisGet d env.StartOfWeek))
              rw [hl0] at hn
              rcases hloop : inviteLoop env mission username d (ParseInt result).1
                (ums.map (fun m => m.SubMissionID)).dedup subs
                ((ums.map (fun m => m.SubMissionID)).dedup.length : Int)
                (w.log (.RedisGet d env.StartOfWeek)) with ⟨res, wl⟩
              rw [hloop] at h hn
              simp only at hn
              have hw : wl = w2 := by
                cases res with
                | error e1 =>
                  simp only [Ret.done.injEq] at h
                  exact h.2
                | ok cc =>
                  simp only at h
                  split_ifs at h
                  · simp only [Ret.done.injEq] at h
                    exact h.2
                  · simp at h
              subst hw
              exact ⟨d, subs, result, ums, n, rfl, rfl, hr, rfl, hn⟩
  · intro e h
    simp only [checkInviteFriendsToDiscord, h]
  · intro d e hd hs
    simp only [checkInviteFriendsToDiscord, hd, hs]
  · intro d subs hd hs
    refine ⟨w.log (.RedisGet d env.StartOfWeek), rfl, ?_, ?_⟩
    · intro e hr
      simp only [checkInviteFriendsToDiscord, hd, hs, hr]
    · intro result hr
      constructor
      · intro hc
        simp only [checkInviteFriendsToDiscord, hd, hs, hr, if_pos hc]
      · intro e hc hq
        have hnc : ¬ (ParseInt result).1 ≤ 0 := by omega
        have hq2 : env.GetUserMissionByMissionId (w.log (.RedisGet d env.StartOfWeek)).ledger
            username mission.ID qo = .error e := hq
        simp only [checkInviteFriendsToDiscord, hd, hs, hr, if_neg hnc, hq2]
  · intro hall hnum e w2 h
    unfold checkInviteFriendsToDiscord at h
    cases hd : env.GetDiscordOAuthByUsername username with
    | error e1 =>
      rw [hd] at h
      simp only [Ret.done.injEq] at h
      exact h.2 ▸ rfl
    | ok d =>
      rw [hd] at h
      simp only at h
      cases hs : env.GetSubMissions mission.ID with
      | error e1 =>
        rw [hs] at h
        simp only [Ret.done.injEq] at h
        exact h.2 ▸ rfl
      | ok subs =>
        rw [hs] at h
        simp only at h
        cases hr : env.RedisGet d env.StartOfWeek with
        | error e1 =>
          rw [hr] at h
          simp only [Ret.done.injEq] at h
          exact h.2 ▸ rfl
        | ok result =>
          rw [hr] at h
          simp only at h
          by_cases hc : (ParseInt result).1 ≤ 0
          · rw [if_pos hc] at h
            simp only [Ret.done.injEq] at h
            exact h.2 ▸ rfl
          · rw [if_neg hc] at h
            have hl0 : (w.log (.RedisGet d env.StartOfWeek)).ledger = w.ledger := rfl
            rw [hl0] at h
            cases hq : env.GetUserMissionByMissionId w.ledger username mission.ID qo with
            | error e1 =>
              rw [hq] at h
              simp only [Ret.done.injEq] at h
              exact h.2 ▸ rfl
            | ok ums =>
              rw [hq] at h
              simp only at h
              rw [inviteLoop_ok env mission username d _ _ hall subs _ _ (hnum subs hs)] at h
              simp only at h
              split_ifs at h with hcc
              · simp only [Ret.done.injEq] at h
                have hq0 : qualifying (ParseInt result).1
                    (ums.map (fun m => m.SubMissionID)).dedup subs = [] := by
                  apply List.length_eq_zero.1
                  omega
                rw [← h.2, hq0]
                simp [inviteEntries, World.log]
              · simp at h

/-- Witness of the amended C24: in the example with the title `five`, the ledger after the
error is the initial one followed by a leading part of the qualifying entries. -/
theorem invite_error_ledger_witness :
    ([subMissionEntry exEnvBadTitle (exMission 12) "alice" "d1" (exSub 101 "1")]
        : List UserMission) = exWorld.ledger ∨
    ∃ discordUserID subMission result ums n,
      exEnvBadTitle.GetDiscordOAuthByUsername "alice" = .ok discordUserID ∧
      exEnvBadTitle.GetSubMissions (exMission 12).ID = .ok subMission ∧
      exEnvBadTitle.RedisGet discordUserID exEnvBadTitle.StartOfWeek = .ok result ∧
      exEnvBadTitle.GetUserMissionByMissionId exWorld.ledger "alice" (exMission 12).ID
        { Content := "", StartTime := none } = .ok ums ∧
      [subMissionEntry exEnvBadTitle (exMission 12) "alice" "d1" (exSub 101 "1")]
        = exWorld.ledger ++ inviteEntries exEnvBadTitle (exMission 12) "alice" discordUserID
          ((qualifying (ParseInt result).1 (ums.map (fun m => m.SubMissionID)).dedup
            subMission).take n) :=
  (invite_error_ledger exEnvBadTitle (exMission 12) "alice" { Content := "", StartTime := none }
    exWorld (fun _ _ _ h => by cases h; rfl)).1 (parseTitleError "five")
    { ledger := [subMissionEntry exEnvBadTitle (exMission 12) "alice" "d1" (exSub 101 "1")],
      globalCounter := 0, calls := [.RedisGet "d1" 500] } (by decide)

/-! ## The visit-and-dwell callback: proofs -/

theorem splitChars_no_sep (sep : Char) : ∀ (t cur : List Char), sep ∉ t →
    splitChars sep t cur = [cur.reverse ++ t] := by
  intro t
  induction t with
  | nil => intro cur _; simp [splitChars]
  | cons c cs ih =>
    intro cur h
    have hc : ¬ (c == sep) = true := by
      intro hcs
      have hce : c = sep := by simpa using hcs
      exact h (hce ▸ List.mem_cons_self _ _)
    have hcs : sep ∉ cs := fun h2 => h (List.mem_cons_of_mem _ h2)
    rw [splitChars, if_neg hc, ih _ hcs]
    simp

theorem splitChars_token (sep : Char) : ∀ (u t cur : List Char), sep ∉ u → sep ∉ t →
    splitChars sep (u ++ sep :: t) cur = [cur.reverse ++ u, t] := by
  intro u
  induction u with
  | nil =>
    intro t cur _ ht
    simp [splitChars, splitChars_no_sep sep t [] ht]
  | cons c cs ih =>
    intro t cur hu ht
    have hc : ¬ (c == sep) = true := by
      intro hcs
      have hce : c = sep := by simpa using hcs
      exact hu (hce ▸ List.mem_cons_self _ _)
    have hcs : sep ∉ cs := fun h2 => hu (List.mem_cons_of_mem _ h2)
    rw [List.cons_append, splitChars, if_neg hc, ih t _ hcs ht]
    simp

theorem Split_token (username tsText : String)
    (hu : ':' ∉ username.data) (ht : ':' ∉ tsText.data) :
    Split (username ++ ":" ++ tsText) ':' = [username, tsText] := by
  unfold Split
  have : (username ++ ":" ++ tsText).data = username.data ++ ':' :: tsText.data := by
    simp [String.data_append]
  rw [this, splitChars_token ':' _ _ [] hu ht]
  simp

/-- C21 (visit-and-dwell threshold). Let the submitted code decrypt to `username:timestamp`
(no `:` inside either part) with a timestamp that parses to a non-zero number `pnow`. If
the elapsed time `tnow - pnow` (the 64-bit difference the code computes) is at least the
configured dwell time, the callback calls `completeMission` once, for that username and
the browse-official-website mission, and answers according to its result; if it is below,
the callback answers success and leaves the world as it was, whatever `completeMission`
is: nothing is granted. When the subtraction does not overflow, the 64-bit difference is
the mathematical one. -/
theorem visit_and_dwell (env : BrowsEnv) (paramsCode username tsText : String) (w : World)
    (hcode : TrimSpace paramsCode ≠ "")
    (hdec : env.AesDecryptCBC (TrimSpace paramsCode) = .ok (username ++ ":" ++ tsText))
    (hu : ':' ∉ username.data) (ht : ':' ∉ tsText.data)
    (hts : (ParseInt tsText).1 ≠ 0) :
    (wrapInt64 (env.tnow - (ParseInt tsText).1) ≥ env.BrowsOfficialWebsiteTime →
      BrowsOfficialWebsiteCallback env (some paramsCode) w =
        match env.completeMission w username env.MissionIdBrowsOfficialWebSite with
        | (some _, w2) => .respond (.errorCode .InternalServer) w2
        | (none, w2) => .respond .nil w2) ∧
    (wrapInt64 (env.tnow - (ParseInt tsText).1) < env.BrowsOfficialWebsiteTime →
      BrowsOfficialWebsiteCallback env (some paramsCode) w = .respond .nil w) ∧
    (minInt64 ≤ env.tnow - (ParseInt tsText).1 → env.tnow - (ParseInt tsText).1 ≤ maxInt64 →
      wrapInt64 (env.tnow - (ParseInt tsText).1) = env.tnow - (ParseInt tsText).1) := by
  have hsplit := Split_token username tsText hu ht
  have hlen : ¬ ([username, tsText] : List String).length < 2 := by simp
  refine ⟨?_, ?_, ?_⟩
  · intro hge
    simp only [BrowsOfficialWebsiteCallback, if_neg hcode, hdec, hsplit, if_neg hlen,
      List.headD_cons, List.get?_cons_succ, List.get?_cons_zero, Option.getD_some, if_neg hts,
      if_pos hge]
  · intro hlt
    have hnge : ¬ wrapInt64 (env.tnow - (ParseInt tsText).1) ≥ env.BrowsOfficialWebsiteTime := by
      omega
    simp only [BrowsOfficialWebsiteCallback, if_neg hcode, hdec, hsplit, if_neg hlen,
      List.headD_cons, List.get?_cons_succ, List.get?_cons_zero, Option.getD_some, if_neg hts,
      if_neg hnge]
  · intro h1 h2
    unfold wrapInt64
    unfold minInt64 at h1
    unfold maxInt64 at h2
    omega

/-- Witness of C21: the token was issued at 1000 and the dwell time is 30 seconds; at time
1029 nothing is granted, at time 1030 the mission is granted to `alice`. -/
theorem visit_and_dwell_witness :
    BrowsOfficialWebsiteCallback (exBrowsEnv 1029) (some " c1 ") exWorld
      = .respond .nil exWorld ∧
    BrowsOfficialWebsiteCallback (exBrowsEnv 1030) (some " c1 ") exWorld
      = .respond .nil
          { ledger := [{ Username := "alice", MissionID := 20, SubMissionID := 0,
                         Typ := 0, Credit := 10, Content := "", CreatedAt := 1030 }],
            globalCounter := 0, calls := [] } := by
  have h := (visit_and_dwell (exBrowsEnv 1029) " c1 " "alice" "1000" exWorld (by decide)
    (by decide) (by decide) (by decide) (by decide)).2.1 (by decide)
  exact ⟨h, by decide⟩

/-! ## The identity-link handlers: proofs -/

/-- C22 (identity-link uniqueness). In each of the three bind handlers, when the lookup of
the external account id returns a row that is bound to an internal user (its `Username` is
not empty), the handler answers `SocialMediaAccountIsAlreadyInUse` and leaves the link
store as it was, so no link is written. For the Discord and the Twitter callback this is
stated for a request that reaches the lookup (parameters present, OAuth exchange done). -/
theorem link_already_in_use {σ : Type} (env : LinkEnv σ) (s : σ) (row : LinkRow)
    (hbound : row.Username ≠ "") :
    (∀ username host query err,
      env.GetTelegramOAuth s (ParseInt (queryGet query "id")).1 = (some row, err) →
      TelegramBindHandler env username host query s
        = .respond (.errorCode .SocialMediaAccountIsAlreadyInUse) s) ∧
    (∀ code state daRedirectUri accessToken uID uEmail err, code ≠ "" → state ≠ "" →
      env.GetDiscordOAuthByState s state = .ok daRedirectUri →
      env.Exchange (if daRedirectUri = "" then env.RedirectURI else daRedirectUri) code
        = .ok accessToken →
      env.DiscordUser accessToken = .ok (uID, uEmail) →
      env.GetDiscordOAuth s uID = (some row, err) →
      DiscordCallBackHandler env code state s
        = .respond (.errorCode .SocialMediaAccountIsAlreadyInUse) s) ∧
    (∀ oauthToken oauthVerify userId screenName err, oauthToken ≠ "" → oauthVerify ≠ "" →
      env.AuthorizeToken oauthToken oauthVerify = .ok (userId, screenName) →
      env.GetTwitterOauth s userId = (some row, err) →
      TwitterCallBackHandler env oauthToken oauthVerify s
        = .respond (.errorCode .SocialMediaAccountIsAlreadyInUse) s) := by
  have hb : alreadyBound (some row) = true := by
    simp [alreadyBound, hbound]
  refine ⟨?_, ?_, ?_⟩
  · intro username host query err h
    simp only [TelegramBindHandler, h, hb, if_true]
  · intro code state da tok uID uEmail err hc hs h1 h2 h3 h4
    have hne : ¬ (code = "" ∨ state = "") := by
      rintro (h | h)
      · exact hc h
      · exact hs h
    simp only [DiscordCallBackHandler, if_neg hne, h1, h2, h3, h4, hb, if_true]
  · intro tok ver userId screenName err ht hv h1 h2
    have hne : ¬ (tok = "" ∨ ver = "") := by
      rintro (h | h)
      · exact ht h
      · exact hv h
    simp only [TwitterCallBackHandler, if_neg hne, h1, h2, hb, if_true]

/-- Witness of C22: the Telegram account 31 is bound to `bob`, and `alice` tries to bind
it. -/
theorem link_already_in_use_witness :
    TelegramBindHandler exLinkEnv "alice" "quest.example" [("id", "31"), ("hash", "h")]
        [("31", "bob")]
      = .respond (.errorCode .SocialMediaAccountIsAlreadyInUse) [("31", "bob")] :=
  (link_already_in_use exLinkEnv [("31", "bob")] { Username := "bob" } (by decide)).1
    "alice" "quest.example" [("id", "31"), ("hash", "h")] none (by decide)

end TitanQuest
